import Mathlib

/-!
Bedrock guardrail: the asynchronous state-convergence waiter.

A shallow embedding of `internal/service/bedrock/guardrail.go`:

* `findGuardrailByID`, `statusGuardrail`, `waitGuardrailCreated`,
  `waitGuardrailUpdated` and `waitGuardrailDeleted` are translated from the Go source;
* the polling engine they call, `retry.StateChangeConf.WaitForStateContext`, belongs to a
  library whose code is not part of the sources at hand, so it is modelled from the design
  document (section 4.2) and marked as such;
* the remote service is a script: `GetGuardrail input k` is the answer to the `k`-th read.

Time is discrete (`Nat` ticks).  Only the sleep between two polls lets time pass; the waiter
is instrumented with the number of polls it issued and the instants at which they began.
-/

namespace Bedrock

/-! ## Data model -/

/-- Input of the `GetGuardrail` call (`bedrock.GetGuardrailInput`). -/
structure GetGuardrailInput where
  GuardrailIdentifier : String
  GuardrailVersion : String
  deriving DecidableEq, Repr

/-- Output of the `GetGuardrail` call (`bedrock.GetGuardrailOutput`), restricted to the fields
the resource reads.  `Status` is the string behind `awstypes.GuardrailStatus`. -/
structure GetGuardrailOutput where
  Status : String
  GuardrailArn : String := ""
  GuardrailId : String := ""
  Version : String := ""
  Name : String := ""
  UpdatedAt : Nat := 0
  KmsKeyArn : Option String := none
  deriving DecidableEq, Repr

/-- Errors handed back by the SDK call.  `wrapped` is an error that wraps another one
(`Unwrap`), as the SDK does around the modelled exception types. -/
inductive SdkError where
  | resourceNotFoundException (message : String)
  | other (code : String) (message : String)
  | wrapped (context : String) (inner : SdkError)
  deriving DecidableEq, Repr

/-- Go's `errors.As(err, &nfe)` with `nfe : *awstypes.ResourceNotFoundException`: walk the
chain of wrapped errors looking for the exception. -/
def errorsAsResourceNotFound : SdkError → Bool
  | .resourceNotFoundException _ => true
  | .other _ _ => false
  | .wrapped _ inner => errorsAsResourceNotFound inner

/-- Error values that `findGuardrailByID` can return: an SDK error passed through unchanged,
`&retry.NotFoundError{LastError: err, LastRequest: in}`, or
`tfresource.NewEmptyResultError(in)`. -/
inductive Error where
  | sdk (err : SdkError)
  | notFoundError (lastError : SdkError) (lastRequest : GetGuardrailInput)
  | emptyResultError (lastRequest : GetGuardrailInput)
  deriving DecidableEq, Repr

/-- Input of the `CreateGuardrail` call (`bedrock.CreateGuardrailInput`), restricted to a few
of the fields that `fwflex.Expand` fills from the plan, and the tags. -/
structure CreateGuardrailInput where
  Name : Option String := none
  Description : Option String := none
  BlockedInputMessaging : Option String := none
  BlockedOutputsMessaging : Option String := none
  KmsKeyId : Option String := none
  Tags : List (String × String) := []
  deriving DecidableEq, Repr

/-- Output of the `CreateGuardrail` call (`bedrock.CreateGuardrailOutput`); every field is a
pointer in the source. -/
structure CreateGuardrailOutput where
  GuardrailArn : Option String := none
  GuardrailId : Option String := none
  Version : Option String := none
  CreatedAt : Option String := none
  deriving DecidableEq, Repr

/-- Input of the `UpdateGuardrail` call (`bedrock.UpdateGuardrailInput`), restricted as
`CreateGuardrailInput` is. -/
structure UpdateGuardrailInput where
  GuardrailIdentifier : Option String := none
  Name : Option String := none
  Description : Option String := none
  BlockedInputMessaging : Option String := none
  BlockedOutputsMessaging : Option String := none
  KmsKeyId : Option String := none
  deriving DecidableEq, Repr

/-- Output of the `UpdateGuardrail` call (`bedrock.UpdateGuardrailOutput`). -/
structure UpdateGuardrailOutput where
  GuardrailArn : Option String := none
  GuardrailId : Option String := none
  Version : Option String := none
  deriving DecidableEq, Repr

/-- Input of the `DeleteGuardrail` call (`bedrock.DeleteGuardrailInput`). -/
structure DeleteGuardrailInput where
  GuardrailIdentifier : Option String := none
  deriving DecidableEq, Repr

/-- Output of the `DeleteGuardrail` call (`bedrock.DeleteGuardrailOutput`), which has no field
the resource reads. -/
structure DeleteGuardrailOutput where
  deriving DecidableEq, Repr

/-- The remote client (`*bedrock.Client`), as a script: `GetGuardrail input k` is the pair
`(out, err)` returned by the `k`-th `GetGuardrail` call made with `input`.  Each lifecycle
operation issues its mutating call at most once, so `CreateGuardrail`, `UpdateGuardrail` and
`DeleteGuardrail` give the pair returned by that one call; where a sample client does not
say, they fail with a server error. -/
structure Client where
  GetGuardrail : GetGuardrailInput → Nat → Option GetGuardrailOutput × Option SdkError
  CreateGuardrail : CreateGuardrailInput → Option CreateGuardrailOutput × Option SdkError :=
    fun _ => (none, some (.other "InternalServerException" "no script"))
  UpdateGuardrail : UpdateGuardrailInput → Option UpdateGuardrailOutput × Option SdkError :=
    fun _ => (none, some (.other "InternalServerException" "no script"))
  DeleteGuardrail : DeleteGuardrailInput → Option DeleteGuardrailOutput × Option SdkError :=
    fun _ => (none, some (.other "InternalServerException" "no script"))

/-- Modelled from the spec: the SDK constant `awstypes.GuardrailStatusCreating`, declared
outside the sources at hand; the label is the one the design document uses. -/
def GuardrailStatusCreating : String := "CREATING"

/-- Modelled from the spec: the SDK constant `awstypes.GuardrailStatusUpdating`. -/
def GuardrailStatusUpdating : String := "UPDATING"

/-- Modelled from the spec: the SDK constant `awstypes.GuardrailStatusReady`. -/
def GuardrailStatusReady : String := "READY"

/-- Modelled from the spec: the SDK constant `awstypes.GuardrailStatusDeleting`. -/
def GuardrailStatusDeleting : String := "DELETING"

/-- Modelled from the spec: the SDK constant `awstypes.GuardrailStatusFailed`. -/
def GuardrailStatusFailed : String := "FAILED"

/-! ## The waiter (modelled from the design document) -/

/-- Modelled from the spec: a probe result (section 3), the triple
`(snapshot or absence marker, status, error or nil)` produced by one call of the refresh
function (`retry.StateRefreshFunc`, declared outside the sources at hand). -/
structure ProbeResult (σ ε : Type) where
  result : Option σ
  state : String
  err : Option ε
  deriving DecidableEq, Repr

/-- Modelled from the spec: the fatal conditions of section 7.  `probe e` is the refresh
function's own error `e`, passed on as it is; `notFound` is the "resource disappeared while
waiting" error; `timeout` carries the last observed snapshot and status. -/
inductive WaitError (σ ε : Type) where
  | probe (e : ε)
  | notFound (retries : Nat)
  | unexpectedState (state : String)
  | timeout (lastResult : Option σ) (lastState : String)
  deriving DecidableEq, Repr

/-- Modelled from the spec: the inputs of the waiter (section 4.2),
`retry.StateChangeConf` in the source.  `Refresh k` is the result of the `k`-th call of the
refresh function.  `NotFoundChecks` and `ContinuousTargetOccurence` are `none` when the
caller leaves them unset. -/
structure StateChangeConf (σ ε : Type) where
  Pending : List String
  Target : List String
  Refresh : Nat → ProbeResult σ ε
  Timeout : Nat
  NotFoundChecks : Option Nat := none
  ContinuousTargetOccurence : Option Nat := none

/-- Modelled from the spec: "`notFoundChecks` threshold (default small positive integer,
e.g. 20)". -/
def StateChangeConf.notFoundChecks {σ ε : Type} (conf : StateChangeConf σ ε) : Nat :=
  conf.NotFoundChecks.getD 20

/-- Modelled from the spec: "`continuousTargetOccurrence` (default 1)". -/
def StateChangeConf.continuousTargetOccurence {σ ε : Type} (conf : StateChangeConf σ ε) : Nat :=
  conf.ContinuousTargetOccurence.getD 1

/-- Modelled from the spec: the state of one waiter invocation (section 3): elapsed time,
consecutive not-found count, consecutive matching-target count, last observed non-nil
snapshot (with its status).  `polls` and `probeTimes` record the probes issued so far and
the instants at which they began (most recent first). -/
structure WaitState (σ : Type) where
  elapsed : Nat
  notFoundTick : Nat
  targetOccurence : Nat
  lastResult : Option σ
  lastState : String
  polls : Nat
  probeTimes : List Nat
  deriving DecidableEq, Repr

/-- Modelled from the spec: what a waiter invocation returns, `(snapshot | absence, error)`,
together with the number of polls issued, the instants at which they began (most recent
first) and the elapsed time at termination. -/
structure WaitResult (σ ε : Type) where
  result : Option σ
  err : Option (WaitError σ ε)
  polls : Nat
  probeTimes : List Nat
  elapsed : Nat
  deriving DecidableEq, Repr

/-- Modelled from the spec: one turn of the waiter loop either goes on with a new state
("continue polling") or terminates the invocation. -/
inductive StepResult (σ ε : Type) where
  | next (st : WaitState σ)
  | done (out : WaitResult σ ε)
  deriving DecidableEq, Repr

/-- Modelled from the spec: the state at the start of an invocation. -/
def WaitState.init (σ : Type) : WaitState σ :=
  { elapsed := 0, notFoundTick := 0, targetOccurence := 0, lastResult := none,
    lastState := "", polls := 0, probeTimes := [] }

/-- Modelled from the spec: termination with an error; the waiter "never returns both a
snapshot and an error" (section 3), so no snapshot is returned with it. -/
def WaitState.fail {σ ε : Type} (st : WaitState σ) (e : WaitError σ ε) : StepResult σ ε :=
  .done { result := none, err := some e, polls := st.polls, probeTimes := st.probeTimes,
          elapsed := st.elapsed }

/-- Modelled from the spec: step 5, "wait one polling interval, then return to step 1". -/
def WaitState.sleep {σ ε : Type} (st : WaitState σ) (wait : Nat) : StepResult σ ε :=
  .next { st with elapsed := st.elapsed + wait }

/-- Modelled from the spec: step 4, the hysteresis check.  The waiter terminates
successfully, returning `snapshot`, only when the streak reaches
`continuousTargetOccurrence`; otherwise it sleeps and polls again. -/
def hysteresis {σ ε : Type} (conf : StateChangeConf σ ε) (st : WaitState σ)
    (snapshot : Option σ) (wait : Nat) : StepResult σ ε :=
  if conf.continuousTargetOccurence ≤ st.targetOccurence then
    .done { result := snapshot, err := none, polls := st.polls, probeTimes := st.probeTimes,
            elapsed := st.elapsed }
  else
    st.sleep wait

/-- Modelled from the spec: one turn of the loop of section 4.2.  `interval k` is the
polling interval slept after the probe of index `k`.

* timeout check (step 3), before the poll: elapsed time already exceeds the timeout;
* poll (step 1): the probe of index `st.polls`, begun at `st.elapsed`;
* classify (step 2): error, absence, or presence with a pending, target or other status;
* hysteresis check (step 4) and sleep (step 5). -/
def waitStep {σ ε : Type} (conf : StateChangeConf σ ε) (interval : Nat → Nat)
    (st : WaitState σ) : StepResult σ ε :=
  if conf.Timeout < st.elapsed then
    st.fail (.timeout st.lastResult st.lastState)
  else
    let res := conf.Refresh st.polls
    let wait := interval st.polls
    let st1 : WaitState σ :=
      { st with polls := st.polls + 1, probeTimes := st.elapsed :: st.probeTimes }
    match res.err with
    | some e => st1.fail (.probe e)
    | none =>
      match res.result with
      | none =>
        let st2 : WaitState σ := { st1 with notFoundTick := st1.notFoundTick + 1 }
        if conf.Target = [] then
          hysteresis conf { st2 with targetOccurence := st2.targetOccurence + 1 } none wait
        else if conf.notFoundChecks < st2.notFoundTick then
          st2.fail (.notFound st2.notFoundTick)
        else
          st2.sleep wait
      | some snapshot =>
        let st2 : WaitState σ :=
          { st1 with notFoundTick := 0, lastResult := some snapshot, lastState := res.state }
        if res.state ∈ conf.Pending then
          WaitState.sleep { st2 with targetOccurence := 0 } wait
        else if res.state ∈ conf.Target then
          hysteresis conf { st2 with targetOccurence := st2.targetOccurence + 1 }
            (some snapshot) wait
        else
          st2.fail (.unexpectedState res.state)

/-- Modelled from the spec: the "single logical loop per invocation", run for at most `fuel`
turns; `none` when the fuel runs out before the waiter terminates. -/
def waitLoop {σ ε : Type} (conf : StateChangeConf σ ε) (interval : Nat → Nat) :
    Nat → WaitState σ → Option (WaitResult σ ε)
  | 0, _ => none
  | fuel + 1, st =>
    match waitStep conf interval st with
    | .done out => some out
    | .next st' => waitLoop conf interval fuel st'

/-- Modelled from the spec: `wait(refresh, pending, target, timeout, notFoundChecks,
continuousTargetOccurrence) -> (snapshot | absence, error)`, the single synchronous call of
the waiter (`WaitForStateContext` in the source), from the initial state. -/
def StateChangeConf.WaitForStateContext {σ ε : Type} (conf : StateChangeConf σ ε)
    (interval : Nat → Nat) (fuel : Nat) : Option (WaitResult σ ε) :=
  waitLoop conf interval fuel (WaitState.init σ)

/-- Time elapsed when the probe of index `k` begins, if the waiter gets that far: the sum of
the intervals slept after the probes before it. -/
def elapsedBefore (interval : Nat → Nat) : Nat → Nat
  | 0 => 0
  | k + 1 => elapsedBefore interval k + interval k

/-! ## The guardrail lookup, refresh function and waits (from the source) -/

/-- The lookup `findGuardrailByID`, at the `k`-th read of the remote service. -/
def findGuardrailByID (conn : Client) (id : String) (version : String) (k : Nat) :
    Option GetGuardrailOutput × Option Error :=
  let input : GetGuardrailInput := { GuardrailIdentifier := id, GuardrailVersion := version }
  match conn.GetGuardrail input k with
  | (_, some err) =>
    if errorsAsResourceNotFound err then
      (none, some (.notFoundError err input))
    else
      (none, some (.sdk err))
  | (none, none) => (none, some (.emptyResultError input))
  | (some out, none) => (some out, none)

/-- The refresh function built by `statusGuardrail`; its `k`-th call performs the `k`-th
lookup.  `NotFound` is `tfresource.NotFound`, a helper declared outside the sources at hand
and taken as a parameter.  In the last branch the source reads `out.Status`; the lookup never
returns a nil output with a nil error, and the status is left empty there. -/
def statusGuardrail (NotFound : Option Error → Bool) (conn : Client) (id : String)
    (version : String) : Nat → ProbeResult GetGuardrailOutput Error :=
  fun k =>
    match findGuardrailByID conn id version k with
    | (out, err) =>
      if NotFound err then
        { result := none, state := "", err := none }
      else
        match err with
        | some e => { result := none, state := "", err := some e }
        | none =>
          { result := out, state := (out.map (fun o => o.Status)).getD "", err := none }

/-- The tail shared by the three waits: `if out, ok := outputRaw.(*T); ok { return out, err }`
and `return nil, err` otherwise. -/
def assertOutput {σ ε : Type} (r : WaitResult σ ε) : WaitResult σ ε :=
  match r.result with
  | some out => { r with result := some out }
  | none => { r with result := none }

/-- The wait `waitGuardrailCreated`. -/
def waitGuardrailCreated (NotFound : Option Error → Bool) (interval : Nat → Nat)
    (conn : Client) (id : String) (version : String) (timeout : Nat) (fuel : Nat) :
    Option (WaitResult GetGuardrailOutput Error) :=
  let stateConf : StateChangeConf GetGuardrailOutput Error :=
    { Pending := [GuardrailStatusCreating]
      Target := [GuardrailStatusReady]
      Refresh := statusGuardrail NotFound conn id version
      Timeout := timeout
      NotFoundChecks := some 20
      ContinuousTargetOccurence := some 2 }
  (stateConf.WaitForStateContext interval fuel).map assertOutput

/-- The wait `waitGuardrailUpdated`. -/
def waitGuardrailUpdated (NotFound : Option Error → Bool) (interval : Nat → Nat)
    (conn : Client) (id : String) (version : String) (timeout : Nat) (fuel : Nat) :
    Option (WaitResult GetGuardrailOutput Error) :=
  let stateConf : StateChangeConf GetGuardrailOutput Error :=
    { Pending := [GuardrailStatusUpdating]
      Target := [GuardrailStatusReady]
      Refresh := statusGuardrail NotFound conn id version
      Timeout := timeout
      NotFoundChecks := some 20
      ContinuousTargetOccurence := some 2 }
  (stateConf.WaitForStateContext interval fuel).map assertOutput

/-- The wait `waitGuardrailDeleted`. -/
def waitGuardrailDeleted (NotFound : Option Error → Bool) (interval : Nat → Nat)
    (conn : Client) (id : String) (version : String) (timeout : Nat) (fuel : Nat) :
    Option (WaitResult GetGuardrailOutput Error) :=
  let stateConf : StateChangeConf GetGuardrailOutput Error :=
    { Pending := [GuardrailStatusDeleting, GuardrailStatusReady]
      Target := []
      Refresh := statusGuardrail NotFound conn id version
      Timeout := timeout }
  (stateConf.WaitForStateContext interval fuel).map assertOutput

/-! ## Sample inputs -/

/-- A sample instance of the `NotFound` parameter: the errors built by the lookup for a
missing resource and for an empty result count as "not found". -/
def sampleNotFound : Option Error → Bool
  | some (.notFoundError _ _) => true
  | some (.emptyResultError _) => true
  | _ => false

/-- A sample remote service that answers the `k`-th read with the `k`-th element of a list
of statuses; `none` stands for a missing guardrail and the reads after the last element of
the list fail with a server error.  The `k`-th snapshot carries `UpdatedAt = k`. -/
def scriptedClient (script : List (Option String)) : Client :=
  { GetGuardrail := fun input k =>
      match script.get? k with
      | some (some status) =>
        (some { Status := status, GuardrailId := input.GuardrailIdentifier,
                Version := input.GuardrailVersion, UpdatedAt := k }, none)
      | some none => (none, some (.wrapped "GetGuardrail" (.resourceNotFoundException "gone")))
      | none => (none, some (.other "InternalServerException" "script exhausted")) }

/-! ## Outcomes and reachability -/

/-- The kinds of outcome of a waiter invocation. -/
inductive OutcomeKind where
  | successWithSnapshot
  | successWithAbsence
  | timeout
  | probeError
  | unexpectedStatus
  | notFoundExceeded
  deriving DecidableEq, Repr

/-- The kind of an outcome, read off the pair `(snapshot, error)` that is returned. -/
def WaitResult.kind {σ ε : Type} (r : WaitResult σ ε) : OutcomeKind :=
  match r.err, r.result with
  | none, some _ => .successWithSnapshot
  | none, none => .successWithAbsence
  | some (.timeout _ _), _ => .timeout
  | some (.probe _), _ => .probeError
  | some (.unexpectedState _), _ => .unexpectedStatus
  | some (.notFound _), _ => .notFoundExceeded

/-- The waiter started from the initial state is in state `st` after `n` turns of the loop,
none of which terminated it. -/
def Reaches {σ ε : Type} (conf : StateChangeConf σ ε) (interval : Nat → Nat)
    (st : WaitState σ) (n : Nat) : Prop :=
  ∀ fuel, waitLoop conf interval (fuel + n) (WaitState.init σ) = waitLoop conf interval fuel st

/-- The waiter reaches the probe of index `k` in state `st`: `k` turns of the loop went on,
`k` probes were issued, and the clock shows the sum of the intervals slept so far. -/
def At {σ ε : Type} (conf : StateChangeConf σ ε) (interval : Nat → Nat)
    (st : WaitState σ) (k : Nat) : Prop :=
  Reaches conf interval st k ∧ st.polls = k ∧ st.elapsed = elapsedBefore interval k

/-- The probe found no resource and reported no error. -/
@[reducible] def ProbeResult.isAbsent {σ ε : Type} (r : ProbeResult σ ε) : Prop :=
  r.err = none ∧ r.result = none

/-- The probe found the resource, without error, in one of the given statuses. -/
@[reducible] def ProbeResult.isPresentIn {σ ε : Type} (r : ProbeResult σ ε)
    (statuses : List String) : Prop :=
  r.err = none ∧ r.result ≠ none ∧ r.state ∈ statuses

/-- The configuration that `waitGuardrailCreated` hands to the waiter. -/
def createdConf (NotFound : Option Error → Bool) (conn : Client) (id : String)
    (version : String) (timeout : Nat) : StateChangeConf GetGuardrailOutput Error :=
  { Pending := [GuardrailStatusCreating]
    Target := [GuardrailStatusReady]
    Refresh := statusGuardrail NotFound conn id version
    Timeout := timeout
    NotFoundChecks := some 20
    ContinuousTargetOccurence := some 2 }

/-- The configuration that `waitGuardrailUpdated` hands to the waiter. -/
def updatedConf (NotFound : Option Error → Bool) (conn : Client) (id : String)
    (version : String) (timeout : Nat) : StateChangeConf GetGuardrailOutput Error :=
  { Pending := [GuardrailStatusUpdating]
    Target := [GuardrailStatusReady]
    Refresh := statusGuardrail NotFound conn id version
    Timeout := timeout
    NotFoundChecks := some 20
    ContinuousTargetOccurence := some 2 }

/-- The configuration that `waitGuardrailDeleted` hands to the waiter. -/
def deletedConf (NotFound : Option Error → Bool) (conn : Client) (id : String)
    (version : String) (timeout : Nat) : StateChangeConf GetGuardrailOutput Error :=
  { Pending := [GuardrailStatusDeleting, GuardrailStatusReady]
    Target := []
    Refresh := statusGuardrail NotFound conn id version
    Timeout := timeout }

/-! ## The resource: data, diagnostics and the lifecycle operations (from the source) -/

/-- Severity of a diagnostic of the plugin framework. -/
inductive Severity where
  | error
  | warning
  deriving DecidableEq, Repr

/-- A diagnostic of the plugin framework (`diag.Diagnostic`): severity, summary, detail. -/
structure Diagnostic where
  severity : Severity
  summary : String
  detail : String
  deriving DecidableEq, Repr

/-- The framework's `Diagnostics.HasError`: some diagnostic is an error. -/
def HasError (diags : List Diagnostic) : Bool :=
  diags.any (fun d => decide (d.severity = Severity.error))

/-- The framework's `Diagnostics.AddError`: one more error diagnostic at the end. -/
def AddError (diags : List Diagnostic) (summary : String) (detail : String) : List Diagnostic :=
  diags ++ [{ severity := .error, summary := summary, detail := detail }]

/-- The framework's `types.String`: null, unknown or a known value. -/
inductive StringValue where
  | null
  | unknown
  | value (s : String)
  deriving DecidableEq, Repr

/-- The framework's `ValueString`: the known value, or the empty string. -/
def StringValue.ValueString : StringValue → String
  | .value s => s
  | _ => ""

/-- The framework's `Equal` on string values. -/
def StringValue.Equal (a b : StringValue) : Bool := decide (a = b)

/-- A nested block of the resource (`fwtypes.ListNestedObjectValueOf`), kept as the list of
its encoded elements: the operations only compare such values. -/
inductive ListValue where
  | null
  | unknown
  | value (elems : List String)
  deriving DecidableEq, Repr

/-- The framework's `Equal` on list values. -/
def ListValue.Equal (a b : ListValue) : Bool := decide (a = b)

/-- The timeouts block of the resource (`timeouts.Value`). -/
structure TimeoutsValue where
  Create : Option Nat := none
  Update : Option Nat := none
  Delete : Option Nat := none
  deriving DecidableEq, Repr

/-- The resource model `resourceGuardrailData`. -/
structure resourceGuardrailData where
  GuardrailArn : StringValue := .null
  BlockedInputMessaging : StringValue := .null
  BlockedOutputsMessaging : StringValue := .null
  ContentPolicy : ListValue := .null
  ContextualGroundingPolicy : ListValue := .null
  CreatedAt : StringValue := .null
  Description : StringValue := .null
  ID : StringValue := .null
  KmsKeyId : StringValue := .null
  Name : StringValue := .null
  SensitiveInformationPolicy : ListValue := .null
  Status : StringValue := .null
  Tags : List (String × String) := []
  TagsAll : List (String × String) := []
  Timeouts : TimeoutsValue := {}
  TopicPolicy : ListValue := .null
  Version : StringValue := .null
  WordPolicy : ListValue := .null
  deriving DecidableEq, Repr

/-- The constant `ResNameGuardrail`. -/
def ResNameGuardrail : String := "Guardrail"

/-- The actions named in error messages, one for each constant `create.ErrAction...` that
the resource uses (the constants are declared outside the sources at hand). -/
inductive ErrAction where
  | Creating
  | WaitingForCreation
  | Setting
  | Updating
  | WaitingForUpdate
  | Deleting
  | WaitingForDeletion
  deriving DecidableEq, Repr

/-- A Go `error` value handed to `create.ProblemStandardMessage` or asked for its text: an SDK
error, an error of the lookup, or an error of the waiter. -/
inductive GoError where
  | sdk (err : SdkError)
  | find (err : Error)
  | wait (err : WaitError GetGuardrailOutput Error)
  deriving DecidableEq, Repr

/-- The plan or the prior state carried by a request (`tfsdk.Plan`, `tfsdk.State`): `Get`
decodes it into `Raw` and returns `GetDiags`. -/
structure Config where
  Raw : resourceGuardrailData
  GetDiags : List Diagnostic := []
  deriving DecidableEq, Repr

/-- The request of `Create` (`resource.CreateRequest`). -/
structure CreateRequest where
  Plan : Config
  deriving DecidableEq, Repr

/-- The request of `Update` (`resource.UpdateRequest`). -/
structure UpdateRequest where
  Plan : Config
  State : Config
  deriving DecidableEq, Repr

/-- The request of `Delete` (`resource.DeleteRequest`). -/
structure DeleteRequest where
  State : Config
  deriving DecidableEq, Repr

/-- The response of a lifecycle operation (`resource.CreateResponse` and the like): the
diagnostics and the state, `none` when there is none. -/
structure Response where
  Diagnostics : List Diagnostic := []
  State : Option resourceGuardrailData := none
  deriving DecidableEq, Repr

/-- What a lifecycle operation does that can be seen from outside, in order: the requests it
sends (with whether they returned no error), its direct lookups, its waits (with the error
they returned, if any) and its writes of the state. -/
inductive Event where
  | CreateGuardrail (ok : Bool)
  | UpdateGuardrail (ok : Bool)
  | DeleteGuardrail (ok : Bool)
  | findGuardrailByID
  | waitGuardrailCreated (err : Option (WaitError GetGuardrailOutput Error))
  | waitGuardrailUpdated (err : Option (WaitError GetGuardrailOutput Error))
  | waitGuardrailDeleted (err : Option (WaitError GetGuardrailOutput Error))
  | StateSet
  deriving DecidableEq, Repr

/-- The response left by a lifecycle operation, with the trace of what it did. -/
structure OpResult where
  response : Response
  trace : List Event
  deriving DecidableEq, Repr

/-- How a lifecycle operation ends: it returns, it dereferences a nil pointer, or the wait
it started has not terminated within the fuel. -/
inductive Run (α : Type) where
  | done (a : α)
  | panic
  | outOfFuel
  deriving DecidableEq, Repr

/-- What the lifecycle operations use but the sources at hand do not declare, taken as
parameters: `tfresource.NotFound`, the polling cadence of the waiter,
`create.ProblemStandardMessage`, the text of an error (`err.Error()`), the text of a string
value (`String()`), `names.Bedrock`, the two uses of `fwflex.Expand`, `getTagsIn`, the
conversions `fwflex.StringToFramework`, `fwflex.TimeToFramework` and
`fwtypes.StringEnumValue`, the timeouts of `framework.WithTimeouts`, the diagnostics
returned by `State.Set`, and the use of `fwflex.Flatten` made by `Read`. -/
structure Env where
  NotFound : Option Error → Bool
  interval : Nat → Nat
  ProblemStandardMessage : String → ErrAction → String → String → Option GoError → String
  ErrorString : GoError → String
  StringOf : StringValue → String
  Bedrock : String
  ExpandCreate : resourceGuardrailData → CreateGuardrailInput × List Diagnostic
  ExpandUpdate : resourceGuardrailData → UpdateGuardrailInput →
    UpdateGuardrailInput × List Diagnostic
  getTagsIn : List (String × String)
  StringToFramework : Option String → StringValue
  TimeToFramework : Option String → StringValue
  StringEnumValue : String → StringValue
  CreateTimeout : TimeoutsValue → Nat
  UpdateTimeout : TimeoutsValue → Nat
  DeleteTimeout : TimeoutsValue → Nat
  StateSet : resourceGuardrailData → List Diagnostic
  Flatten : GetGuardrailOutput → resourceGuardrailData →
    resourceGuardrailData × List Diagnostic

/-- The client as seen after `n` reads: its `k`-th read is read `n + k` of `conn`. -/
def Client.after (conn : Client) (n : Nat) : Client :=
  { conn with GetGuardrail := fun input k => conn.GetGuardrail input (n + k) }

/-- The operation `resourceGuardrail.Create`. -/
def resourceGuardrail.Create (env : Env) (conn : Client) (fuel : Nat) (req : CreateRequest)
    (resp : Response) : Run OpResult :=
  let plan := req.Plan.Raw
  let resp : Response := { resp with Diagnostics := resp.Diagnostics ++ req.Plan.GetDiags }
  if HasError resp.Diagnostics then
    .done { response := resp, trace := [] }
  else
    let expanded := env.ExpandCreate plan
    let resp : Response := { resp with Diagnostics := resp.Diagnostics ++ expanded.2 }
    if HasError resp.Diagnostics then
      .done { response := resp, trace := [] }
    else
      let input : CreateGuardrailInput := { expanded.1 with Tags := env.getTagsIn }
      match conn.CreateGuardrail input with
      | (_, some err) =>
        .done
          { response :=
              { resp with
                Diagnostics := AddError resp.Diagnostics
                  (env.ProblemStandardMessage env.Bedrock .Creating ResNameGuardrail
                    (env.StringOf plan.Name) (some (.sdk err)))
                  (env.ErrorString (.sdk err)) }
            trace := [.CreateGuardrail false] }
      | (none, none) => .panic
      | (some out, none) =>
        let plan : resourceGuardrailData :=
          { plan with
            GuardrailArn := env.StringToFramework out.GuardrailArn
            ID := env.StringToFramework out.GuardrailId
            Version := env.StringToFramework out.Version
            CreatedAt := env.TimeToFramework out.CreatedAt }
        let createTimeout := env.CreateTimeout plan.Timeouts
        match waitGuardrailCreated env.NotFound env.interval conn plan.ID.ValueString
            plan.Version.ValueString createTimeout fuel with
        | none => .outOfFuel
        | some w =>
          match w.err with
          | some err =>
            .done
              { response :=
                  { resp with
                    Diagnostics := AddError resp.Diagnostics
                      (env.ProblemStandardMessage env.Bedrock .WaitingForCreation
                        ResNameGuardrail (env.StringOf plan.Name) (some (.wait err)))
                      (env.ErrorString (.wait err)) }
                trace := [.CreateGuardrail true, .waitGuardrailCreated (some err)] }
          | none =>
            match findGuardrailByID conn plan.ID.ValueString plan.Version.ValueString
                w.polls with
            | (_, some err) =>
              .done
                { response :=
                    { resp with
                      Diagnostics := AddError resp.Diagnostics
                        (env.ProblemStandardMessage env.Bedrock .Setting ResNameGuardrail
                          (env.StringOf plan.ID) (some (.find err)))
                        (env.ErrorString (.find err)) }
                  trace := [.CreateGuardrail true, .waitGuardrailCreated none,
                    .findGuardrailByID] }
            | (none, none) => .panic
            | (some output, none) =>
              let plan : resourceGuardrailData :=
                { plan with Status := env.StringEnumValue output.Status }
              .done
                { response :=
                    { Diagnostics := resp.Diagnostics ++ env.StateSet plan
                      State := some plan }
                  trace := [.CreateGuardrail true, .waitGuardrailCreated none,
                    .findGuardrailByID, .StateSet] }

/-- The condition of `Update`: the plan differs from the prior state on one of the ten
compared fields. -/
def guardrailChanged (plan state : resourceGuardrailData) : Bool :=
  !plan.BlockedInputMessaging.Equal state.BlockedInputMessaging ||
    !plan.BlockedOutputsMessaging.Equal state.BlockedOutputsMessaging ||
    !plan.KmsKeyId.Equal state.KmsKeyId ||
    !plan.ContentPolicy.Equal state.ContentPolicy ||
    !plan.ContextualGroundingPolicy.Equal state.ContextualGroundingPolicy ||
    !plan.SensitiveInformationPolicy.Equal state.SensitiveInformationPolicy ||
    !plan.TopicPolicy.Equal state.TopicPolicy ||
    !plan.WordPolicy.Equal state.WordPolicy ||
    !plan.Name.Equal state.Name ||
    !plan.Description.Equal state.Description

/-- The end of `Update`, after the two branches: the wait, then the write of the state.
`conn` is the client as seen once the reads made before are past. -/
def resourceGuardrail.updateWait (env : Env) (conn : Client) (fuel : Nat)
    (plan state : resourceGuardrailData) (resp : Response) (before : List Event) :
    Run OpResult :=
  let updateTimeout := env.UpdateTimeout plan.Timeouts
  match waitGuardrailUpdated env.NotFound env.interval conn plan.ID.ValueString
      state.Version.ValueString updateTimeout fuel with
  | none => .outOfFuel
  | some w =>
    match w.err with
    | some err =>
      .done
        { response :=
            { resp with
              Diagnostics := AddError resp.Diagnostics
                (env.ProblemStandardMessage env.Bedrock .WaitingForUpdate ResNameGuardrail
                  (env.StringOf plan.ID) (some (.wait err)))
                (env.ErrorString (.wait err)) }
          trace := before ++ [.waitGuardrailUpdated (some err)] }
    | none =>
      .done
        { response :=
            { Diagnostics := resp.Diagnostics ++ env.StateSet plan
              State := some plan }
          trace := before ++ [.waitGuardrailUpdated none, .StateSet] }

/-- The operation `resourceGuardrail.Update`. -/
def resourceGuardrail.Update (env : Env) (conn : Client) (fuel : Nat) (req : UpdateRequest)
    (resp : Response) : Run OpResult :=
  let plan := req.Plan.Raw
  let state := req.State.Raw
  let resp : Response :=
    { resp with Diagnostics := resp.Diagnostics ++ req.Plan.GetDiags ++ req.State.GetDiags }
  if HasError resp.Diagnostics then
    .done { response := resp, trace := [] }
  else if guardrailChanged plan state then
    let expanded := env.ExpandUpdate plan { GuardrailIdentifier := some plan.ID.ValueString }
    let resp : Response := { resp with Diagnostics := resp.Diagnostics ++ expanded.2 }
    if HasError resp.Diagnostics then
      .done { response := resp, trace := [] }
    else
      match conn.UpdateGuardrail expanded.1 with
      | (_, some err) =>
        .done
          { response :=
              { resp with
                Diagnostics := AddError resp.Diagnostics
                  (env.ProblemStandardMessage env.Bedrock .Updating ResNameGuardrail
                    (env.StringOf plan.ID) (some (.sdk err)))
                  (env.ErrorString (.sdk err)) }
            trace := [.UpdateGuardrail false] }
      | (none, none) =>
        .done
          { response :=
              { resp with
                Diagnostics := AddError resp.Diagnostics
                  (env.ProblemStandardMessage env.Bedrock .Updating ResNameGuardrail
                    (env.StringOf plan.ID) none)
                  "empty output" }
            trace := [.UpdateGuardrail true] }
      | (some out, none) =>
        match out.GuardrailArn with
        | none =>
          .done
            { response :=
                { resp with
                  Diagnostics := AddError resp.Diagnostics
                    (env.ProblemStandardMessage env.Bedrock .Updating ResNameGuardrail
                      (env.StringOf plan.ID) none)
                    "empty output" }
              trace := [.UpdateGuardrail true] }
        | some _ =>
          let plan : resourceGuardrailData :=
            { plan with
              GuardrailArn := env.StringToFramework out.GuardrailArn
              ID := env.StringToFramework out.GuardrailId }
          match findGuardrailByID conn plan.ID.ValueString plan.Version.ValueString 0 with
          | (_, some err) =>
            .done
              { response :=
                  { resp with
                    Diagnostics := AddError resp.Diagnostics
                      (env.ProblemStandardMessage env.Bedrock .Setting ResNameGuardrail
                        (env.StringOf plan.ID) (some (.find err)))
                      (env.ErrorString (.find err)) }
                trace := [.UpdateGuardrail true, .findGuardrailByID] }
          | (none, none) => .panic
          | (some output, none) =>
            let plan : resourceGuardrailData :=
              { plan with Status := env.StringEnumValue output.Status }
            resourceGuardrail.updateWait env (conn.after 1) fuel plan state resp
              [.UpdateGuardrail true, .findGuardrailByID]
  else
    let plan : resourceGuardrailData :=
      { plan with
        Status := state.Status
        GuardrailArn := state.GuardrailArn
        ID := state.ID
        Version := state.Version
        CreatedAt := state.CreatedAt }
    resourceGuardrail.updateWait env conn fuel plan state resp []

/-- The operation `resourceGuardrail.Delete`. -/
def resourceGuardrail.Delete (env : Env) (conn : Client) (fuel : Nat) (req : DeleteRequest)
    (resp : Response) : Run OpResult :=
  let state := req.State.Raw
  let resp : Response := { resp with Diagnostics := resp.Diagnostics ++ req.State.GetDiags }
  if HasError resp.Diagnostics then
    .done { response := resp, trace := [] }
  else
    let input : DeleteGuardrailInput := { GuardrailIdentifier := some state.ID.ValueString }
    match conn.DeleteGuardrail input with
    | (_, some err) =>
      if errorsAsResourceNotFound err then
        .done { response := resp, trace := [.DeleteGuardrail false] }
      else
        .done
          { response :=
              { resp with
                Diagnostics := AddError resp.Diagnostics
                  (env.ProblemStandardMessage env.Bedrock .Deleting ResNameGuardrail
                    (env.StringOf state.ID) (some (.sdk err)))
                  (env.ErrorString (.sdk err)) }
            trace := [.DeleteGuardrail false] }
    | (_, none) =>
      let deleteTimeout := env.DeleteTimeout state.Timeouts
      match waitGuardrailDeleted env.NotFound env.interval conn state.ID.ValueString
          state.Version.ValueString deleteTimeout fuel with
      | none => .outOfFuel
      | some w =>
        match w.err with
        | some err =>
          .done
            { response :=
                { resp with
                  Diagnostics := AddError resp.Diagnostics
                    (env.ProblemStandardMessage env.Bedrock .WaitingForDeletion
                      ResNameGuardrail (env.StringOf state.ID) (some (.wait err)))
                    (env.ErrorString (.wait err)) }
              trace := [.DeleteGuardrail true, .waitGuardrailDeleted (some err)] }
        | none =>
          .done
            { response := resp, trace := [.DeleteGuardrail true, .waitGuardrailDeleted none] }

/-- The request of `Read` (`resource.ReadRequest`). -/
structure ReadRequest where
  State : Config
  deriving DecidableEq, Repr

/-- The operation `resourceGuardrail.Read`; its lookup is the first read of `conn`.
`State.RemoveResource` leaves no state.  In the last branch the source reads
`out.KmsKeyArn`, which dereferences a nil pointer when `out` is nil. -/
def resourceGuardrail.Read (env : Env) (conn : Client) (req : ReadRequest)
    (resp : Response) : Run OpResult :=
  let state := req.State.Raw
  let resp : Response := { resp with Diagnostics := resp.Diagnostics ++ req.State.GetDiags }
  if HasError resp.Diagnostics then
    .done { response := resp, trace := [] }
  else
    match findGuardrailByID conn state.ID.ValueString state.Version.ValueString 0 with
    | (out, err) =>
      if env.NotFound err then
        .done { response := { resp with State := none }, trace := [.findGuardrailByID] }
      else
        match err with
        | some e =>
          .done
            { response :=
                { resp with
                  Diagnostics := AddError resp.Diagnostics
                    (env.ProblemStandardMessage env.Bedrock .Setting ResNameGuardrail
                      (env.StringOf state.ID) (some (.find e)))
                    (env.ErrorString (.find e)) }
              trace := [.findGuardrailByID] }
        | none =>
          match out with
          | none => .panic
          | some o =>
            let flat := env.Flatten o state
            let resp : Response := { resp with Diagnostics := resp.Diagnostics ++ flat.2 }
            let state : resourceGuardrailData :=
              { flat.1 with KmsKeyId := env.StringToFramework o.KmsKeyArn }
            if HasError resp.Diagnostics then
              .done { response := resp, trace := [.findGuardrailByID] }
            else
              .done
                { response :=
                    { Diagnostics := resp.Diagnostics ++ env.StateSet state
                      State := some state }
                  trace := [.findGuardrailByID, .StateSet] }

/-! ## The validators of the name (from the source) -/

/-- Go's `len` of a string: the number of bytes of its UTF-8 encoding, character by
character. -/
def utf8Len (c : Char) : Nat :=
  if c.toNat < 128 then 1 else if c.toNat < 2048 then 2 else if c.toNat < 65536 then 3 else 4

/-- Go's `len(s)`. -/
def goLen (s : String) : Nat := (s.data.map utf8Len).sum

/-- The validator `stringvalidator.LengthBetween(min, max)` on a known value: its length in
bytes is between the bounds. -/
def LengthBetween (min max : Nat) (value : String) : Bool :=
  decide (min ≤ goLen value ∧ goLen value ≤ max)

/-- A range of a character class, both ends included. -/
structure CharRange where
  lo : Char
  hi : Char
  deriving DecidableEq, Repr

/-- The items of a character class as Go's `regexp/syntax` reads them (Perl flags), for a
class of plain characters and ranges: a character followed by a hyphen and by one more
character of the class is a range; any other character, a hyphen included, stands for
itself. -/
def parseClass : List Char → List CharRange
  | [] => []
  | [c] => [{ lo := c, hi := c }]
  | [c, d] => [{ lo := c, hi := c }, { lo := d, hi := d }]
  | lo :: d :: hi :: rest =>
    if d = '-' then
      { lo := lo, hi := hi } :: parseClass rest
    else
      { lo := lo, hi := lo } :: parseClass (d :: hi :: rest)

/-- A compiled expression of the shape `^[class]+$`: the ranges of its class. -/
structure Regexp where
  ranges : List CharRange
  deriving DecidableEq, Repr

/-- Go's `regexp.Compile` (behind `regexache.MustCompile`), for the expressions of the shape
`^[class]+$` that the resource uses; `none` for any other expression. -/
def regexpCompile (expr : String) : Option Regexp :=
  match expr.data with
  | '^' :: '[' :: rest =>
    if rest.dropWhile (fun c => c != ']') = [']', '+', '$'] then
      some { ranges := parseClass (rest.takeWhile (fun c => c != ']')) }
    else
      none
  | _ => none

/-- The character lies in one of the ranges. -/
def inRanges (ranges : List CharRange) (c : Char) : Bool :=
  ranges.any (fun r => decide (r.lo.toNat ≤ c.toNat ∧ c.toNat ≤ r.hi.toNat))

/-- Go's `MatchString` for an expression `^[class]+$`: the text is not empty and every
character of it is in the class (`$` matches at the end of the text only). -/
def Regexp.MatchString (re : Regexp) (s : String) : Bool :=
  !s.data.isEmpty && s.data.all (inRanges re.ranges)

/-- The expression `guardrailNameRegex`. -/
def guardrailNameRegex : Option Regexp := regexpCompile "^[0-9a-zA-Z-_]+$"

/-- The validator `stringvalidator.RegexMatches(re, "")` on a known value. -/
def RegexMatches (re : Option Regexp) (value : String) : Bool :=
  match re with
  | some r => r.MatchString value
  | none => false

/-- The validators of the attribute `name`, in the order of the schema. -/
def nameValidators : List (String → Bool) :=
  [LengthBetween 1 50, RegexMatches guardrailNameRegex]

/-- A known value is accepted when no validator of the list rejects it. -/
def acceptedBy (validators : List (String → Bool)) (value : String) : Bool :=
  validators.all (fun v => v value)

/-- An ASCII letter. -/
def isAsciiLetter (c : Char) : Prop :=
  (65 ≤ c.toNat ∧ c.toNat ≤ 90) ∨ (97 ≤ c.toNat ∧ c.toNat ≤ 122)

/-- An ASCII digit. -/
def isAsciiDigit (c : Char) : Prop := 48 ≤ c.toNat ∧ c.toNat ≤ 57

instance (c : Char) : Decidable (isAsciiLetter c) := by
  unfold isAsciiLetter; infer_instance

instance (c : Char) : Decidable (isAsciiDigit c) := by
  unfold isAsciiDigit; infer_instance

/-! ## Import of the resource (from the source) -/

/-- Go's `strings.Split` with a separator of one character, on the characters of the
string: the pieces between the separators, one more than there are separators. -/
def splitChars (sep : Char) : List Char → List (List Char)
  | [] => [[]]
  | c :: cs =>
    if c = sep then
      [] :: splitChars sep cs
    else
      match splitChars sep cs with
      | [] => [[c]]
      | piece :: pieces => (c :: piece) :: pieces

/-- Go's `strings.Split(s, sep)` for a separator `sep` of one character. -/
def stringsSplit (s : String) (sep : Char) : List String :=
  (splitChars sep s.data).map String.mk

/-- The two attributes that the import sets: `path.Root(names.AttrID)` and
`path.Root(names.AttrVersion)`. -/
inductive AttrPath where
  | AttrID
  | AttrVersion
  deriving DecidableEq, Repr

/-- The request of `ImportState` (`resource.ImportStateRequest`). -/
structure ImportStateRequest where
  ID : String
  deriving DecidableEq, Repr

/-- The response of `ImportState` (`resource.ImportStateResponse`): the diagnostics and the
attributes of the state that have been set. -/
structure ImportStateResponse where
  Diagnostics : List Diagnostic := []
  State : AttrPath → Option String := fun _ => none

/-- The framework's `State.SetAttribute` on the attributes of the import; it is taken to
return no diagnostic. -/
def ImportStateResponse.SetAttribute (resp : ImportStateResponse) (path : AttrPath)
    (value : String) : ImportStateResponse :=
  { resp with State := fun p => if p = path then some value else resp.State p }

/-- The operation `resourceGuardrail.ImportState`. -/
def resourceGuardrail.ImportState (request : ImportStateRequest)
    (response : ImportStateResponse) : ImportStateResponse :=
  let parts := stringsSplit request.ID ':'
  match parts with
  | [id, version] =>
    (response.SetAttribute .AttrID id).SetAttribute .AttrVersion version
  | _ =>
    { response with
      Diagnostics := AddError response.Diagnostics "Resource Import Invalid ID"
        ("Unexpected format for import ID (" ++ request.ID ++
          "), use: \"GuardrailId:Version\"") }

/-! ## Sample environment -/

/-- A sample environment for the lifecycle operations: messages are assembled from their
parts, every conversion keeps the value, and every timeout is 100 ticks. -/
def sampleEnv : Env :=
  { NotFound := sampleNotFound
    interval := fun _ => 1
    ProblemStandardMessage := fun service action res id err =>
      (match action with
        | .Creating => "creating"
        | .WaitingForCreation => "waiting for creation"
        | .Setting => "setting"
        | .Updating => "updating"
        | .WaitingForUpdate => "waiting for update"
        | .Deleting => "deleting"
        | .WaitingForDeletion => "waiting for deletion") ++
        " " ++ service ++ " " ++ res ++ " (" ++ id ++ ")" ++
        (match err with
          | none => ""
          | some _ => ": error")
    ErrorString := fun err =>
      match err with
      | .sdk _ => "sdk error"
      | .find _ => "lookup error"
      | .wait (.probe _) => "probe error"
      | .wait (.notFound _) => "couldn't find resource"
      | .wait (.unexpectedState s) => "unexpected state " ++ s
      | .wait (.timeout _ s) => "timeout while waiting, last state " ++ s
    StringOf := fun v =>
      match v with
      | .null => "<null>"
      | .unknown => "<unknown>"
      | .value s => s
    Bedrock := "Bedrock"
    ExpandCreate := fun plan => ({ Name := some plan.Name.ValueString }, [])
    ExpandUpdate := fun plan input => ({ input with Name := some plan.Name.ValueString }, [])
    getTagsIn := []
    StringToFramework := fun v =>
      match v with
      | none => .null
      | some s => .value s
    TimeToFramework := fun v =>
      match v with
      | none => .null
      | some s => .value s
    StringEnumValue := fun s => .value s
    CreateTimeout := fun _ => 100
    UpdateTimeout := fun _ => 100
    DeleteTimeout := fun _ => 100
    StateSet := fun _ => []
    Flatten := fun out state =>
      ({ state with
         Status := .value out.Status, GuardrailArn := .value out.GuardrailArn,
         ID := .value out.GuardrailId, Version := .value out.Version,
         Name := .value out.Name }, []) }

/-- A sample remote service for the lifecycle operations: the reads follow the script, as in
`scriptedClient`, and the three mutating requests succeed. -/
def sampleGuardrailClient (script : List (Option String)) : Client :=
  { scriptedClient script with
    CreateGuardrail := fun _ =>
      (some { GuardrailArn := some "arn:g", GuardrailId := some "g", Version := some "DRAFT",
              CreatedAt := some "t0" }, none)
    UpdateGuardrail := fun _ =>
      (some { GuardrailArn := some "arn:g", GuardrailId := some "g",
              Version := some "DRAFT" }, none)
    DeleteGuardrail := fun _ => (some {}, none) }

/-- A sample model of the resource, as a plan or a prior state. -/
def sampleData : resourceGuardrailData :=
  { Name := .value "n", ID := .value "g", Version := .value "DRAFT",
    GuardrailArn := .value "arn:g", Status := .value "READY" }

end Bedrock

/-! ## Service packages (from the source) -/

namespace Types

/-- An entry of `SDKDataSources` (`types.ServicePackageSDKDataSource`, declared outside the
sources at hand): the factory, kept by its name, and the type name. -/
structure ServicePackageSDKDataSource where
  Factory : String
  TypeName : String
  deriving DecidableEq, Repr

/-- An entry of `SDKResources` (`types.ServicePackageSDKResource`). -/
structure ServicePackageSDKResource where
  Factory : String
  TypeName : String
  deriving DecidableEq, Repr

end Types

namespace Ecs

/-- The data sources of the ECS service package, `servicePackage.SDKDataSources`. -/
def SDKDataSources : List Types.ServicePackageSDKDataSource :=
  [ { Factory := "DataSourceCluster", TypeName := "aws_ecs_cluster" },
    { Factory := "DataSourceContainerDefinition", TypeName := "aws_ecs_container_definition" },
    { Factory := "DataSourceService", TypeName := "aws_ecs_service" },
    { Factory := "DataSourceTaskDefinition", TypeName := "aws_ecs_task_definition" } ]

/-- The resources of the ECS service package, `servicePackage.SDKResources`. -/
def SDKResources : List Types.ServicePackageSDKResource :=
  [ { Factory := "ResourceAccountSettingDefault", TypeName := "aws_ecs_account_setting_default" },
    { Factory := "ResourceCapacityProvider", TypeName := "aws_ecs_capacity_provider" },
    { Factory := "ResourceCluster", TypeName := "aws_ecs_cluster" },
    { Factory := "ResourceClusterCapacityProviders",
      TypeName := "aws_ecs_cluster_capacity_providers" },
    { Factory := "ResourceService", TypeName := "aws_ecs_service" },
    { Factory := "ResourceTag", TypeName := "aws_ecs_tag" },
    { Factory := "ResourceTaskDefinition", TypeName := "aws_ecs_task_definition" },
    { Factory := "ResourceTaskSet", TypeName := "aws_ecs_task_set" } ]

end Ecs

namespace Fsx

/-- The data sources of the FSx service package, `servicePackage.SDKDataSources`. -/
def SDKDataSources : List Types.ServicePackageSDKDataSource :=
  [ { Factory := "DataSourceOpenzfsSnapshot", TypeName := "aws_fsx_openzfs_snapshot" } ]

/-- The resources of the FSx service package, `servicePackage.SDKResources`. -/
def SDKResources : List Types.ServicePackageSDKResource :=
  [ { Factory := "ResourceBackup", TypeName := "aws_fsx_backup" },
    { Factory := "ResourceDataRepositoryAssociation",
      TypeName := "aws_fsx_data_repository_association" },
    { Factory := "ResourceFileCache", TypeName := "aws_fsx_file_cache" },
    { Factory := "ResourceLustreFileSystem", TypeName := "aws_fsx_lustre_file_system" },
    { Factory := "ResourceOntapFileSystem", TypeName := "aws_fsx_ontap_file_system" },
    { Factory := "ResourceOntapStorageVirtualMachine",
      TypeName := "aws_fsx_ontap_storage_virtual_machine" },
    { Factory := "ResourceOntapVolume", TypeName := "aws_fsx_ontap_volume" },
    { Factory := "ResourceOpenzfsFileSystem", TypeName := "aws_fsx_openzfs_file_system" },
    { Factory := "ResourceOpenzfsSnapshot", TypeName := "aws_fsx_openzfs_snapshot" },
    { Factory := "ResourceOpenzfsVolume", TypeName := "aws_fsx_openzfs_volume" },
    { Factory := "ResourceWindowsFileSystem", TypeName := "aws_fsx_windows_file_system" } ]

end Fsx

/-! ## The wrappers of the provider (from the source) -/

namespace Fwprovider

open Bedrock (Diagnostic AddError)

/-- The operations of a resource or data source handler. -/
inductive Op where
  | Metadata
  | Schema
  | Create
  | Read
  | Update
  | Delete
  | Configure
  | ImportState
  | ModifyPlan
  | ConfigValidators
  | ValidateConfig
  deriving DecidableEq, Repr

/-- A response of the framework as the wrappers see it: the diagnostics and the rest. -/
structure Resp (δ : Type) where
  Diagnostics : List Diagnostic := []
  Data : δ
  deriving DecidableEq, Repr

/-- What a wrapper does that can be seen from outside, in order: a debug log
(`tflog.Debug`) or a call of an operation of the inner handler, with its arguments. -/
inductive Action (γ κ δ : Type) where
  | Debug (ctx : γ) (msg : String)
  | Inner (op : Op) (ctx : γ) (request : κ) (response : Resp δ)
  | InnerConfigValidators (ctx : γ)
  deriving DecidableEq, Repr

/-- The inner handler of a wrapped resource (`resource.ResourceWithConfigure`).  `TypeString`
is `reflect.TypeOf(inner).String()`.  An optional capability is `some` when the handler
implements the interface that the wrapper asserts (`resource.ResourceWithSchema`,
`ResourceWithImportState`, `ResourceWithModifyPlan`, `ResourceWithConfigValidators`,
`ResourceWithValidateConfig`). -/
structure ResourceWithConfigure (γ κ δ ν : Type) where
  TypeString : String
  Metadata : γ → κ → Resp δ → Resp δ
  Create : γ → κ → Resp δ → Resp δ
  Read : γ → κ → Resp δ → Resp δ
  Update : γ → κ → Resp δ → Resp δ
  Delete : γ → κ → Resp δ → Resp δ
  Configure : γ → κ → Resp δ → Resp δ
  Schema : Option (γ → κ → Resp δ → Resp δ) := none
  ImportState : Option (γ → κ → Resp δ → Resp δ) := none
  ModifyPlan : Option (γ → κ → Resp δ → Resp δ) := none
  ConfigValidators : Option (γ → List ν) := none
  ValidateConfig : Option (γ → κ → Resp δ → Resp δ) := none

/-- The inner handler of a wrapped data source (`datasource.DataSourceWithConfigure`). -/
structure DataSourceWithConfigure (γ κ δ : Type) where
  TypeString : String
  Metadata : γ → κ → Resp δ → Resp δ
  Read : γ → κ → Resp δ → Resp δ
  Configure : γ → κ → Resp δ → Resp δ
  Schema : Option (γ → κ → Resp δ → Resp δ) := none

/-- The response left by an operation of a wrapper, with what the wrapper did. -/
structure Outcome (γ κ δ : Type) where
  response : Resp δ
  actions : List (Action γ κ δ)

/-- Go's `strings.TrimPrefix(s, "*")`: the text without its leading star, if it has one. -/
def trimStar (s : String) : String :=
  match s.data with
  | '*' :: rest => String.mk rest
  | _ => s

/-- The type `wrappedResource`. -/
structure wrappedResource (γ κ δ ν : Type) where
  inner : ResourceWithConfigure γ κ δ ν
  typeName : String

/-- The type `wrappedDataSource`. -/
structure wrappedDataSource (γ κ δ : Type) where
  inner : DataSourceWithConfigure γ κ δ
  typeName : String

/-- The constructor `newWrappedResource`. -/
def newWrappedResource {γ κ δ ν : Type} (inner : ResourceWithConfigure γ κ δ ν) :
    wrappedResource γ κ δ ν :=
  { inner := inner, typeName := trimStar inner.TypeString }

/-- The constructor `newWrappedDataSource`. -/
def newWrappedDataSource {γ κ δ : Type} (inner : DataSourceWithConfigure γ κ δ) :
    wrappedDataSource γ κ δ :=
  { inner := inner, typeName := trimStar inner.TypeString }

section Wrapped

variable {γ κ δ ν : Type}

/-- The method `wrappedDataSource.Read`. -/
def wrappedDataSource.Read (w : wrappedDataSource γ κ δ) (ctx : γ) (request : κ)
    (response : Resp δ) : Outcome γ κ δ :=
  let log1 : List (Action γ κ δ) := [.Debug ctx (w.typeName ++ ".Read enter")]
  let response' := w.inner.Read ctx request response
  let log2 := log1 ++ [.Inner .Read ctx request response]
  { response := response', actions := log2 ++ [.Debug ctx (w.typeName ++ ".Read exit")] }

/-- The method `wrappedResource.Schema`. -/
def wrappedResource.Schema (w : wrappedResource γ κ δ ν) (ctx : γ) (request : κ)
    (response : Resp δ) : Outcome γ κ δ :=
  match w.inner.Schema with
  | some v => { response := v ctx request response, actions := [.Inner .Schema ctx request response] }
  | none =>
    { response :=
        { response with
          Diagnostics := AddError response.Diagnostics "Resource Schema Not Implemented"
            ("This resource does not support get schema. Please contact the provider " ++
              "developer for additional information.") }
      actions := [] }

/-- The method `wrappedResource.Create`. -/
def wrappedResource.Create (w : wrappedResource γ κ δ ν) (ctx : γ) (request : κ)
    (response : Resp δ) : Outcome γ κ δ :=
  let log1 : List (Action γ κ δ) := [.Debug ctx (w.typeName ++ ".Create enter")]
  let response' := w.inner.Create ctx request response
  let log2 := log1 ++ [.Inner .Create ctx request response]
  { response := response', actions := log2 ++ [.Debug ctx (w.typeName ++ ".Create exit")] }

/-- The method `wrappedResource.Read`. -/
def wrappedResource.Read (w : wrappedResource γ κ δ ν) (ctx : γ) (request : κ)
    (response : Resp δ) : Outcome γ κ δ :=
  let log1 : List (Action γ κ δ) := [.Debug ctx (w.typeName ++ ".Read enter")]
  let response' := w.inner.Read ctx request response
  let log2 := log1 ++ [.Inner .Read ctx request response]
  { response := response', actions := log2 ++ [.Debug ctx (w.typeName ++ ".Read exit")] }

/-- The method `wrappedResource.Update`. -/
def wrappedResource.Update (w : wrappedResource γ κ δ ν) (ctx : γ) (request : κ)
    (response : Resp δ) : Outcome γ κ δ :=
  let log1 : List (Action γ κ δ) := [.Debug ctx (w.typeName ++ ".Update enter")]
  let response' := w.inner.Update ctx request response
  let log2 := log1 ++ [.Inner .Update ctx request response]
  { response := response', actions := log2 ++ [.Debug ctx (w.typeName ++ ".Update exit")] }

/-- The method `wrappedResource.Delete`. -/
def wrappedResource.Delete (w : wrappedResource γ κ δ ν) (ctx : γ) (request : κ)
    (response : Resp δ) : Outcome γ κ δ :=
  let log1 : List (Action γ κ δ) := [.Debug ctx (w.typeName ++ ".Delete enter")]
  let response' := w.inner.Delete ctx request response
  let log2 := log1 ++ [.Inner .Delete ctx request response]
  { response := response', actions := log2 ++ [.Debug ctx (w.typeName ++ ".Delete exit")] }

/-- The method `wrappedResource.ImportState`. -/
def wrappedResource.ImportState (w : wrappedResource γ κ δ ν) (ctx : γ) (request : κ)
    (response : Resp δ) : Outcome γ κ δ :=
  match w.inner.ImportState with
  | some v =>
    { response := v ctx request response, actions := [.Inner .ImportState ctx request response] }
  | none =>
    { response :=
        { response with
          Diagnostics := AddError response.Diagnostics "Resource Import Not Implemented"
            ("This resource does not support import. Please contact the provider " ++
              "developer for additional information.") }
      actions := [] }

/-- The method `wrappedResource.ModifyPlan`. -/
def wrappedResource.ModifyPlan (w : wrappedResource γ κ δ ν) (ctx : γ) (request : κ)
    (response : Resp δ) : Outcome γ κ δ :=
  match w.inner.ModifyPlan with
  | some v =>
    { response := v ctx request response, actions := [.Inner .ModifyPlan ctx request response] }
  | none => { response := response, actions := [] }

/-- The method `wrappedResource.ConfigValidators`: the validators returned, `none` for a nil
slice, and what the wrapper did. -/
def wrappedResource.ConfigValidators (w : wrappedResource γ κ δ ν) (ctx : γ) :
    Option (List ν) × List (Action γ κ δ) :=
  match w.inner.ConfigValidators with
  | some v => (some (v ctx), [.InnerConfigValidators ctx])
  | none => (none, [])

/-- The method `wrappedResource.ValidateConfig`. -/
def wrappedResource.ValidateConfig (w : wrappedResource γ κ δ ν) (ctx : γ) (request : κ)
    (response : Resp δ) : Outcome γ κ δ :=
  match w.inner.ValidateConfig with
  | some v =>
    { response := v ctx request response,
      actions := [.Inner .ValidateConfig ctx request response] }
  | none => { response := response, actions := [] }

end Wrapped

/-- A warning of `tflog.Warn`, with the two fields that the provider attaches to it. -/
structure Warning where
  msg : String
  service_package_name : String
  error : String
  deriving DecidableEq, Repr

/-- A service package as the provider uses it: its name and its factories of resources and
of data sources.  A factory returns the instance it built and an error, `none` for nil,
here by its text (`err.Error()`). -/
structure ServicePackage (γ ι ο : Type) where
  ServicePackageName : String
  FrameworkResources : γ → List (γ → ι × Option String)
  FrameworkDataSources : γ → List (γ → ο × Option String)

section Registration

variable {γ κ δ ν : Type}

/-- One turn of the inner loop of `Resources`: `v, err := v(ctx)` declares the instance of
this turn; on error a warning is logged and the factory is skipped, otherwise a constructor
that wraps this instance is appended. -/
def resourcesStep (ctx : γ) (name : String)
    (acc : List (Unit → wrappedResource γ κ δ ν) × List Warning)
    (v : γ → ResourceWithConfigure γ κ δ ν × Option String) :
    List (Unit → wrappedResource γ κ δ ν) × List Warning :=
  match v ctx with
  | (_, some err) =>
    (acc.1, acc.2 ++ [{ msg := "creating resource", service_package_name := name,
                        error := err }])
  | (inst, none) => (acc.1 ++ [fun _ => newWrappedResource inst], acc.2)

/-- The method `fwprovider.Resources`: the constructors, in order, and the warnings
logged.  The container `ServicePackages` of the client is declared outside the files at
hand; `servicePackages` lists its service packages in the order in which the outer `range`
visits them. -/
def Resources (ctx : γ)
    (servicePackages :
      List (ServicePackage γ (ResourceWithConfigure γ κ δ ν) (DataSourceWithConfigure γ κ δ))) :
    List (Unit → wrappedResource γ κ δ ν) × List Warning :=
  servicePackages.foldl
    (fun acc sp =>
      (sp.FrameworkResources ctx).foldl (resourcesStep ctx sp.ServicePackageName) acc)
    ([], [])

/-- One turn of the inner loop of `DataSources`. -/
def dataSourcesStep (ctx : γ) (name : String)
    (acc : List (Unit → wrappedDataSource γ κ δ) × List Warning)
    (v : γ → DataSourceWithConfigure γ κ δ × Option String) :
    List (Unit → wrappedDataSource γ κ δ) × List Warning :=
  match v ctx with
  | (_, some err) =>
    (acc.1, acc.2 ++ [{ msg := "creating data source", service_package_name := name,
                        error := err }])
  | (inst, none) => (acc.1 ++ [fun _ => newWrappedDataSource inst], acc.2)

/-- The method `fwprovider.DataSources`. -/
def DataSources (ctx : γ)
    (servicePackages :
      List (ServicePackage γ (ResourceWithConfigure γ κ δ ν) (DataSourceWithConfigure γ κ δ))) :
    List (Unit → wrappedDataSource γ κ δ) × List Warning :=
  servicePackages.foldl
    (fun acc sp =>
      (sp.FrameworkDataSources ctx).foldl (dataSourcesStep ctx sp.ServicePackageName) acc)
    ([], [])

/-- The results of all the factories of resources, in service-package order then factory
order, each with the name of its service package. -/
def resourceFactoryResults (ctx : γ)
    (servicePackages :
      List (ServicePackage γ (ResourceWithConfigure γ κ δ ν) (DataSourceWithConfigure γ κ δ))) :
    List (String × ResourceWithConfigure γ κ δ ν × Option String) :=
  (servicePackages.map
    (fun sp => (sp.FrameworkResources ctx).map (fun v => (sp.ServicePackageName, v ctx)))).flatten

/-- The results of all the factories of data sources, in the same order. -/
def dataSourceFactoryResults (ctx : γ)
    (servicePackages :
      List (ServicePackage γ (ResourceWithConfigure γ κ δ ν) (DataSourceWithConfigure γ κ δ))) :
    List (String × DataSourceWithConfigure γ κ δ × Option String) :=
  (servicePackages.map
    (fun sp => (sp.FrameworkDataSources ctx).map (fun v => (sp.ServicePackageName, v ctx)))).flatten

end Registration

end Fwprovider

namespace Bedrock

/-! ## Single turns of the loop -/

section Steps

variable {σ ε : Type} (conf : StateChangeConf σ ε) (interval : Nat → Nat)

lemma waitStep_timeout (st : WaitState σ) (h : conf.Timeout < st.elapsed) :
    waitStep conf interval st =
      .done { result := none, err := some (.timeout st.lastResult st.lastState),
              polls := st.polls, probeTimes := st.probeTimes, elapsed := st.elapsed } := by
  simp [waitStep, h, WaitState.fail]

lemma waitStep_probe_err (st : WaitState σ) (h : st.elapsed ≤ conf.Timeout) (e : ε)
    (he : (conf.Refresh st.polls).err = some e) :
    waitStep conf interval st =
      .done { result := none, err := some (.probe e), polls := st.polls + 1,
              probeTimes := st.elapsed :: st.probeTimes, elapsed := st.elapsed } := by
  simp [waitStep, Nat.not_lt.mpr h, he, WaitState.fail]

lemma waitStep_pending (st : WaitState σ) (h : st.elapsed ≤ conf.Timeout) (snap : σ)
    (he : (conf.Refresh st.polls).err = none)
    (hr : (conf.Refresh st.polls).result = some snap)
    (hp : (conf.Refresh st.polls).state ∈ conf.Pending) :
    waitStep conf interval st =
      .next { elapsed := st.elapsed + interval st.polls, notFoundTick := 0,
              targetOccurence := 0, lastResult := some snap,
              lastState := (conf.Refresh st.polls).state, polls := st.polls + 1,
              probeTimes := st.elapsed :: st.probeTimes } := by
  simp [waitStep, Nat.not_lt.mpr h, he, hr, hp, WaitState.sleep]

lemma waitStep_target (st : WaitState σ) (h : st.elapsed ≤ conf.Timeout) (snap : σ)
    (he : (conf.Refresh st.polls).err = none)
    (hr : (conf.Refresh st.polls).result = some snap)
    (hp : (conf.Refresh st.polls).state ∉ conf.Pending)
    (ht : (conf.Refresh st.polls).state ∈ conf.Target) :
    waitStep conf interval st =
      hysteresis conf
        { elapsed := st.elapsed, notFoundTick := 0,
          targetOccurence := st.targetOccurence + 1, lastResult := some snap,
          lastState := (conf.Refresh st.polls).state, polls := st.polls + 1,
          probeTimes := st.elapsed :: st.probeTimes }
        (some snap) (interval st.polls) := by
  simp [waitStep, Nat.not_lt.mpr h, he, hr, hp, ht]

lemma waitStep_unexpected (st : WaitState σ) (h : st.elapsed ≤ conf.Timeout) (snap : σ)
    (he : (conf.Refresh st.polls).err = none)
    (hr : (conf.Refresh st.polls).result = some snap)
    (hp : (conf.Refresh st.polls).state ∉ conf.Pending)
    (ht : (conf.Refresh st.polls).state ∉ conf.Target) :
    waitStep conf interval st =
      .done { result := none, err := some (.unexpectedState (conf.Refresh st.polls).state),
              polls := st.polls + 1, probeTimes := st.elapsed :: st.probeTimes,
              elapsed := st.elapsed } := by
  simp [waitStep, Nat.not_lt.mpr h, he, hr, hp, ht, WaitState.fail]

lemma waitStep_absent_delete (st : WaitState σ) (h : st.elapsed ≤ conf.Timeout)
    (he : (conf.Refresh st.polls).err = none)
    (hr : (conf.Refresh st.polls).result = none)
    (hT : conf.Target = []) :
    waitStep conf interval st =
      hysteresis conf
        { elapsed := st.elapsed, notFoundTick := st.notFoundTick + 1,
          targetOccurence := st.targetOccurence + 1, lastResult := st.lastResult,
          lastState := st.lastState, polls := st.polls + 1,
          probeTimes := st.elapsed :: st.probeTimes }
        none (interval st.polls) := by
  simp [waitStep, Nat.not_lt.mpr h, he, hr, hT]

lemma waitStep_absent_tolerated (st : WaitState σ) (h : st.elapsed ≤ conf.Timeout)
    (he : (conf.Refresh st.polls).err = none)
    (hr : (conf.Refresh st.polls).result = none)
    (hT : conf.Target ≠ [])
    (hn : st.notFoundTick + 1 ≤ conf.notFoundChecks) :
    waitStep conf interval st =
      .next { elapsed := st.elapsed + interval st.polls,
              notFoundTick := st.notFoundTick + 1,
              targetOccurence := st.targetOccurence, lastResult := st.lastResult,
              lastState := st.lastState, polls := st.polls + 1,
              probeTimes := st.elapsed :: st.probeTimes } := by
  simp [waitStep, Nat.not_lt.mpr h, he, hr, hT, Nat.not_lt.mpr hn, WaitState.sleep]

lemma waitStep_absent_exceeded (st : WaitState σ) (h : st.elapsed ≤ conf.Timeout)
    (he : (conf.Refresh st.polls).err = none)
    (hr : (conf.Refresh st.polls).result = none)
    (hT : conf.Target ≠ [])
    (hn : conf.notFoundChecks < st.notFoundTick + 1) :
    waitStep conf interval st =
      .done { result := none, err := some (.notFound (st.notFoundTick + 1)),
              polls := st.polls + 1, probeTimes := st.elapsed :: st.probeTimes,
              elapsed := st.elapsed } := by
  simp [waitStep, Nat.not_lt.mpr h, he, hr, hT, hn, WaitState.fail]

lemma hysteresis_reached (st : WaitState σ) (snap : Option σ) (wait : Nat)
    (h : conf.continuousTargetOccurence ≤ st.targetOccurence) :
    hysteresis conf st snap wait =
      (.done { result := snap, err := none, polls := st.polls, probeTimes := st.probeTimes,
               elapsed := st.elapsed } : StepResult σ ε) := by
  simp [hysteresis, h]

lemma hysteresis_not_reached (st : WaitState σ) (snap : Option σ) (wait : Nat)
    (h : st.targetOccurence < conf.continuousTargetOccurence) :
    hysteresis conf st snap wait =
      (.next { st with elapsed := st.elapsed + wait } : StepResult σ ε) := by
  simp [hysteresis, Nat.not_le.mpr h, WaitState.sleep]

end Steps

/-! ## The loop -/

section Loop

variable {σ ε : Type} (conf : StateChangeConf σ ε) (interval : Nat → Nat)

lemma waitLoop_next (fuel : Nat) (st st' : WaitState σ)
    (h : waitStep conf interval st = .next st') :
    waitLoop conf interval (fuel + 1) st = waitLoop conf interval fuel st' := by
  simp [waitLoop, h]

lemma waitLoop_done (fuel : Nat) (st : WaitState σ) (out : WaitResult σ ε)
    (h : waitStep conf interval st = .done out) :
    waitLoop conf interval (fuel + 1) st = some out := by
  simp [waitLoop, h]

lemma reaches_init : Reaches conf interval (WaitState.init σ) 0 := fun _ => rfl

lemma reaches_next {st st' : WaitState σ} {n : Nat} (hr : Reaches conf interval st n)
    (h : waitStep conf interval st = .next st') : Reaches conf interval st' (n + 1) := by
  intro fuel
  have := hr (fuel + 1)
  rw [waitLoop_next conf interval fuel st st' h] at this
  rw [← this, Nat.add_right_comm, Nat.add_assoc]

lemma reaches_done {st : WaitState σ} {n : Nat} {out : WaitResult σ ε}
    (hr : Reaches conf interval st n) (h : waitStep conf interval st = .done out)
    (fuel : Nat) (hfuel : n + 1 ≤ fuel) :
    conf.WaitForStateContext interval fuel = some out := by
  obtain ⟨d, rfl⟩ : ∃ d, fuel = (d + 1) + n := ⟨fuel - (n + 1), by omega⟩
  unfold StateChangeConf.WaitForStateContext
  rw [hr (d + 1), waitLoop_done conf interval d st out h]

lemma reaches_running {st : WaitState σ} {n : Nat} (hr : Reaches conf interval st n) :
    conf.WaitForStateContext interval n = none := by
  have := hr 0
  simp only [Nat.zero_add] at this
  unfold StateChangeConf.WaitForStateContext
  rw [this]
  rfl

/-- Case analysis of one turn of the loop: the ten ways it can go. -/
lemma waitStep_elim {motive : StepResult σ ε → Prop} (st : WaitState σ)
    (timeout : conf.Timeout < st.elapsed →
      motive (.done { result := none, err := some (.timeout st.lastResult st.lastState),
                      polls := st.polls, probeTimes := st.probeTimes,
                      elapsed := st.elapsed }))
    (probeErr : ∀ e, st.elapsed ≤ conf.Timeout → (conf.Refresh st.polls).err = some e →
      motive (.done { result := none, err := some (.probe e), polls := st.polls + 1,
                      probeTimes := st.elapsed :: st.probeTimes, elapsed := st.elapsed }))
    (pending : ∀ snap, st.elapsed ≤ conf.Timeout → (conf.Refresh st.polls).err = none →
      (conf.Refresh st.polls).result = some snap →
      (conf.Refresh st.polls).state ∈ conf.Pending →
      motive (.next { elapsed := st.elapsed + interval st.polls, notFoundTick := 0,
                      targetOccurence := 0, lastResult := some snap,
                      lastState := (conf.Refresh st.polls).state, polls := st.polls + 1,
                      probeTimes := st.elapsed :: st.probeTimes }))
    (targetDone : ∀ snap, st.elapsed ≤ conf.Timeout → (conf.Refresh st.polls).err = none →
      (conf.Refresh st.polls).result = some snap →
      (conf.Refresh st.polls).state ∉ conf.Pending →
      (conf.Refresh st.polls).state ∈ conf.Target →
      conf.continuousTargetOccurence ≤ st.targetOccurence + 1 →
      motive (.done { result := some snap, err := none, polls := st.polls + 1,
                      probeTimes := st.elapsed :: st.probeTimes, elapsed := st.elapsed }))
    (targetNext : ∀ snap, st.elapsed ≤ conf.Timeout → (conf.Refresh st.polls).err = none →
      (conf.Refresh st.polls).result = some snap →
      (conf.Refresh st.polls).state ∉ conf.Pending →
      (conf.Refresh st.polls).state ∈ conf.Target →
      st.targetOccurence + 1 < conf.continuousTargetOccurence →
      motive (.next { elapsed := st.elapsed + interval st.polls, notFoundTick := 0,
                      targetOccurence := st.targetOccurence + 1, lastResult := some snap,
                      lastState := (conf.Refresh st.polls).state, polls := st.polls + 1,
                      probeTimes := st.elapsed :: st.probeTimes }))
    (unexpected : ∀ snap, st.elapsed ≤ conf.Timeout → (conf.Refresh st.polls).err = none →
      (conf.Refresh st.polls).result = some snap →
      (conf.Refresh st.polls).state ∉ conf.Pending →
      (conf.Refresh st.polls).state ∉ conf.Target →
      motive (.done { result := none,
                      err := some (.unexpectedState (conf.Refresh st.polls).state),
                      polls := st.polls + 1, probeTimes := st.elapsed :: st.probeTimes,
                      elapsed := st.elapsed }))
    (absentDone : st.elapsed ≤ conf.Timeout → (conf.Refresh st.polls).err = none →
      (conf.Refresh st.polls).result = none → conf.Target = [] →
      conf.continuousTargetOccurence ≤ st.targetOccurence + 1 →
      motive (.done { result := none, err := none, polls := st.polls + 1,
                      probeTimes := st.elapsed :: st.probeTimes, elapsed := st.elapsed }))
    (absentNext : st.elapsed ≤ conf.Timeout → (conf.Refresh st.polls).err = none →
      (conf.Refresh st.polls).result = none → conf.Target = [] →
      st.targetOccurence + 1 < conf.continuousTargetOccurence →
      motive (.next { elapsed := st.elapsed + interval st.polls,
                      notFoundTick := st.notFoundTick + 1,
                      targetOccurence := st.targetOccurence + 1,
                      lastResult := st.lastResult, lastState := st.lastState,
                      polls := st.polls + 1, probeTimes := st.elapsed :: st.probeTimes }))
    (absentTolerated : st.elapsed ≤ conf.Timeout → (conf.Refresh st.polls).err = none →
      (conf.Refresh st.polls).result = none → conf.Target ≠ [] →
      st.notFoundTick + 1 ≤ conf.notFoundChecks →
      motive (.next { elapsed := st.elapsed + interval st.polls,
                      notFoundTick := st.notFoundTick + 1,
                      targetOccurence := st.targetOccurence,
                      lastResult := st.lastResult, lastState := st.lastState,
                      polls := st.polls + 1, probeTimes := st.elapsed :: st.probeTimes }))
    (absentExceeded : st.elapsed ≤ conf.Timeout → (conf.Refresh st.polls).err = none →
      (conf.Refresh st.polls).result = none → conf.Target ≠ [] →
      conf.notFoundChecks < st.notFoundTick + 1 →
      motive (.done { result := none, err := some (.notFound (st.notFoundTick + 1)),
                      polls := st.polls + 1, probeTimes := st.elapsed :: st.probeTimes,
                      elapsed := st.elapsed })) :
    motive (waitStep conf interval st) := by
  by_cases h1 : conf.Timeout < st.elapsed
  · rw [waitStep_timeout conf interval st h1]; exact timeout h1
  have hle : st.elapsed ≤ conf.Timeout := Nat.not_lt.mp h1
  cases he : (conf.Refresh st.polls).err with
  | some e => rw [waitStep_probe_err conf interval st hle e he]; exact probeErr e hle he
  | none =>
    cases hr : (conf.Refresh st.polls).result with
    | none =>
      by_cases hT : conf.Target = []
      · rw [waitStep_absent_delete conf interval st hle he hr hT]
        by_cases hc : conf.continuousTargetOccurence ≤ st.targetOccurence + 1
        · rw [hysteresis_reached conf _ _ _ hc]; exact absentDone hle he hr hT hc
        · rw [hysteresis_not_reached conf _ _ _ (Nat.not_le.mp hc)]
          exact absentNext hle he hr hT (Nat.not_le.mp hc)
      · by_cases hn : conf.notFoundChecks < st.notFoundTick + 1
        · rw [waitStep_absent_exceeded conf interval st hle he hr hT hn]
          exact absentExceeded hle he hr hT hn
        · rw [waitStep_absent_tolerated conf interval st hle he hr hT (Nat.not_lt.mp hn)]
          exact absentTolerated hle he hr hT (Nat.not_lt.mp hn)
    | some snap =>
      by_cases hp : (conf.Refresh st.polls).state ∈ conf.Pending
      · rw [waitStep_pending conf interval st hle snap he hr hp]
        exact pending snap hle he hr hp
      · by_cases ht : (conf.Refresh st.polls).state ∈ conf.Target
        · rw [waitStep_target conf interval st hle snap he hr hp ht]
          by_cases hc : conf.continuousTargetOccurence ≤ st.targetOccurence + 1
          · rw [hysteresis_reached conf _ _ _ hc]; exact targetDone snap hle he hr hp ht hc
          · rw [hysteresis_not_reached conf _ _ _ (Nat.not_le.mp hc)]
            exact targetNext snap hle he hr hp ht (Nat.not_le.mp hc)
        · rw [waitStep_unexpected conf interval st hle snap he hr hp ht]
          exact unexpected snap hle he hr hp ht

/-- What a turn that goes on does to the instrumentation. -/
lemma waitStep_next_inv {st st' : WaitState σ} (h : waitStep conf interval st = .next st') :
    st'.polls = st.polls + 1 ∧ st'.elapsed = st.elapsed + interval st.polls ∧
      st'.probeTimes = st.elapsed :: st.probeTimes ∧ st.elapsed ≤ conf.Timeout := by
  revert h
  apply waitStep_elim conf interval
    (motive := fun r => r = .next st' →
      st'.polls = st.polls + 1 ∧ st'.elapsed = st.elapsed + interval st.polls ∧
        st'.probeTimes = st.elapsed :: st.probeTimes ∧ st.elapsed ≤ conf.Timeout) st <;>
    intros <;> simp_all <;> subst_vars <;> simp_all

/-- What a terminating turn reports: either the timeout, before any new probe, or the
outcome of one more probe, begun within the timeout. -/
lemma waitStep_done_inv {st : WaitState σ} {out : WaitResult σ ε}
    (h : waitStep conf interval st = .done out) :
    out.elapsed = st.elapsed ∧ (out.result = none ∨ out.err = none) ∧
      ((conf.Timeout < st.elapsed ∧ out.polls = st.polls ∧ out.probeTimes = st.probeTimes ∧
          out.kind = .timeout) ∨
        (st.elapsed ≤ conf.Timeout ∧ out.polls = st.polls + 1 ∧
          out.probeTimes = st.elapsed :: st.probeTimes ∧ out.kind ≠ .timeout)) := by
  revert h
  apply waitStep_elim conf interval
    (motive := fun r => r = .done out →
      out.elapsed = st.elapsed ∧ (out.result = none ∨ out.err = none) ∧
        ((conf.Timeout < st.elapsed ∧ out.polls = st.polls ∧
            out.probeTimes = st.probeTimes ∧ out.kind = .timeout) ∨
          (st.elapsed ≤ conf.Timeout ∧ out.polls = st.polls + 1 ∧
            out.probeTimes = st.elapsed :: st.probeTimes ∧ out.kind ≠ .timeout))) st <;>
    intros <;> simp_all [WaitResult.kind] <;> subst_vars <;> simp_all

lemma elapsedBefore_mono (j k : Nat) (h : j ≤ k) :
    elapsedBefore interval j ≤ elapsedBefore interval k := by
  induction k with
  | zero => simp_all
  | succ k ih =>
    rcases Nat.eq_or_lt_of_le h with rfl | hlt
    · exact le_rfl
    · exact le_trans (ih (Nat.lt_succ_iff.mp hlt)) (by simp [elapsedBefore])

lemma at_init : At conf interval (WaitState.init σ) 0 :=
  ⟨reaches_init conf interval, rfl, rfl⟩

lemma at_next {st st' : WaitState σ} {k : Nat} (h : At conf interval st k)
    (hs : waitStep conf interval st = .next st') : At conf interval st' (k + 1) := by
  obtain ⟨hr, hp, he⟩ := h
  obtain ⟨h1, h2, -, -⟩ := waitStep_next_inv conf interval hs
  exact ⟨reaches_next conf interval hr hs, by omega, by rw [h2, he, hp]; rfl⟩

/-- A pending status: the streak and the not-found counter are reset, polling continues. -/
lemma at_pending {st : WaitState σ} {k : Nat} (h : At conf interval st k)
    (ht : elapsedBefore interval k ≤ conf.Timeout)
    (he : (conf.Refresh k).err = none) (hr : (conf.Refresh k).result ≠ none)
    (hp : (conf.Refresh k).state ∈ conf.Pending) :
    ∃ st', At conf interval st' (k + 1) ∧ st'.targetOccurence = 0 ∧ st'.notFoundTick = 0 := by
  obtain ⟨snap, hsnap⟩ := Option.ne_none_iff_exists'.mp hr
  have hk := h.2.1
  subst hk
  have hs := waitStep_pending conf interval st (h.2.2 ▸ ht) snap he hsnap hp
  exact ⟨_, at_next conf interval h hs, rfl, rfl⟩

/-- A target status that does not complete the streak: polling continues. -/
lemma at_target_next {st : WaitState σ} {k : Nat} (h : At conf interval st k)
    (ht : elapsedBefore interval k ≤ conf.Timeout)
    (he : (conf.Refresh k).err = none) (hr : (conf.Refresh k).result ≠ none)
    (hp : (conf.Refresh k).state ∉ conf.Pending) (hg : (conf.Refresh k).state ∈ conf.Target)
    (hc : st.targetOccurence + 1 < conf.continuousTargetOccurence) :
    ∃ st', At conf interval st' (k + 1) ∧ st'.targetOccurence = st.targetOccurence + 1 ∧
      st'.notFoundTick = 0 := by
  obtain ⟨snap, hsnap⟩ := Option.ne_none_iff_exists'.mp hr
  have hk := h.2.1
  subst hk
  have hs := waitStep_target conf interval st (h.2.2 ▸ ht) snap he hsnap hp hg
  rw [hysteresis_not_reached conf _ _ _ hc] at hs
  exact ⟨_, at_next conf interval h hs, rfl, rfl⟩

/-- A target status that completes the streak: success with the snapshot of this probe. -/
lemma at_target_done {st : WaitState σ} {k : Nat} (h : At conf interval st k)
    (ht : elapsedBefore interval k ≤ conf.Timeout)
    (he : (conf.Refresh k).err = none) (hr : (conf.Refresh k).result ≠ none)
    (hp : (conf.Refresh k).state ∉ conf.Pending) (hg : (conf.Refresh k).state ∈ conf.Target)
    (hc : conf.continuousTargetOccurence ≤ st.targetOccurence + 1)
    (fuel : Nat) (hfuel : k + 1 ≤ fuel) :
    ∃ out, conf.WaitForStateContext interval fuel = some out ∧ out.err = none ∧
      out.result = (conf.Refresh k).result ∧ out.polls = k + 1 ∧
      out.elapsed = elapsedBefore interval k := by
  obtain ⟨snap, hsnap⟩ := Option.ne_none_iff_exists'.mp hr
  have hk := h.2.1
  subst hk
  have hs := waitStep_target conf interval st (h.2.2 ▸ ht) snap he hsnap hp hg
  rw [hysteresis_reached conf _ _ _ hc] at hs
  exact ⟨_, reaches_done conf interval h.1 hs fuel hfuel, rfl, hsnap.symm, rfl, h.2.2⟩

/-- An absence within the tolerance, with a target to reach: polling continues and the
streak is left as it is. -/
lemma at_absent_tolerated {st : WaitState σ} {k : Nat} (h : At conf interval st k)
    (ht : elapsedBefore interval k ≤ conf.Timeout)
    (he : (conf.Refresh k).err = none) (hr : (conf.Refresh k).result = none)
    (hT : conf.Target ≠ []) (hn : st.notFoundTick + 1 ≤ conf.notFoundChecks) :
    ∃ st', At conf interval st' (k + 1) ∧ st'.targetOccurence = st.targetOccurence ∧
      st'.notFoundTick = st.notFoundTick + 1 := by
  have hk := h.2.1
  subst hk
  have hs := waitStep_absent_tolerated conf interval st (h.2.2 ▸ ht) he hr hT hn
  exact ⟨_, at_next conf interval h hs, rfl, rfl⟩

/-- An absence beyond the tolerance, with a target to reach: the not-found error. -/
lemma at_absent_exceeded {st : WaitState σ} {k : Nat} (h : At conf interval st k)
    (ht : elapsedBefore interval k ≤ conf.Timeout)
    (he : (conf.Refresh k).err = none) (hr : (conf.Refresh k).result = none)
    (hT : conf.Target ≠ []) (hn : conf.notFoundChecks < st.notFoundTick + 1)
    (fuel : Nat) (hfuel : k + 1 ≤ fuel) :
    ∃ out, conf.WaitForStateContext interval fuel = some out ∧
      out.err = some (.notFound (st.notFoundTick + 1)) ∧ out.result = none ∧
      out.polls = k + 1 ∧ out.elapsed = elapsedBefore interval k := by
  have hk := h.2.1
  subst hk
  have hs := waitStep_absent_exceeded conf interval st (h.2.2 ▸ ht) he hr hT hn
  exact ⟨_, reaches_done conf interval h.1 hs fuel hfuel, rfl, rfl, rfl, h.2.2⟩

/-- An absence with no target to reach that does not complete the streak. -/
lemma at_absent_delete_next {st : WaitState σ} {k : Nat} (h : At conf interval st k)
    (ht : elapsedBefore interval k ≤ conf.Timeout)
    (he : (conf.Refresh k).err = none) (hr : (conf.Refresh k).result = none)
    (hT : conf.Target = [])
    (hc : st.targetOccurence + 1 < conf.continuousTargetOccurence) :
    ∃ st', At conf interval st' (k + 1) ∧ st'.targetOccurence = st.targetOccurence + 1 := by
  have hk := h.2.1
  subst hk
  have hs := waitStep_absent_delete conf interval st (h.2.2 ▸ ht) he hr hT
  rw [hysteresis_not_reached conf _ _ _ hc] at hs
  exact ⟨_, at_next conf interval h hs, rfl⟩

/-- An absence with no target to reach that completes the streak: success with the absence
marker. -/
lemma at_absent_delete_done {st : WaitState σ} {k : Nat} (h : At conf interval st k)
    (ht : elapsedBefore interval k ≤ conf.Timeout)
    (he : (conf.Refresh k).err = none) (hr : (conf.Refresh k).result = none)
    (hT : conf.Target = [])
    (hc : conf.continuousTargetOccurence ≤ st.targetOccurence + 1)
    (fuel : Nat) (hfuel : k + 1 ≤ fuel) :
    ∃ out, conf.WaitForStateContext interval fuel = some out ∧ out.err = none ∧
      out.result = none ∧ out.polls = k + 1 ∧ out.elapsed = elapsedBefore interval k := by
  have hk := h.2.1
  subst hk
  have hs := waitStep_absent_delete conf interval st (h.2.2 ▸ ht) he hr hT
  rw [hysteresis_reached conf _ _ _ hc] at hs
  exact ⟨_, reaches_done conf interval h.1 hs fuel hfuel, rfl, rfl, rfl, h.2.2⟩

end Loop

/-! ## Convergence on a run of target statuses -/

section Convergence

variable {σ ε : Type} (conf : StateChangeConf σ ε) (interval : Nat → Nat)

/-- While every probe reports a present resource with a pending or a target status and no
run of target statuses has reached the required length, the streak counter is the length of
the run of target statuses that ends at the previous probe. -/
lemma streak_invariant (c n : Nat) (hc : conf.continuousTargetOccurence = c) (hc1 : 1 ≤ c)
    (hdisj : ∀ s ∈ conf.Target, s ∉ conf.Pending)
    (hok : ∀ i, i < n → (conf.Refresh i).err = none ∧ (conf.Refresh i).result ≠ none ∧
      ((conf.Refresh i).state ∈ conf.Pending ∨ (conf.Refresh i).state ∈ conf.Target))
    (hfirst : ∀ m, c ≤ m → m < n →
      ∃ i, m - c ≤ i ∧ i < m ∧ (conf.Refresh i).state ∉ conf.Target)
    (htime : elapsedBefore interval (n - 1) ≤ conf.Timeout) :
    ∀ k, k < n → ∃ st, At conf interval st k ∧ st.targetOccurence ≤ k ∧
      st.targetOccurence < c ∧
      (∀ i, k - st.targetOccurence ≤ i → i < k → (conf.Refresh i).state ∈ conf.Target) ∧
      (st.targetOccurence = k ∨
        ∃ j, j + st.targetOccurence + 1 = k ∧ (conf.Refresh j).state ∉ conf.Target) := by
  intro k
  induction k with
  | zero =>
    intro _
    exact ⟨WaitState.init σ, at_init conf interval, le_rfl, hc1, by intro i _ hi; omega,
      Or.inl rfl⟩
  | succ k ih =>
    intro hk
    obtain ⟨st, hat, hle, hlt, hrun, hmax⟩ := ih (by omega)
    obtain ⟨he, hr, hst⟩ := hok k (by omega)
    have ht : elapsedBefore interval k ≤ conf.Timeout :=
      le_trans (elapsedBefore_mono interval k (n - 1) (by omega)) htime
    by_cases hp : (conf.Refresh k).state ∈ conf.Pending
    · obtain ⟨st', hat', hocc, -⟩ := at_pending conf interval hat ht he hr hp
      refine ⟨st', hat', by omega, by omega, ?_, Or.inr ⟨k, by omega, ?_⟩⟩
      · intro i h1 h2; omega
      · exact fun hg => hdisj _ hg hp
    · have hg : (conf.Refresh k).state ∈ conf.Target := hst.resolve_left hp
      by_cases hs : st.targetOccurence + 1 < c
      · obtain ⟨st', hat', hocc, -⟩ :=
          at_target_next conf interval hat ht he hr hp hg (hc ▸ hs)
        refine ⟨st', hat', by omega, by omega, ?_, ?_⟩
        · intro i h1 h2
          rcases Nat.lt_or_ge i k with hik | hik
          · exact hrun i (by omega) hik
          · have : i = k := by omega
            exact this ▸ hg
        · rcases hmax with hmax | ⟨j, hj, hjt⟩
          · exact Or.inl (by omega)
          · exact Or.inr ⟨j, by omega, hjt⟩
      · exfalso
        obtain ⟨i, h1, h2, h3⟩ := hfirst (k + 1) (by omega) hk
        rcases Nat.lt_or_ge i k with hik | hik
        · exact h3 (hrun i (by omega) hik)
        · have : i = k := by omega
          exact h3 (this ▸ hg)

/-- The waiter succeeds at the last probe of a sequence of present, error-free probes that
ends with the required run of target statuses and has no such run earlier on. -/
lemma converges_at_final (c n : Nat) (hc : conf.continuousTargetOccurence = c) (hc1 : 1 ≤ c)
    (hdisj : ∀ s ∈ conf.Target, s ∉ conf.Pending) (hn : c ≤ n)
    (hok : ∀ i, i < n → (conf.Refresh i).err = none ∧ (conf.Refresh i).result ≠ none ∧
      ((conf.Refresh i).state ∈ conf.Pending ∨ (conf.Refresh i).state ∈ conf.Target))
    (hlast : ∀ i, n - c ≤ i → i < n → (conf.Refresh i).state ∈ conf.Target)
    (hfirst : ∀ m, c ≤ m → m < n →
      ∃ i, m - c ≤ i ∧ i < m ∧ (conf.Refresh i).state ∉ conf.Target)
    (htime : elapsedBefore interval (n - 1) ≤ conf.Timeout)
    (fuel : Nat) (hfuel : n ≤ fuel) :
    ∃ out, conf.WaitForStateContext interval fuel = some out ∧ out.err = none ∧
      out.result = (conf.Refresh (n - 1)).result ∧ out.polls = n ∧
      conf.WaitForStateContext interval (n - 1) = none := by
  obtain ⟨st, hat, hle, hlt, hrun, hmax⟩ :=
    streak_invariant conf interval c n hc hc1 hdisj hok hfirst htime (n - 1) (by omega)
  obtain ⟨he, hr, -⟩ := hok (n - 1) (by omega)
  have hg : (conf.Refresh (n - 1)).state ∈ conf.Target := hlast (n - 1) (by omega) (by omega)
  have hp : (conf.Refresh (n - 1)).state ∉ conf.Pending := hdisj _ hg
  have hs : conf.continuousTargetOccurence ≤ st.targetOccurence + 1 := by
    rw [hc]
    by_contra hcon
    rcases hmax with hmax | ⟨j, hj, hjt⟩
    · omega
    · exact hjt (hlast j (by omega) (by omega))
  obtain ⟨out, h1, h2, h3, h4, -⟩ :=
    at_target_done conf interval hat htime he hr hp hg hs fuel (by omega)
  have hn1 : n - 1 + 1 = n := Nat.sub_add_cancel (le_trans hc1 hn)
  exact ⟨out, h1, h2, h3, h4.trans hn1, reaches_running conf interval hat.1⟩

end Convergence

/-! ## Stopping at a fatal probe, and independence from the probes not issued -/

section Stopping

variable {σ ε : Type} (conf : StateChangeConf σ ε) (interval : Nat → Nat)

/-- The number of polls never decreases along the loop. -/
lemma waitLoop_polls_le : ∀ (fuel : Nat) (st : WaitState σ) (out : WaitResult σ ε),
    waitLoop conf interval fuel st = some out → st.polls ≤ out.polls := by
  intro fuel
  induction fuel with
  | zero => intro st out h; simp [waitLoop] at h
  | succ fuel ih =>
    intro st out h
    cases hs : waitStep conf interval st with
    | done o =>
      rw [waitLoop_done conf interval fuel st o hs] at h
      obtain ⟨-, -, h3⟩ := waitStep_done_inv conf interval hs
      cases h
      omega
    | next st' =>
      rw [waitLoop_next conf interval fuel st st' hs] at h
      have := ih st' out h
      have := (waitStep_next_inv conf interval hs).1
      omega

/-- If every turn that issues the probe of index `k` terminates, with an outcome that
satisfies `P`, the waiter terminates within `k + 1` turns, never issues a probe of a higher
index, and its outcome satisfies `P` whenever the probe of index `k` was issued. -/
lemma stops_by (k : Nat) (P : WaitResult σ ε → Prop)
    (hstop : ∀ st : WaitState σ, st.polls = k → st.elapsed ≤ conf.Timeout →
      ∃ out, waitStep conf interval st = .done out ∧ P out) :
    ∀ (d : Nat) (st : WaitState σ), st.polls + d = k → ∀ fuel, d + 1 ≤ fuel →
      ∃ out, waitLoop conf interval fuel st = some out ∧ out.polls ≤ k + 1 ∧
        (out.polls = k + 1 → P out) := by
  intro d
  induction d with
  | zero =>
    intro st hk fuel hfuel
    obtain ⟨f, rfl⟩ : ∃ f, fuel = f + 1 := ⟨fuel - 1, by omega⟩
    by_cases ht : conf.Timeout < st.elapsed
    · refine ⟨_, waitLoop_done conf interval f st _ (waitStep_timeout conf interval st ht),
        by simp; omega, fun h => ?_⟩
      simp at h
      omega
    · obtain ⟨out, hs, hP⟩ := hstop st (by omega) (Nat.not_lt.mp ht)
      obtain ⟨-, -, h3⟩ := waitStep_done_inv conf interval hs
      exact ⟨out, waitLoop_done conf interval f st out hs, by omega, fun _ => hP⟩
  | succ d ih =>
    intro st hk fuel hfuel
    obtain ⟨f, rfl⟩ : ∃ f, fuel = f + 1 := ⟨fuel - 1, by omega⟩
    cases hs : waitStep conf interval st with
    | done out =>
      obtain ⟨-, -, h3⟩ := waitStep_done_inv conf interval hs
      exact ⟨out, waitLoop_done conf interval f st out hs, by omega, fun h => by omega⟩
    | next st' =>
      rw [waitLoop_next conf interval f st st' hs]
      have := (waitStep_next_inv conf interval hs).1
      exact ih st' (by omega) f (by omega)

/-- A turn of the loop consults the refresh function at the index of the current probe
only. -/
lemma waitStep_congr (later : Nat → ProbeResult σ ε) (st : WaitState σ)
    (h : st.elapsed ≤ conf.Timeout → later st.polls = conf.Refresh st.polls) :
    waitStep { conf with Refresh := later } interval st = waitStep conf interval st := by
  by_cases ht : conf.Timeout < st.elapsed
  · rw [waitStep_timeout conf interval st ht]
    exact waitStep_timeout { conf with Refresh := later } interval st ht
  · have := h (Nat.not_lt.mp ht)
    simp only [waitStep, this, hysteresis, StateChangeConf.continuousTargetOccurence,
      StateChangeConf.notFoundChecks]

/-- The outcome of the waiter depends only on the results of the probes it issued. -/
lemma waitLoop_congr (later : Nat → ProbeResult σ ε) :
    ∀ (fuel : Nat) (st : WaitState σ) (out : WaitResult σ ε),
      waitLoop conf interval fuel st = some out →
      (∀ i, st.polls ≤ i → i < out.polls → later i = conf.Refresh i) →
      waitLoop { conf with Refresh := later } interval fuel st = some out := by
  intro fuel
  induction fuel with
  | zero => intro st out h; simp [waitLoop] at h
  | succ fuel ih =>
    intro st out h hag
    cases hs : waitStep conf interval st with
    | done o =>
      rw [waitLoop_done conf interval fuel st o hs] at h
      have ho : o = out := Option.some.inj h
      subst ho
      obtain ⟨-, -, h3⟩ := waitStep_done_inv conf interval hs
      have hc : waitStep { conf with Refresh := later } interval st = .done o := by
        rw [waitStep_congr conf interval later st (fun hle => hag _ le_rfl (by omega)), hs]
      exact waitLoop_done _ interval fuel st o hc
    | next st' =>
      rw [waitLoop_next conf interval fuel st st' hs] at h
      have h1 := (waitStep_next_inv conf interval hs).1
      have h2 := waitLoop_polls_le conf interval fuel st' out h
      have hc : waitStep { conf with Refresh := later } interval st = .next st' := by
        rw [waitStep_congr conf interval later st (fun _ => hag _ le_rfl (by omega)), hs]
      rw [waitLoop_next _ interval fuel st st' hc]
      exact ih st' out h (fun i hi1 hi2 => hag i (by omega) hi2)

end Stopping

/-! ## The three waits -/

section Waits

variable (NotFound : Option Error → Bool) (interval : Nat → Nat) (conn : Client)
  (id version : String) (timeout fuel : Nat)

lemma assertOutput_eq {σ ε : Type} (r : WaitResult σ ε) : assertOutput r = r := by
  cases r with
  | mk result err polls probeTimes elapsed => cases result <;> rfl

lemma map_assertOutput {σ ε : Type} (o : Option (WaitResult σ ε)) :
    o.map assertOutput = o := by
  cases o with
  | none => rfl
  | some r => simp [assertOutput_eq]

lemma waitGuardrailCreated_eq :
    waitGuardrailCreated NotFound interval conn id version timeout fuel =
      (createdConf NotFound conn id version timeout).WaitForStateContext interval fuel := by
  simp only [waitGuardrailCreated, createdConf, map_assertOutput]

lemma waitGuardrailUpdated_eq :
    waitGuardrailUpdated NotFound interval conn id version timeout fuel =
      (updatedConf NotFound conn id version timeout).WaitForStateContext interval fuel := by
  simp only [waitGuardrailUpdated, updatedConf, map_assertOutput]

lemma waitGuardrailDeleted_eq :
    waitGuardrailDeleted NotFound interval conn id version timeout fuel =
      (deletedConf NotFound conn id version timeout).WaitForStateContext interval fuel := by
  simp only [waitGuardrailDeleted, deletedConf, map_assertOutput]

end Waits

/-! ## Runs of probes of one kind -/

section Runs

variable {σ ε : Type} (conf : StateChangeConf σ ε) (interval : Nat → Nat)

/-- A probe error ends the wait at the probe that reports it. -/
lemma probe_error_stops_at (k : Nat) (e : ε) (he : (conf.Refresh k).err = some e)
    (fuel : Nat) (hfuel : k + 1 ≤ fuel) :
    ∃ out, conf.WaitForStateContext interval fuel = some out ∧ out.polls ≤ k + 1 ∧
      (out.polls = k + 1 → out.err = some (.probe e) ∧ out.result = none) := by
  refine stops_by conf interval k (fun out => out.err = some (.probe e) ∧ out.result = none)
    ?_ k (WaitState.init σ) (by simp [WaitState.init]) fuel hfuel
  intro st hk hle
  subst hk
  exact ⟨_, waitStep_probe_err conf interval st hle e he, rfl, rfl⟩

/-- A run of `m` pending statuses from the start: the waiter keeps polling. -/
lemma pending_run (m : Nat)
    (hpend : ∀ i, i < m → (conf.Refresh i).isPresentIn conf.Pending)
    (htime : ∀ i, i < m → elapsedBefore interval i ≤ conf.Timeout) :
    ∃ st, At conf interval st m ∧ st.targetOccurence = 0 ∧ st.notFoundTick = 0 := by
  induction m with
  | zero => exact ⟨WaitState.init σ, at_init conf interval, rfl, rfl⟩
  | succ m ih =>
    obtain ⟨st, hat, -, -⟩ :=
      ih (fun i hi => hpend i (by omega)) (fun i hi => htime i (by omega))
    obtain ⟨he, hr, hp⟩ := hpend m (by omega)
    exact at_pending conf interval hat (htime m (by omega)) he hr hp

/-- A run of `m` tolerated absences from the start, with a target to reach. -/
lemma absent_run (hT : conf.Target ≠ []) (m : Nat) (hm : m ≤ conf.notFoundChecks)
    (habs : ∀ i, i < m → (conf.Refresh i).isAbsent)
    (htime : ∀ i, i < m → elapsedBefore interval i ≤ conf.Timeout) :
    ∃ st, At conf interval st m ∧ st.targetOccurence = 0 ∧ st.notFoundTick = m := by
  induction m with
  | zero => exact ⟨WaitState.init σ, at_init conf interval, rfl, rfl⟩
  | succ m ih =>
    obtain ⟨st, hat, hocc, htick⟩ :=
      ih (by omega) (fun i hi => habs i (by omega)) (fun i hi => htime i (by omega))
    obtain ⟨he, hr⟩ := habs m (by omega)
    obtain ⟨st', hat', hocc', htick'⟩ :=
      at_absent_tolerated conf interval hat (htime m (by omega)) he hr hT (by omega)
    exact ⟨st', hat', by omega, by omega⟩

/-- A run of `m` target statuses that stays below the required streak. -/
lemma target_run (k : Nat) (st : WaitState σ) (hat : At conf interval st k) (m : Nat)
    (hc : st.targetOccurence + m < conf.continuousTargetOccurence)
    (htgt : ∀ i, i < k + m → k ≤ i → (conf.Refresh i).isPresentIn conf.Target ∧
      (conf.Refresh i).state ∉ conf.Pending)
    (htime : ∀ i, i < k + m → elapsedBefore interval i ≤ conf.Timeout) :
    ∃ st', At conf interval st' (k + m) ∧ st'.targetOccurence = st.targetOccurence + m := by
  induction m with
  | zero => exact ⟨st, hat, rfl⟩
  | succ m ih =>
    obtain ⟨st1, hat1, hocc1⟩ :=
      ih (by omega) (fun i hi hk => htgt i (by omega) hk) (fun i hi => htime i (by omega))
    obtain ⟨⟨he, hr, hg⟩, hp⟩ := htgt (k + m) (by omega) (by omega)
    obtain ⟨st', hat', hocc', -⟩ :=
      at_target_next conf interval hat1 (htime (k + m) (by omega)) he hr hp hg (by omega)
    exact ⟨st', hat', by omega⟩

/-- A run of `m` absences, with no target to reach, that stays below the required streak. -/
lemma absent_delete_run (hT : conf.Target = []) (k : Nat) (st : WaitState σ)
    (hat : At conf interval st k) (m : Nat)
    (hc : st.targetOccurence + m < conf.continuousTargetOccurence)
    (habs : ∀ i, i < k + m → k ≤ i → (conf.Refresh i).isAbsent)
    (htime : ∀ i, i < k + m → elapsedBefore interval i ≤ conf.Timeout) :
    ∃ st', At conf interval st' (k + m) ∧ st'.targetOccurence = st.targetOccurence + m := by
  induction m with
  | zero => exact ⟨st, hat, rfl⟩
  | succ m ih =>
    obtain ⟨st1, hat1, hocc1⟩ :=
      ih (by omega) (fun i hi hk => habs i (by omega) hk) (fun i hi => htime i (by omega))
    obtain ⟨he, hr⟩ := habs (k + m) (by omega) (by omega)
    obtain ⟨st', hat', hocc'⟩ :=
      at_absent_delete_next conf interval hat1 (htime (k + m) (by omega)) he hr hT (by omega)
    exact ⟨st', hat', by omega⟩

end Runs

/-! ## Not-found tolerance and delete-style waits -/

section Tolerance

variable {σ ε : Type} (conf : StateChangeConf σ ε) (interval : Nat → Nat)

/-- Success after `N` tolerated absences followed by the required run of target statuses. -/
lemma absences_then_targets (N c : Nat) (hN : conf.notFoundChecks = N)
    (hc : conf.continuousTargetOccurence = c) (hc1 : 1 ≤ c)
    (habs : ∀ i, i < N → (conf.Refresh i).isAbsent)
    (htgt : ∀ i, i < N + c → N ≤ i → (conf.Refresh i).isPresentIn conf.Target ∧
      (conf.Refresh i).state ∉ conf.Pending)
    (htime : elapsedBefore interval (N + c - 1) ≤ conf.Timeout)
    (fuel : Nat) (hfuel : N + c ≤ fuel) :
    ∃ out, conf.WaitForStateContext interval fuel = some out ∧ out.err = none ∧
      out.result = (conf.Refresh (N + c - 1)).result ∧ out.polls = N + c := by
  have hT : conf.Target ≠ [] := by
    obtain ⟨⟨-, -, hg⟩, -⟩ := htgt N (by omega) le_rfl
    exact List.ne_nil_of_mem hg
  have ht : ∀ i, i < N + c → elapsedBefore interval i ≤ conf.Timeout := fun i hi =>
    le_trans (elapsedBefore_mono interval i (N + c - 1) (by omega)) htime
  obtain ⟨st, hat, hocc, -⟩ := absent_run conf interval hT N (by omega) habs
    (fun i hi => ht i (by omega))
  obtain ⟨st', hat', hocc'⟩ := target_run conf interval N st hat (c - 1) (by omega)
    (fun i hi hk => htgt i (by omega) hk) (fun i hi => ht i (by omega))
  have hk : N + (c - 1) = N + c - 1 := by omega
  rw [hk] at hat'
  obtain ⟨⟨he, hr, hg⟩, hp⟩ := htgt (N + c - 1) (by omega) (by omega)
  obtain ⟨out, h1, h2, h3, h4, -⟩ :=
    at_target_done conf interval hat' htime he hr hp hg (by omega) fuel (by omega)
  exact ⟨out, h1, h2, h3, h4.trans (by omega)⟩

/-- With a target to reach, `N + 1` absences in a row from the start end in the not-found
error at the last of them. -/
lemma absences_exceeded (N : Nat) (hN : conf.notFoundChecks = N) (hT : conf.Target ≠ [])
    (habs : ∀ i, i < N + 1 → (conf.Refresh i).isAbsent)
    (htime : elapsedBefore interval N ≤ conf.Timeout)
    (fuel : Nat) (hfuel : N + 1 ≤ fuel) :
    ∃ out, conf.WaitForStateContext interval fuel = some out ∧
      out.err = some (.notFound (N + 1)) ∧ out.result = none ∧ out.polls = N + 1 ∧
      conf.WaitForStateContext interval N = none := by
  obtain ⟨st, hat, -, htick⟩ := absent_run conf interval hT N (by omega)
    (fun i hi => habs i (by omega))
    (fun i hi => le_trans (elapsedBefore_mono interval i N (by omega)) htime)
  obtain ⟨he, hr⟩ := habs N (by omega)
  obtain ⟨out, h1, h2, h3, h4, -⟩ :=
    at_absent_exceeded conf interval hat htime he hr hT (by omega) fuel hfuel
  exact ⟨out, h1, htick ▸ h2, h3, h4, reaches_running conf interval hat.1⟩

/-- A delete-style wait: `n` pending statuses, then the required run of absences. -/
lemma pending_then_absent (hT : conf.Target = []) (n c : Nat)
    (hc : conf.continuousTargetOccurence = c) (hc1 : 1 ≤ c)
    (hpend : ∀ i, i < n → (conf.Refresh i).isPresentIn conf.Pending)
    (habs : ∀ i, i < n + c → n ≤ i → (conf.Refresh i).isAbsent)
    (htime : elapsedBefore interval (n + c - 1) ≤ conf.Timeout)
    (fuel : Nat) (hfuel : n + c ≤ fuel) :
    ∃ out, conf.WaitForStateContext interval fuel = some out ∧ out.err = none ∧
      out.result = none ∧ out.polls = n + c ∧
      conf.WaitForStateContext interval (n + c - 1) = none := by
  have ht : ∀ i, i < n + c → elapsedBefore interval i ≤ conf.Timeout := fun i hi =>
    le_trans (elapsedBefore_mono interval i (n + c - 1) (by omega)) htime
  obtain ⟨st, hat, hocc, -⟩ := pending_run conf interval n hpend (fun i hi => ht i (by omega))
  obtain ⟨st', hat', hocc'⟩ := absent_delete_run conf interval hT n st hat (c - 1) (by omega)
    (fun i hi hk => habs i (by omega) hk) (fun i hi => ht i (by omega))
  have hk : n + (c - 1) = n + c - 1 := by omega
  rw [hk] at hat'
  obtain ⟨he, hr⟩ := habs (n + c - 1) (by omega) (by omega)
  obtain ⟨out, h1, h2, h3, h4, -⟩ :=
    at_absent_delete_done conf interval hat' htime he hr hT (by omega) fuel (by omega)
  exact ⟨out, h1, h2, h3, h4.trans (by omega), reaches_running conf interval hat'.1⟩

end Tolerance

/-! ## Termination and the kinds of outcome -/

section Termination

variable {σ ε : Type} (conf : StateChangeConf σ ε) (interval : Nat → Nat)

/-- With positive polling intervals the loop terminates, and its outcome is the outcome of a
terminating turn. -/
lemma waitLoop_terminates (hpos : ∀ k, 0 < interval k) :
    ∀ (fuel : Nat) (st : WaitState σ), conf.Timeout + 1 - st.elapsed < fuel →
      ∃ out st', waitLoop conf interval fuel st = some out ∧
        waitStep conf interval st' = .done out := by
  intro fuel
  induction fuel with
  | zero => intro st h; omega
  | succ fuel ih =>
    intro st h
    cases hs : waitStep conf interval st with
    | done out => exact ⟨out, st, waitLoop_done conf interval fuel st out hs, hs⟩
    | next st' =>
      obtain ⟨-, h2, -, h4⟩ := waitStep_next_inv conf interval hs
      have := hpos st.polls
      rw [waitLoop_next conf interval fuel st st' hs]
      exact ih st' (by omega)

/-- Which kinds of outcome a terminating turn can produce, by whether there is a target to
reach. -/
lemma waitStep_done_kind {st : WaitState σ} {out : WaitResult σ ε}
    (h : waitStep conf interval st = .done out) :
    (conf.Target ≠ [] → out.kind ≠ .successWithAbsence) ∧
      (conf.Target = [] → out.kind ≠ .successWithSnapshot ∧ out.kind ≠ .notFoundExceeded) := by
  revert h
  apply waitStep_elim conf interval
    (motive := fun r => r = .done out →
      (conf.Target ≠ [] → out.kind ≠ .successWithAbsence) ∧
        (conf.Target = [] →
          out.kind ≠ .successWithSnapshot ∧ out.kind ≠ .notFoundExceeded)) st <;>
    intros <;> simp_all [WaitResult.kind] <;> subst_vars <;> simp_all
  exact List.ne_nil_of_mem (by assumption)

/-- The outcome of a wait with positive polling intervals: it terminates, never returns a
snapshot together with an error, and its kind is limited by whether there is a target. -/
lemma wait_outcome (hpos : ∀ k, 0 < interval k) (fuel : Nat)
    (hfuel : conf.Timeout + 2 ≤ fuel) :
    ∃ out, conf.WaitForStateContext interval fuel = some out ∧
      (out.result = none ∨ out.err = none) ∧
      (conf.Target ≠ [] → out.kind ≠ .successWithAbsence) ∧
      (conf.Target = [] → out.kind ≠ .successWithSnapshot ∧ out.kind ≠ .notFoundExceeded) := by
  obtain ⟨out, st', h1, h2⟩ := waitLoop_terminates conf interval hpos fuel (WaitState.init σ)
    (by simp [WaitState.init]; omega)
  obtain ⟨h3, h4⟩ := waitStep_done_kind conf interval h2
  exact ⟨out, h1, (waitStep_done_inv conf interval h2).2.1, h3, h4⟩

/-- A refresh function that always reports a pending status: the waiter ends with the
timeout error, after the timeout, and every probe began within the timeout. -/
lemma pending_forever (hpos : ∀ k, 0 < interval k)
    (hpend : ∀ k, (conf.Refresh k).isPresentIn conf.Pending) :
    ∀ (fuel : Nat) (st : WaitState σ), conf.Timeout + 1 - st.elapsed < fuel →
      st.probeTimes.length = st.polls → (∀ t ∈ st.probeTimes, t ≤ conf.Timeout) →
      (st.polls = 0 → st.elapsed ≤ conf.Timeout) →
      (0 < st.polls → st.lastResult = (conf.Refresh (st.polls - 1)).result ∧
        st.lastState = (conf.Refresh (st.polls - 1)).state) →
      ∃ out, waitLoop conf interval fuel st = some out ∧ 0 < out.polls ∧
        out.err = some (.timeout (conf.Refresh (out.polls - 1)).result
          (conf.Refresh (out.polls - 1)).state) ∧
        out.result = none ∧ conf.Timeout < out.elapsed ∧
        (∀ t ∈ out.probeTimes, t ≤ conf.Timeout) ∧ out.probeTimes.length = out.polls := by
  intro fuel
  induction fuel with
  | zero => intro st h; omega
  | succ fuel ih =>
    intro st h hlen htimes hzero hlast
    by_cases ht : conf.Timeout < st.elapsed
    · have hpos' : 0 < st.polls := by
        by_contra hcon
        have := hzero (by omega)
        omega
      obtain ⟨h1, h2⟩ := hlast hpos'
      refine ⟨_, waitLoop_done conf interval fuel st _ (waitStep_timeout conf interval st ht),
        hpos', ?_, rfl, ht, htimes, hlen⟩
      simp only [h1, h2]
    · have hle : st.elapsed ≤ conf.Timeout := Nat.not_lt.mp ht
      obtain ⟨he, hr, hp⟩ := hpend st.polls
      obtain ⟨snap, hsnap⟩ := Option.ne_none_iff_exists'.mp hr
      have hs := waitStep_pending conf interval st hle snap he hsnap hp
      rw [waitLoop_next conf interval fuel st _ hs]
      have := hpos st.polls
      refine ih _ (by simp only; omega) (by simp [hlen]) ?_ (by simp) ?_
      · intro t htmem
        simp only [List.mem_cons] at htmem
        rcases htmem with rfl | htmem
        · exact hle
        · exact htimes t htmem
      · intro _
        simp [hsnap]

end Termination

/-! ## The creation scenario -/

section Scenario

variable {σ ε : Type} (conf : StateChangeConf σ ε) (interval : Nat → Nat)

/-- Two absences, two pending statuses and two target statuses, with a required streak of
two: success at the sixth probe. -/
lemma absent_pending_target (hN : 2 ≤ conf.notFoundChecks)
    (hc : conf.continuousTargetOccurence = 2)
    (h0 : (conf.Refresh 0).isAbsent) (h1 : (conf.Refresh 1).isAbsent)
    (h2 : (conf.Refresh 2).isPresentIn conf.Pending)
    (h3 : (conf.Refresh 3).isPresentIn conf.Pending)
    (h4 : (conf.Refresh 4).isPresentIn conf.Target ∧ (conf.Refresh 4).state ∉ conf.Pending)
    (h5 : (conf.Refresh 5).isPresentIn conf.Target ∧ (conf.Refresh 5).state ∉ conf.Pending)
    (htime : elapsedBefore interval 5 ≤ conf.Timeout)
    (fuel : Nat) (hfuel : 6 ≤ fuel) :
    ∃ out, conf.WaitForStateContext interval fuel = some out ∧ out.err = none ∧
      out.result = (conf.Refresh 5).result ∧ out.polls = 6 ∧
      conf.WaitForStateContext interval 5 = none := by
  have ht : ∀ i, i ≤ 5 → elapsedBefore interval i ≤ conf.Timeout := fun i hi =>
    le_trans (elapsedBefore_mono interval i 5 hi) htime
  have hT : conf.Target ≠ [] := List.ne_nil_of_mem h4.1.2.2
  obtain ⟨s2, a2, o2, -⟩ := absent_run conf interval hT 2 hN
    (fun i hi => by
      rcases Nat.lt_succ_iff.mp hi with hi'
      rcases Nat.eq_or_lt_of_le hi' with rfl | hlt
      · exact h1
      · have : i = 0 := by omega
        exact this ▸ h0)
    (fun i hi => ht i (by omega))
  obtain ⟨s3, a3, o3, -⟩ := at_pending conf interval a2 (ht 2 (by omega)) h2.1 h2.2.1 h2.2.2
  obtain ⟨s4, a4, o4, -⟩ := at_pending conf interval a3 (ht 3 (by omega)) h3.1 h3.2.1 h3.2.2
  obtain ⟨s5, a5, o5, -⟩ := at_target_next conf interval a4 (ht 4 (by omega))
    h4.1.1 h4.1.2.1 h4.2 h4.1.2.2 (by omega)
  obtain ⟨out, r1, r2, r3, r4, -⟩ := at_target_done conf interval a5 (ht 5 le_rfl)
    h5.1.1 h5.1.2.1 h5.2 h5.1.2.2 (by omega) fuel hfuel
  exact ⟨out, r1, r2, r3, r4, reaches_running conf interval a5.1⟩

lemma elapsedBefore_const (d k : Nat) : elapsedBefore (fun _ => d) k = k * d := by
  induction k with
  | zero => simp [elapsedBefore]
  | succ k ih => simp [elapsedBefore, ih, Nat.succ_mul]

end Scenario

/-! ## Probes that are issued -/

section Issued

variable {σ ε : Type} (conf : StateChangeConf σ ε) (interval : Nat → Nat)

/-- One more turn of fuel does not change an outcome already reached. -/
lemma waitLoop_succ_of_some : ∀ (fuel : Nat) (st : WaitState σ) (out : WaitResult σ ε),
    waitLoop conf interval fuel st = some out →
      waitLoop conf interval (fuel + 1) st = some out := by
  intro fuel
  induction fuel with
  | zero => intro st out h; simp [waitLoop] at h
  | succ fuel ih =>
    intro st out h
    cases hs : waitStep conf interval st with
    | done o =>
      rw [waitLoop_done conf interval fuel st o hs] at h
      rw [waitLoop_done conf interval (fuel + 1) st o hs]
      exact h
    | next st' =>
      rw [waitLoop_next conf interval fuel st st' hs] at h
      rw [waitLoop_next conf interval (fuel + 1) st st' hs]
      exact ih st' out h

/-- A waiter that has not terminated within `k` turns has issued `k` probes and slept after
each of them. -/
lemma at_of_running : ∀ k : Nat, conf.WaitForStateContext interval k = none →
    ∃ st, At conf interval st k := by
  intro k
  induction k with
  | zero => intro _; exact ⟨WaitState.init σ, at_init conf interval⟩
  | succ k ih =>
    intro h
    unfold StateChangeConf.WaitForStateContext at h
    have hk : conf.WaitForStateContext interval k = none := by
      unfold StateChangeConf.WaitForStateContext
      cases hW : waitLoop conf interval k (WaitState.init σ) with
      | none => rfl
      | some out =>
        rw [waitLoop_succ_of_some conf interval k _ out hW] at h
        cases h
    obtain ⟨st, hat⟩ := ih hk
    have h1 := hat.1 1
    rw [Nat.add_comm 1 k, h] at h1
    cases hs : waitStep conf interval st with
    | done out =>
      rw [waitLoop_done conf interval 0 st out hs] at h1
      cases h1
    | next st' => exact ⟨st', at_next conf interval hat hs⟩

/-- A waiter still running after `k` turns, with the timeout not elapsed when the probe of
index `k` begins, issues that probe; if every turn that issues it terminates, the waiter
terminates there, after `k + 1` polls. -/
lemma stops_at_issued (k : Nat) (P : WaitResult σ ε → Prop)
    (hstop : ∀ st : WaitState σ, st.polls = k → st.elapsed ≤ conf.Timeout →
      ∃ out, waitStep conf interval st = .done out ∧ out.polls = k + 1 ∧ P out)
    (hrun : conf.WaitForStateContext interval k = none)
    (htime : elapsedBefore interval k ≤ conf.Timeout)
    (fuel : Nat) (hfuel : k + 1 ≤ fuel) :
    ∃ out, conf.WaitForStateContext interval fuel = some out ∧ out.polls = k + 1 ∧ P out := by
  obtain ⟨st, hat⟩ := at_of_running conf interval k hrun
  obtain ⟨out, hs, hp, hP⟩ := hstop st hat.2.1 (by rw [hat.2.2]; exact htime)
  exact ⟨out, reaches_done conf interval hat.1 hs fuel hfuel, hp, hP⟩

/-- While the probes report pending statuses and time allows, the waiter keeps running. -/
lemma running_of_pending (k : Nat)
    (hpend : ∀ i, i < k → (conf.Refresh i).isPresentIn conf.Pending)
    (htime : elapsedBefore interval k ≤ conf.Timeout) :
    conf.WaitForStateContext interval k = none := by
  obtain ⟨st, hat, -, -⟩ := pending_run conf interval k hpend
    (fun i hi => le_trans (elapsedBefore_mono interval i k (Nat.le_of_lt hi)) htime)
  exact reaches_running conf interval hat.1

/-- A wait that returns has issued at least one probe. -/
lemma wait_polls_pos (fuel : Nat) (out : WaitResult σ ε)
    (h : conf.WaitForStateContext interval fuel = some out) : 0 < out.polls := by
  unfold StateChangeConf.WaitForStateContext at h
  cases fuel with
  | zero => simp [waitLoop] at h
  | succ fuel =>
    cases hs : waitStep conf interval (WaitState.init σ) with
    | done o =>
      rw [waitLoop_done conf interval fuel _ o hs] at h
      cases h
      obtain ⟨-, -, h3⟩ := waitStep_done_inv conf interval hs
      rcases h3 with ⟨h3, -⟩ | ⟨-, h3, -⟩
      · simp [WaitState.init] at h3
      · omega
    | next st' =>
      rw [waitLoop_next conf interval fuel _ st' hs] at h
      have h1 := (waitStep_next_inv conf interval hs).1
      have h2 := waitLoop_polls_le conf interval fuel st' out h
      omega

end Issued

/-- A list of diagnostics holds an error when one of its two parts does. -/
lemma HasError_append (a b : List Diagnostic) :
    HasError (a ++ b) = (HasError a || HasError b) := by
  simp [HasError]

/-! ## The claims -/

/-- C1 (amended). For disjoint pending and target sets, `continuousTargetOccurrence = c ≥ 1`
and a sequence of `n ≥ c` probe results, each a present resource without error whose
status is pending or target, whose last `c` statuses are target statuses and in which no
proper prefix already ends with `c` consecutive target statuses: if the timeout has not
elapsed when the last probe begins, the waiter returns success with a nil error and the
snapshot of the final probe, after exactly `n` polls (it is still running after `n - 1`
turns). -/
theorem waiter_success_final_snapshot {σ ε : Type} (conf : StateChangeConf σ ε)
    (interval : Nat → Nat) (c n : Nat)
    (hc : conf.continuousTargetOccurence = c) (hc1 : 1 ≤ c)
    (hdisj : ∀ s ∈ conf.Target, s ∉ conf.Pending) (hn : c ≤ n)
    (hok : ∀ i, i < n → (conf.Refresh i).err = none ∧ (conf.Refresh i).result ≠ none ∧
      ((conf.Refresh i).state ∈ conf.Pending ∨ (conf.Refresh i).state ∈ conf.Target))
    (hlast : ∀ i, i < n → n - c ≤ i → (conf.Refresh i).state ∈ conf.Target)
    (hfirst : ∀ m, m < n → c ≤ m →
      ∃ i, i < m ∧ m - c ≤ i ∧ (conf.Refresh i).state ∉ conf.Target)
    (htime : elapsedBefore interval (n - 1) ≤ conf.Timeout)
    (fuel : Nat) (hfuel : n ≤ fuel) :
    ∃ out, conf.WaitForStateContext interval fuel = some out ∧ out.err = none ∧
      out.result = (conf.Refresh (n - 1)).result ∧ out.polls = n ∧
      conf.WaitForStateContext interval (n - 1) = none :=
  converges_at_final conf interval c n hc hc1 hdisj hn hok (fun i h1 h2 => hlast i h2 h1)
    (fun m h1 h2 => by
      obtain ⟨i, hi1, hi2, hi3⟩ := hfirst m h2 h1
      exact ⟨i, hi2, hi1, hi3⟩)
    htime fuel hfuel

/-- Witness for C1 (amended): the statuses CREATING, READY, CREATING, READY, READY under
the configuration of `waitGuardrailCreated`. -/
theorem waiter_success_final_snapshot_witness :
    ∃ out,
      StateChangeConf.WaitForStateContext
        { Pending := [GuardrailStatusCreating], Target := [GuardrailStatusReady],
          Refresh := statusGuardrail sampleNotFound
            (scriptedClient [some "CREATING", some "READY", some "CREATING", some "READY",
              some "READY"]) "g" "DRAFT",
          Timeout := 10, NotFoundChecks := some 20, ContinuousTargetOccurence := some 2 }
        (fun _ => 1) 7 = some out ∧
      out.err = none ∧
      out.result = some { Status := "READY", GuardrailId := "g", Version := "DRAFT",
                          UpdatedAt := 4 } ∧
      out.polls = 5 :=
  have h := waiter_success_final_snapshot
    { Pending := [GuardrailStatusCreating], Target := [GuardrailStatusReady],
      Refresh := statusGuardrail sampleNotFound
        (scriptedClient [some "CREATING", some "READY", some "CREATING", some "READY",
          some "READY"]) "g" "DRAFT",
      Timeout := 10, NotFoundChecks := some 20, ContinuousTargetOccurence := some 2 }
    (fun _ => 1) 2 5 rfl (by decide) (by decide) (by decide) (by decide) (by decide)
    (by decide) (by decide) 7 (by decide)
  match h with
  | ⟨out, h1, h2, h3, h4, _⟩ => ⟨out, h1, h2, h3, h4⟩

/-- Counterexample to C1 as stated: under the configuration of `waitGuardrailCreated`
(pending CREATING, target READY, two consecutive occurrences), the probe sequence READY,
READY, READY has every status in the two sets and ends with two target statuses, yet the
waiter succeeds at the second probe and returns its snapshot, which is not the snapshot of
the final probe. -/
theorem waiter_success_not_final_snapshot :
    (∀ i, i < 3 →
      (statusGuardrail sampleNotFound
        (scriptedClient [some "READY", some "READY", some "READY"]) "g" "DRAFT" i).state ∈
        [GuardrailStatusCreating] ++ [GuardrailStatusReady]) ∧
    (∀ i, i < 3 → 3 - 2 ≤ i →
      (statusGuardrail sampleNotFound
        (scriptedClient [some "READY", some "READY", some "READY"]) "g" "DRAFT" i).state ∈
        [GuardrailStatusReady]) ∧
    ∃ out,
      waitGuardrailCreated sampleNotFound (fun _ => 1)
        (scriptedClient [some "READY", some "READY", some "READY"]) "g" "DRAFT" 100 100
        = some out ∧
      out.err = none ∧ out.polls = 2 ∧
      out.result = (statusGuardrail sampleNotFound
        (scriptedClient [some "READY", some "READY", some "READY"]) "g" "DRAFT" 1).result ∧
      out.result ≠ (statusGuardrail sampleNotFound
        (scriptedClient [some "READY", some "READY", some "READY"]) "g" "DRAFT" 2).result :=
  ⟨by decide, by decide, _, rfl, rfl, rfl, rfl, by decide⟩

/-- C2 (amended). When the probe of index `k` reports a present resource whose status is in
neither the pending nor the target set, the waiter terminates within `k + 1` polls and never
issues a later probe, and its outcome is the same for every sequence that agrees with this
one up to index `k`.  If the waiter has not terminated before that probe (it is still
running after `k` turns and the timeout has not elapsed when the probe begins), it
terminates at that probe, after exactly `k + 1` polls, with the unexpected-status error.
This is so, in particular, when every earlier probe reports a pending status and the
timeout has not elapsed when the probe begins, hence always when `k = 0`. -/
theorem unexpected_status_stops {σ ε : Type} (conf : StateChangeConf σ ε)
    (interval : Nat → Nat) (k : Nat)
    (he : (conf.Refresh k).err = none) (hr : (conf.Refresh k).result ≠ none)
    (hp : (conf.Refresh k).state ∉ conf.Pending) (hg : (conf.Refresh k).state ∉ conf.Target)
    (later : Nat → ProbeResult σ ε) (hlater : ∀ i, i ≤ k → later i = conf.Refresh i)
    (fuel : Nat) (hfuel : k + 1 ≤ fuel) :
    ∃ out, conf.WaitForStateContext interval fuel = some out ∧ out.polls ≤ k + 1 ∧
      (out.polls = k + 1 → out.err = some (.unexpectedState (conf.Refresh k).state)) ∧
      (conf.WaitForStateContext interval k = none →
        elapsedBefore interval k ≤ conf.Timeout →
        out.polls = k + 1 ∧ out.err = some (.unexpectedState (conf.Refresh k).state)) ∧
      ((∀ i, i < k → (conf.Refresh i).isPresentIn conf.Pending) →
        elapsedBefore interval k ≤ conf.Timeout →
        out.polls = k + 1 ∧ out.err = some (.unexpectedState (conf.Refresh k).state)) ∧
      StateChangeConf.WaitForStateContext { conf with Refresh := later } interval fuel
        = some out := by
  obtain ⟨snap, hsnap⟩ := Option.ne_none_iff_exists'.mp hr
  obtain ⟨out, h1, h2, h3⟩ := stops_by conf interval k
    (fun out => out.err = some (.unexpectedState (conf.Refresh k).state))
    (fun st hk hle => by
      subst hk
      exact ⟨_, waitStep_unexpected conf interval st hle snap he hsnap hp hg, rfl⟩)
    k (WaitState.init σ) (by simp [WaitState.init]) fuel hfuel
  have hissued : conf.WaitForStateContext interval k = none →
      elapsedBefore interval k ≤ conf.Timeout →
      out.polls = k + 1 ∧ out.err = some (.unexpectedState (conf.Refresh k).state) := by
    intro hrun htime
    obtain ⟨out', h1', h2', h3'⟩ := stops_at_issued conf interval k
      (fun out => out.err = some (.unexpectedState (conf.Refresh k).state))
      (fun st hk hle => by
        subst hk
        exact ⟨_, waitStep_unexpected conf interval st hle snap he hsnap hp hg, rfl, rfl⟩)
      hrun htime fuel hfuel
    have hout : out = out' := Option.some.inj (h1.symm.trans h1')
    subst hout
    exact ⟨h2', h3'⟩
  exact ⟨out, h1, h2, h3, hissued,
    fun hpend htime => hissued (running_of_pending conf interval k hpend htime) htime,
    waitLoop_congr conf interval later fuel _ out h1 (fun i _ hi => hlater i (by omega))⟩

/-- Witness for C2 (amended): a guardrail reporting FAILED at the second probe, and one
reporting FAILED at the first probe, while the waiter waits with pending CREATING and target
READY. -/
theorem unexpected_status_stops_witness :
    (∃ out,
      (createdConf sampleNotFound
        (scriptedClient [some "CREATING", some "FAILED", some "READY", some "READY"])
        "g" "DRAFT" 10).WaitForStateContext (fun _ => 1) 5 = some out ∧
      out.polls = 2 ∧ out.err = some (.unexpectedState "FAILED") ∧
      StateChangeConf.WaitForStateContext
        { createdConf sampleNotFound
            (scriptedClient [some "CREATING", some "FAILED", some "READY", some "READY"])
            "g" "DRAFT" 10 with
          Refresh := statusGuardrail sampleNotFound
            (scriptedClient [some "CREATING", some "FAILED"]) "g" "DRAFT" }
        (fun _ => 1) 5 = some out) ∧
    (∃ out,
      (createdConf sampleNotFound (scriptedClient [some "FAILED", some "READY", some "READY"])
        "g" "DRAFT" 10).WaitForStateContext (fun _ => 1) 5 = some out ∧
      out.polls = 1 ∧ out.err = some (.unexpectedState "FAILED")) := by
  constructor
  · obtain ⟨out, h1, -, -, -, h4, h5⟩ := unexpected_status_stops
      (createdConf sampleNotFound
        (scriptedClient [some "CREATING", some "FAILED", some "READY", some "READY"])
        "g" "DRAFT" 10)
      (fun _ => 1) 1 (by decide) (by decide) (by decide) (by decide)
      (statusGuardrail sampleNotFound (scriptedClient [some "CREATING", some "FAILED"])
        "g" "DRAFT")
      (by decide) 5 (by decide)
    exact ⟨out, h1, (h4 (by decide) (by decide)).1, (h4 (by decide) (by decide)).2, h5⟩
  · obtain ⟨out, h1, -, -, -, h4, -⟩ := unexpected_status_stops
      (createdConf sampleNotFound (scriptedClient [some "FAILED", some "READY", some "READY"])
        "g" "DRAFT" 10)
      (fun _ => 1) 0 (by decide) (by decide) (by decide) (by decide)
      (statusGuardrail sampleNotFound (scriptedClient [some "FAILED"]) "g" "DRAFT")
      (by decide) 5 (by decide)
    exact ⟨out, h1, (h4 (by decide) (by decide)).1, (h4 (by decide) (by decide)).2⟩

/-- Counterexample to C2 as stated: the probe sequence READY, READY, FAILED contains a
present resource whose status FAILED is in neither set of `waitGuardrailCreated`, yet the
waiter does not terminate with an unexpected-status error: it succeeds at the second
probe. -/
theorem unexpected_status_not_reached :
    (statusGuardrail sampleNotFound
        (scriptedClient [some "READY", some "READY", some "FAILED"]) "g" "DRAFT" 2).isPresentIn
        [GuardrailStatusFailed] ∧
    GuardrailStatusFailed ∉ [GuardrailStatusCreating] ∧
    GuardrailStatusFailed ∉ [GuardrailStatusReady] ∧
    ∃ out,
      waitGuardrailCreated sampleNotFound (fun _ => 1)
        (scriptedClient [some "READY", some "READY", some "FAILED"]) "g" "DRAFT" 100 100
        = some out ∧
      out.err = none ∧ out.polls = 2 ∧ out.kind = .successWithSnapshot :=
  ⟨by decide, by decide, by decide, _, rfl, rfl, rfl, rfl⟩

/-- C3. When the probe of index `k`, made by the refresh function of `statusGuardrail`,
returns a non-nil error `e`, each of `waitGuardrailCreated`, `waitGuardrailUpdated` and
`waitGuardrailDeleted` terminates within `k + 1` polls and issues no later probe, and when
it has issued that probe it returns exactly the error `e`.  A wait that is still running
after `k` turns, with the timeout not elapsed when the probe of index `k` begins, does
issue that probe: it terminates there, after exactly `k + 1` polls, with the error `e`.
This is so, in particular, when every earlier probe reports a pending status of the wait
and the timeout has not elapsed when the probe begins, hence always when `k = 0`: a failing
first probe ends each of the three waits with its error. -/
theorem probe_error_stops (NotFound : Option Error → Bool) (interval : Nat → Nat)
    (conn : Client) (id version : String) (timeout : Nat) (k : Nat) (e : Error)
    (he : (statusGuardrail NotFound conn id version k).err = some e)
    (fuel : Nat) (hfuel : k + 1 ≤ fuel) :
    (∃ out, waitGuardrailCreated NotFound interval conn id version timeout fuel = some out ∧
      out.polls ≤ k + 1 ∧ (out.polls = k + 1 → out.err = some (.probe e)) ∧
      (waitGuardrailCreated NotFound interval conn id version timeout k = none →
        elapsedBefore interval k ≤ timeout →
        out.polls = k + 1 ∧ out.err = some (.probe e)) ∧
      ((∀ i, i < k → (statusGuardrail NotFound conn id version i).isPresentIn
          [GuardrailStatusCreating]) →
        elapsedBefore interval k ≤ timeout →
        out.polls = k + 1 ∧ out.err = some (.probe e))) ∧
    (∃ out, waitGuardrailUpdated NotFound interval conn id version timeout fuel = some out ∧
      out.polls ≤ k + 1 ∧ (out.polls = k + 1 → out.err = some (.probe e)) ∧
      (waitGuardrailUpdated NotFound interval conn id version timeout k = none →
        elapsedBefore interval k ≤ timeout →
        out.polls = k + 1 ∧ out.err = some (.probe e)) ∧
      ((∀ i, i < k → (statusGuardrail NotFound conn id version i).isPresentIn
          [GuardrailStatusUpdating]) →
        elapsedBefore interval k ≤ timeout →
        out.polls = k + 1 ∧ out.err = some (.probe e))) ∧
    (∃ out, waitGuardrailDeleted NotFound interval conn id version timeout fuel = some out ∧
      out.polls ≤ k + 1 ∧ (out.polls = k + 1 → out.err = some (.probe e)) ∧
      (waitGuardrailDeleted NotFound interval conn id version timeout k = none →
        elapsedBefore interval k ≤ timeout →
        out.polls = k + 1 ∧ out.err = some (.probe e)) ∧
      ((∀ i, i < k → (statusGuardrail NotFound conn id version i).isPresentIn
          [GuardrailStatusDeleting, GuardrailStatusReady]) →
        elapsedBefore interval k ≤ timeout →
        out.polls = k + 1 ∧ out.err = some (.probe e))) := by
  have key : ∀ conf : StateChangeConf GetGuardrailOutput Error,
      (conf.Refresh k).err = some e →
      ∃ out, conf.WaitForStateContext interval fuel = some out ∧
        out.polls ≤ k + 1 ∧ (out.polls = k + 1 → out.err = some (.probe e)) ∧
        (conf.WaitForStateContext interval k = none →
          elapsedBefore interval k ≤ conf.Timeout →
          out.polls = k + 1 ∧ out.err = some (.probe e)) ∧
        ((∀ i, i < k → (conf.Refresh i).isPresentIn conf.Pending) →
          elapsedBefore interval k ≤ conf.Timeout →
          out.polls = k + 1 ∧ out.err = some (.probe e)) := by
    intro conf hce
    obtain ⟨out, h1, h2, h3⟩ := stops_by conf interval k
      (fun out => out.err = some (.probe e))
      (fun st hk hle => by
        subst hk
        exact ⟨_, waitStep_probe_err conf interval st hle e hce, rfl⟩)
      k (WaitState.init _) (by simp [WaitState.init]) fuel hfuel
    have hissued : conf.WaitForStateContext interval k = none →
        elapsedBefore interval k ≤ conf.Timeout →
        out.polls = k + 1 ∧ out.err = some (.probe e) := by
      intro hrun htime
      obtain ⟨out', h1', h2', h3'⟩ := stops_at_issued conf interval k
        (fun out => out.err = some (.probe e))
        (fun st hk hle => by
          subst hk
          exact ⟨_, waitStep_probe_err conf interval st hle e hce, rfl, rfl⟩)
        hrun htime fuel hfuel
      have hout : out = out' := Option.some.inj (h1.symm.trans h1')
      subst hout
      exact ⟨h2', h3'⟩
    exact ⟨out, h1, h2, h3, hissued,
      fun hpend htime => hissued (running_of_pending conf interval k hpend htime) htime⟩
  simp only [waitGuardrailCreated_eq, waitGuardrailUpdated_eq, waitGuardrailDeleted_eq]
  exact ⟨key (createdConf NotFound conn id version timeout) he,
    key (updatedConf NotFound conn id version timeout) he,
    key (deletedConf NotFound conn id version timeout) he⟩

/-- Witness for C3: the first read fails with a server error, under each of the three
waits; and the third read fails, after READY and DELETING, under `waitGuardrailDeleted`. -/
theorem probe_error_stops_witness :
    (∃ out,
      waitGuardrailCreated sampleNotFound (fun _ => 1) (scriptedClient []) "g" "DRAFT" 10 5
        = some out ∧
      out.polls = 1 ∧
      out.err = some (.probe (.sdk (.other "InternalServerException" "script exhausted")))) ∧
    (∃ out,
      waitGuardrailUpdated sampleNotFound (fun _ => 1) (scriptedClient []) "g" "DRAFT" 10 5
        = some out ∧
      out.polls = 1 ∧
      out.err = some (.probe (.sdk (.other "InternalServerException" "script exhausted")))) ∧
    (∃ out,
      waitGuardrailDeleted sampleNotFound (fun _ => 1) (scriptedClient []) "g" "DRAFT" 10 5
        = some out ∧
      out.polls = 1 ∧
      out.err = some (.probe (.sdk (.other "InternalServerException" "script exhausted")))) ∧
    (∃ out,
      waitGuardrailDeleted sampleNotFound (fun _ => 1)
        (scriptedClient [some "READY", some "DELETING"]) "g" "DRAFT" 10 5 = some out ∧
      out.polls = 3 ∧
      out.err = some (.probe (.sdk (.other "InternalServerException" "script exhausted")))) := by
  obtain ⟨⟨o1, a1, -, -, -, a4⟩, ⟨o2, b1, -, -, -, b4⟩, ⟨o3, c1, -, -, -, c4⟩⟩ :=
    probe_error_stops sampleNotFound (fun _ => 1) (scriptedClient []) "g" "DRAFT" 10 0
      (.sdk (.other "InternalServerException" "script exhausted")) (by decide) 5 (by decide)
  obtain ⟨-, -, ⟨o4, d1, -, -, -, d4⟩⟩ :=
    probe_error_stops sampleNotFound (fun _ => 1)
      (scriptedClient [some "READY", some "DELETING"]) "g" "DRAFT" 10 2
      (.sdk (.other "InternalServerException" "script exhausted")) (by decide) 5 (by decide)
  exact ⟨⟨o1, a1, (a4 (by decide) (by decide)).1, (a4 (by decide) (by decide)).2⟩,
    ⟨o2, b1, (b4 (by decide) (by decide)).1, (b4 (by decide) (by decide)).2⟩,
    ⟨o3, c1, (c4 (by decide) (by decide)).1, (c4 (by decide) (by decide)).2⟩,
    ⟨o4, d1, (d4 (by decide) (by decide)).1, (d4 (by decide) (by decide)).2⟩⟩

/-- C4. With `notFoundChecks = N`, a non-empty target set and a required streak of `c ≥ 1`:
`N` consecutive absences followed by `c` target statuses end in success with the snapshot of
the last probe, after `N + c` polls; `N + 1` consecutive absences end in the not-found error
at the `(N + 1)`-th absence (the waiter is still running after `N` of them).  Both hold, with
`N = 20` and `c = 2`, for `waitGuardrailCreated` and `waitGuardrailUpdated`.  In each case
the timeout is assumed not to have elapsed when the last probe begins. -/
theorem not_found_tolerance {σ ε : Type} (conf : StateChangeConf σ ε) (interval : Nat → Nat)
    (N c : Nat) (hN : conf.notFoundChecks = N) (hc : conf.continuousTargetOccurence = c)
    (hc1 : 1 ≤ c) (hT : conf.Target ≠ [])
    (NotFound : Option Error → Bool) (conn : Client) (id version : String) (timeout : Nat) :
    ((∀ i, i < N → (conf.Refresh i).isAbsent) →
      (∀ i, i < N + c → N ≤ i → (conf.Refresh i).isPresentIn conf.Target ∧
        (conf.Refresh i).state ∉ conf.Pending) →
      elapsedBefore interval (N + c - 1) ≤ conf.Timeout →
      ∀ fuel, N + c ≤ fuel →
        ∃ out, conf.WaitForStateContext interval fuel = some out ∧ out.err = none ∧
          out.result = (conf.Refresh (N + c - 1)).result ∧ out.polls = N + c) ∧
    ((∀ i, i < N + 1 → (conf.Refresh i).isAbsent) →
      elapsedBefore interval N ≤ conf.Timeout →
      ∀ fuel, N + 1 ≤ fuel →
        ∃ out, conf.WaitForStateContext interval fuel = some out ∧
          out.err = some (.notFound (N + 1)) ∧ out.result = none ∧ out.polls = N + 1 ∧
          conf.WaitForStateContext interval N = none) ∧
    ((∀ i, i < 20 → (statusGuardrail NotFound conn id version i).isAbsent) →
      (∀ i, i < 22 → 20 ≤ i →
        (statusGuardrail NotFound conn id version i).isPresentIn [GuardrailStatusReady]) →
      elapsedBefore interval 21 ≤ timeout →
      ∀ fuel, 22 ≤ fuel →
        (∃ out, waitGuardrailCreated NotFound interval conn id version timeout fuel = some out ∧
          out.err = none ∧ out.result = (statusGuardrail NotFound conn id version 21).result ∧
          out.polls = 22) ∧
        (∃ out, waitGuardrailUpdated NotFound interval conn id version timeout fuel = some out ∧
          out.err = none ∧ out.result = (statusGuardrail NotFound conn id version 21).result ∧
          out.polls = 22)) ∧
    ((∀ i, i < 21 → (statusGuardrail NotFound conn id version i).isAbsent) →
      elapsedBefore interval 20 ≤ timeout →
      ∀ fuel, 21 ≤ fuel →
        (∃ out, waitGuardrailCreated NotFound interval conn id version timeout fuel = some out ∧
          out.err = some (.notFound 21) ∧ out.result = none ∧ out.polls = 21) ∧
        (∃ out, waitGuardrailUpdated NotFound interval conn id version timeout fuel = some out ∧
          out.err = some (.notFound 21) ∧ out.result = none ∧ out.polls = 21)) := by
  refine ⟨fun habs htgt htime fuel hfuel =>
      absences_then_targets conf interval N c hN hc hc1 habs htgt htime fuel hfuel,
    fun habs htime fuel hfuel =>
      absences_exceeded conf interval N hN hT habs htime fuel hfuel, ?_, ?_⟩
  · intro habs htgt htime fuel hfuel
    rw [waitGuardrailCreated_eq, waitGuardrailUpdated_eq]
    have hready : GuardrailStatusReady ∉ [GuardrailStatusCreating] ∧
        GuardrailStatusReady ∉ [GuardrailStatusUpdating] := by decide
    constructor
    · refine absences_then_targets (createdConf NotFound conn id version timeout) interval
        20 2 rfl rfl (by omega) habs (fun i h1 h2 => ?_) htime fuel hfuel
      obtain ⟨he, hr, hg⟩ := htgt i h1 h2
      refine ⟨⟨he, hr, hg⟩, fun hp => ?_⟩
      have heq : (statusGuardrail NotFound conn id version i).state = GuardrailStatusReady := by
        simpa using hg
      exact hready.1 (heq ▸ hp)
    · refine absences_then_targets (updatedConf NotFound conn id version timeout) interval
        20 2 rfl rfl (by omega) habs (fun i h1 h2 => ?_) htime fuel hfuel
      obtain ⟨he, hr, hg⟩ := htgt i h1 h2
      refine ⟨⟨he, hr, hg⟩, fun hp => ?_⟩
      have heq : (statusGuardrail NotFound conn id version i).state = GuardrailStatusReady := by
        simpa using hg
      exact hready.2 (heq ▸ hp)
  · intro habs htime fuel hfuel
    rw [waitGuardrailCreated_eq, waitGuardrailUpdated_eq]
    constructor
    · obtain ⟨out, h1, h2, h3, h4, -⟩ :=
        absences_exceeded (createdConf NotFound conn id version timeout) interval 20 rfl
          (by simp [createdConf]) habs htime fuel hfuel
      exact ⟨out, h1, h2, h3, h4⟩
    · obtain ⟨out, h1, h2, h3, h4, -⟩ :=
        absences_exceeded (updatedConf NotFound conn id version timeout) interval 20 rfl
          (by simp [updatedConf]) habs htime fuel hfuel
      exact ⟨out, h1, h2, h3, h4⟩

/-- Witness for C4: three tolerated absences followed by two target statuses, and four
absences in a row, with `notFoundChecks = 3`. -/
theorem not_found_tolerance_witness :
    (∃ out,
      StateChangeConf.WaitForStateContext
        { Pending := ["CREATING"], Target := ["READY"],
          Refresh := statusGuardrail sampleNotFound
            (scriptedClient [none, none, none, some "READY", some "READY"]) "g" "DRAFT",
          Timeout := 10, NotFoundChecks := some 3, ContinuousTargetOccurence := some 2 }
        (fun _ => 1) 5 = some out ∧
      out.err = none ∧
      out.result = some { Status := "READY", GuardrailId := "g", Version := "DRAFT",
                          UpdatedAt := 4 } ∧
      out.polls = 5) ∧
    (∃ out,
      StateChangeConf.WaitForStateContext
        { Pending := ["CREATING"], Target := ["READY"],
          Refresh := statusGuardrail sampleNotFound
            (scriptedClient [none, none, none, none, some "READY"]) "g" "DRAFT",
          Timeout := 10, NotFoundChecks := some 3, ContinuousTargetOccurence := some 2 }
        (fun _ => 1) 5 = some out ∧
      out.err = some (.notFound 4) ∧ out.result = none ∧ out.polls = 4 ∧
      StateChangeConf.WaitForStateContext
        { Pending := ["CREATING"], Target := ["READY"],
          Refresh := statusGuardrail sampleNotFound
            (scriptedClient [none, none, none, none, some "READY"]) "g" "DRAFT",
          Timeout := 10, NotFoundChecks := some 3, ContinuousTargetOccurence := some 2 }
        (fun _ => 1) 3 = none) :=
  ⟨(not_found_tolerance
    { Pending := ["CREATING"], Target := ["READY"],
      Refresh := statusGuardrail sampleNotFound
        (scriptedClient [none, none, none, some "READY", some "READY"]) "g" "DRAFT",
      Timeout := 10, NotFoundChecks := some 3, ContinuousTargetOccurence := some 2 }
    (fun _ => 1) 3 2 rfl rfl (by decide) (by decide)
    sampleNotFound (scriptedClient []) "g" "DRAFT" 10).1
    (by decide) (by decide) (by decide) 5 (by decide),
   (not_found_tolerance
    { Pending := ["CREATING"], Target := ["READY"],
      Refresh := statusGuardrail sampleNotFound
        (scriptedClient [none, none, none, none, some "READY"]) "g" "DRAFT",
      Timeout := 10, NotFoundChecks := some 3, ContinuousTargetOccurence := some 2 }
    (fun _ => 1) 3 2 rfl rfl (by decide) (by decide)
    sampleNotFound (scriptedClient []) "g" "DRAFT" 10).2.1
    (by decide) (by decide) 5 (by decide)⟩

/-- C5. A delete-style wait (empty target set) keeps polling while the probes report a
pending status and returns success, with a nil error and the absence marker, at the probe
that completes a run of `c` consecutive absences, `c ≥ 1` being the required streak; it is
still running one turn earlier.  `waitGuardrailDeleted` (pending DELETING and READY, streak
left at its default 1) keeps polling while the probe reports DELETING or READY and returns
success with the absence marker at the first probe that reports absence.  The timeout is
assumed not to have elapsed when that probe begins. -/
theorem delete_wait_succeeds_on_absence {σ ε : Type} (conf : StateChangeConf σ ε)
    (interval : Nat → Nat) (n c : Nat) (hT : conf.Target = [])
    (hc : conf.continuousTargetOccurence = c) (hc1 : 1 ≤ c)
    (NotFound : Option Error → Bool) (conn : Client) (id version : String) (timeout : Nat) :
    ((∀ i, i < n → (conf.Refresh i).isPresentIn conf.Pending) →
      (∀ i, i < n + c → n ≤ i → (conf.Refresh i).isAbsent) →
      elapsedBefore interval (n + c - 1) ≤ conf.Timeout →
      ∀ fuel, n + c ≤ fuel →
        ∃ out, conf.WaitForStateContext interval fuel = some out ∧ out.err = none ∧
          out.result = none ∧ out.polls = n + c ∧
          conf.WaitForStateContext interval (n + c - 1) = none) ∧
    ((∀ i, i < n → (statusGuardrail NotFound conn id version i).isPresentIn
        [GuardrailStatusDeleting, GuardrailStatusReady]) →
      (statusGuardrail NotFound conn id version n).isAbsent →
      elapsedBefore interval n ≤ timeout →
      ∀ fuel, n + 1 ≤ fuel →
        ∃ out, waitGuardrailDeleted NotFound interval conn id version timeout fuel = some out ∧
          out.err = none ∧ out.result = none ∧ out.polls = n + 1 ∧
          waitGuardrailDeleted NotFound interval conn id version timeout n = none) := by
  refine ⟨fun hpend habs htime fuel hfuel =>
    pending_then_absent conf interval hT n c hc hc1 hpend habs htime fuel hfuel, ?_⟩
  intro hpend habs htime fuel hfuel
  rw [waitGuardrailDeleted_eq, waitGuardrailDeleted_eq]
  exact pending_then_absent (deletedConf NotFound conn id version timeout) interval rfl n 1
    rfl le_rfl hpend
    (fun i h1 h2 => by
      have : i = n := by omega
      exact this ▸ habs)
    htime fuel hfuel

/-- Witness for C5: the guardrail is READY, then DELETING, then gone. -/
theorem delete_wait_succeeds_on_absence_witness :
    ∃ out,
      waitGuardrailDeleted sampleNotFound (fun _ => 1)
        (scriptedClient [some "READY", some "DELETING", none]) "g" "DRAFT" 10 5 = some out ∧
      out.err = none ∧ out.result = none ∧ out.polls = 2 + 1 ∧
      waitGuardrailDeleted sampleNotFound (fun _ => 1)
        (scriptedClient [some "READY", some "DELETING", none]) "g" "DRAFT" 10 2 = none :=
  (delete_wait_succeeds_on_absence
    (deletedConf sampleNotFound (scriptedClient []) "g" "DRAFT" 10) (fun _ => 1) 2 1 rfl rfl
    (by decide) sampleNotFound (scriptedClient [some "READY", some "DELETING", none])
    "g" "DRAFT" 10).2
    (by decide) (by decide) (by decide) 5 (by decide)

/-- C6. Hysteresis: with `continuousTargetOccurrence = 2`, on the probe sequence pending,
target, pending, target, target the waiter is still running after the second and after
the fourth probe (the pending status in between resets the streak) and succeeds at the
fifth probe, with its snapshot.  The timeout is assumed not to have elapsed when the fifth
probe begins. -/
theorem hysteresis_resets_on_pending {σ ε : Type} (conf : StateChangeConf σ ε)
    (interval : Nat → Nat) (hc : conf.continuousTargetOccurence = 2)
    (h0 : (conf.Refresh 0).isPresentIn conf.Pending)
    (h1 : (conf.Refresh 1).isPresentIn conf.Target ∧ (conf.Refresh 1).state ∉ conf.Pending)
    (h2 : (conf.Refresh 2).isPresentIn conf.Pending)
    (h3 : (conf.Refresh 3).isPresentIn conf.Target ∧ (conf.Refresh 3).state ∉ conf.Pending)
    (h4 : (conf.Refresh 4).isPresentIn conf.Target ∧ (conf.Refresh 4).state ∉ conf.Pending)
    (htime : elapsedBefore interval 4 ≤ conf.Timeout) :
    conf.WaitForStateContext interval 2 = none ∧
    conf.WaitForStateContext interval 4 = none ∧
    ∀ fuel, 5 ≤ fuel →
      ∃ out, conf.WaitForStateContext interval fuel = some out ∧ out.err = none ∧
        out.result = (conf.Refresh 4).result ∧ out.polls = 5 := by
  have ht : ∀ i, i ≤ 4 → elapsedBefore interval i ≤ conf.Timeout := fun i hi =>
    le_trans (elapsedBefore_mono interval i 4 hi) htime
  obtain ⟨s1, a1, o1, -⟩ := at_pending conf interval (at_init conf interval) (ht 0 (by omega))
    h0.1 h0.2.1 h0.2.2
  obtain ⟨s2, a2, o2, -⟩ := at_target_next conf interval a1 (ht 1 (by omega))
    h1.1.1 h1.1.2.1 h1.2 h1.1.2.2 (by omega)
  obtain ⟨s3, a3, o3, -⟩ := at_pending conf interval a2 (ht 2 (by omega)) h2.1 h2.2.1 h2.2.2
  obtain ⟨s4, a4, o4, -⟩ := at_target_next conf interval a3 (ht 3 (by omega))
    h3.1.1 h3.1.2.1 h3.2 h3.1.2.2 (by omega)
  refine ⟨reaches_running conf interval a2.1, reaches_running conf interval a4.1, ?_⟩
  intro fuel hfuel
  obtain ⟨out, r1, r2, r3, r4, -⟩ := at_target_done conf interval a4 (ht 4 le_rfl)
    h4.1.1 h4.1.2.1 h4.2 h4.1.2.2 (by omega) fuel hfuel
  exact ⟨out, r1, r2, r3, r4⟩

/-- Witness for C6: CREATING, READY, CREATING, READY, READY under the configuration of
`waitGuardrailCreated`. -/
theorem hysteresis_resets_on_pending_witness :
    (createdConf sampleNotFound
      (scriptedClient [some "CREATING", some "READY", some "CREATING", some "READY",
        some "READY"]) "g" "DRAFT" 10).WaitForStateContext (fun _ => 1) 2 = none ∧
    (createdConf sampleNotFound
      (scriptedClient [some "CREATING", some "READY", some "CREATING", some "READY",
        some "READY"]) "g" "DRAFT" 10).WaitForStateContext (fun _ => 1) 4 = none ∧
    ∃ out,
      (createdConf sampleNotFound
        (scriptedClient [some "CREATING", some "READY", some "CREATING", some "READY",
          some "READY"]) "g" "DRAFT" 10).WaitForStateContext (fun _ => 1) 6 = some out ∧
      out.err = none ∧
      out.result = some { Status := "READY", GuardrailId := "g", Version := "DRAFT",
                          UpdatedAt := 4 } ∧
      out.polls = 5 :=
  have h := hysteresis_resets_on_pending
    (createdConf sampleNotFound
      (scriptedClient [some "CREATING", some "READY", some "CREATING", some "READY",
        some "READY"]) "g" "DRAFT" 10)
    (fun _ => 1) rfl (by decide) (by decide) (by decide) (by decide) (by decide) (by decide)
  ⟨h.1, h.2.1, h.2.2 6 (by decide)⟩

/-- C7 (amended). For every timeout `T` and positive polling intervals, if the refresh
function reports a pending status on every probe, the waiter terminates with the timeout
error (which carries the snapshot and status of the last probe) at an elapsed time of at
least `T`, and every probe began at an elapsed time of at most `T`: no probe begins once the
elapsed time exceeds `T`. -/
theorem pending_forever_times_out {σ ε : Type} (conf : StateChangeConf σ ε)
    (interval : Nat → Nat) (hpos : ∀ k, 0 < interval k)
    (hpend : ∀ k, (conf.Refresh k).isPresentIn conf.Pending)
    (fuel : Nat) (hfuel : conf.Timeout + 2 ≤ fuel) :
    ∃ out, conf.WaitForStateContext interval fuel = some out ∧ 0 < out.polls ∧
      out.err = some (.timeout (conf.Refresh (out.polls - 1)).result
        (conf.Refresh (out.polls - 1)).state) ∧
      conf.Timeout ≤ out.elapsed ∧
      (∀ t ∈ out.probeTimes, t ≤ conf.Timeout) ∧ out.probeTimes.length = out.polls := by
  obtain ⟨out, h1, h2, h3, -, h5, h6, h7⟩ :=
    pending_forever conf interval hpos hpend fuel (WaitState.init σ)
      (by simp [WaitState.init]; omega) rfl (by simp [WaitState.init])
      (by simp [WaitState.init]) (by simp [WaitState.init])
  exact ⟨out, h1, h2, h3, Nat.le_of_lt h5, h6, h7⟩

/-- Witness for C7 (amended): a guardrail that stays in CREATING, a timeout of 5 ticks and
a polling interval of 2 ticks. -/
theorem pending_forever_times_out_witness :
    ∃ out,
      (createdConf sampleNotFound
        { GetGuardrail := fun _ _ => (some { Status := "CREATING" }, none) }
        "g" "DRAFT" 5).WaitForStateContext (fun _ => 2) 7 = some out ∧
      0 < out.polls ∧
      out.err = some (.timeout
        ((createdConf sampleNotFound
          { GetGuardrail := fun _ _ => (some { Status := "CREATING" }, none) }
          "g" "DRAFT" 5).Refresh (out.polls - 1)).result
        ((createdConf sampleNotFound
          { GetGuardrail := fun _ _ => (some { Status := "CREATING" }, none) }
          "g" "DRAFT" 5).Refresh (out.polls - 1)).state) ∧
      5 ≤ out.elapsed ∧
      (∀ t ∈ out.probeTimes, t ≤ 5) ∧ out.probeTimes.length = out.polls :=
  pending_forever_times_out
    (createdConf sampleNotFound
      { GetGuardrail := fun _ _ => (some { Status := "CREATING" }, none) } "g" "DRAFT" 5)
    (fun _ => 2) (fun _ => Nat.succ_pos 1)
    (fun _ => ⟨rfl, fun h => Option.noConfusion h, List.Mem.head _⟩) 7 (by decide)

/-- Counterexample to C7 as stated: with a timeout of 5 ticks, a polling interval of 1 tick
and a guardrail that stays in CREATING, `waitGuardrailCreated` ends with the timeout error,
yet its sixth probe began at elapsed time 5, that is once the elapsed time was `≥ T`. -/
theorem probe_begins_at_timeout :
    ∃ out,
      waitGuardrailCreated sampleNotFound (fun _ => 1)
        { GetGuardrail := fun _ _ => (some { Status := "CREATING" }, none) }
        "g" "DRAFT" 5 100 = some out ∧
      out.kind = .timeout ∧ out.polls = 6 ∧ out.probeTimes = [5, 4, 3, 2, 1, 0] ∧
      ∃ t ∈ out.probeTimes, 5 ≤ t :=
  ⟨_, rfl, rfl, rfl, rfl, 5, by decide, le_rfl⟩

/-- C8 (amended). With positive polling intervals, every wait made through
`waitGuardrailCreated`, `waitGuardrailUpdated` or `waitGuardrailDeleted` terminates, and the
snapshot and the error it returns are never both non-nil.  Through `waitGuardrailCreated`
and `waitGuardrailUpdated` the outcome is exactly one of success-with-snapshot, timeout,
probe-error, unexpected-status-error and not-found-exceeded; through `waitGuardrailDeleted`
it is exactly one of success-with-absence, timeout, probe-error and
unexpected-status-error. -/
theorem wait_outcomes (NotFound : Option Error → Bool) (interval : Nat → Nat)
    (conn : Client) (id version : String) (timeout : Nat)
    (hpos : ∀ k, 0 < interval k) (fuel : Nat) (hfuel : timeout + 2 ≤ fuel) :
    (∃ out, waitGuardrailCreated NotFound interval conn id version timeout fuel = some out ∧
      (out.result = none ∨ out.err = none) ∧
      (out.kind = .successWithSnapshot ∨ out.kind = .timeout ∨ out.kind = .probeError ∨
        out.kind = .unexpectedStatus ∨ out.kind = .notFoundExceeded)) ∧
    (∃ out, waitGuardrailUpdated NotFound interval conn id version timeout fuel = some out ∧
      (out.result = none ∨ out.err = none) ∧
      (out.kind = .successWithSnapshot ∨ out.kind = .timeout ∨ out.kind = .probeError ∨
        out.kind = .unexpectedStatus ∨ out.kind = .notFoundExceeded)) ∧
    (∃ out, waitGuardrailDeleted NotFound interval conn id version timeout fuel = some out ∧
      (out.result = none ∨ out.err = none) ∧
      (out.kind = .successWithAbsence ∨ out.kind = .timeout ∨ out.kind = .probeError ∨
        out.kind = .unexpectedStatus)) := by
  rw [waitGuardrailCreated_eq, waitGuardrailUpdated_eq, waitGuardrailDeleted_eq]
  refine ⟨?_, ?_, ?_⟩
  · obtain ⟨out, h1, h2, h3, -⟩ :=
      wait_outcome (createdConf NotFound conn id version timeout) interval hpos fuel hfuel
    have h := h3 (by simp [createdConf])
    refine ⟨out, h1, h2, ?_⟩
    cases hk : out.kind <;> simp_all
  · obtain ⟨out, h1, h2, h3, -⟩ :=
      wait_outcome (updatedConf NotFound conn id version timeout) interval hpos fuel hfuel
    have h := h3 (by simp [updatedConf])
    refine ⟨out, h1, h2, ?_⟩
    cases hk : out.kind <;> simp_all
  · obtain ⟨out, h1, h2, -, h4⟩ :=
      wait_outcome (deletedConf NotFound conn id version timeout) interval hpos fuel hfuel
    have h := h4 rfl
    refine ⟨out, h1, h2, ?_⟩
    cases hk : out.kind <;> simp_all

/-- Witness for C8 (amended): a creation that converges, under a polling interval of 1. -/
theorem wait_outcomes_witness :
    ∃ out,
      waitGuardrailCreated sampleNotFound (fun _ => 1)
        (scriptedClient [none, some "CREATING", some "READY", some "READY"])
        "g" "DRAFT" 5 7 = some out ∧
      (out.result = none ∨ out.err = none) ∧
      (out.kind = .successWithSnapshot ∨ out.kind = .timeout ∨ out.kind = .probeError ∨
        out.kind = .unexpectedStatus ∨ out.kind = .notFoundExceeded) :=
  (wait_outcomes sampleNotFound (fun _ => 1)
    (scriptedClient [none, some "CREATING", some "READY", some "READY"]) "g" "DRAFT" 5
    (fun _ => Nat.succ_pos 0) 7 (by decide)).1

/-- Counterexample to C8 as stated: when the guardrail stays absent for 21 probes,
`waitGuardrailCreated` ends with the not-found error, which is none of
success-with-snapshot, success-with-absence, timeout, probe-error and
unexpected-status-error. -/
theorem wait_outcome_not_found_exceeded :
    ∃ out,
      waitGuardrailCreated sampleNotFound (fun _ => 1)
        { GetGuardrail := fun _ _ => (none, some (.resourceNotFoundException "gone")) }
        "g" "DRAFT" 100 100 = some out ∧
      out.err = some (.notFound 21) ∧ out.polls = 21 ∧
      out.kind ≠ .successWithSnapshot ∧ out.kind ≠ .successWithAbsence ∧
      out.kind ≠ .timeout ∧ out.kind ≠ .probeError ∧ out.kind ≠ .unexpectedStatus :=
  ⟨_, rfl, rfl, rfl, by decide, by decide, by decide, by decide, by decide⟩

/-- C9. For every id and version, when the lookup `findGuardrailByID` fails with an error
for which `tfresource.NotFound` holds, the refresh function returned by `statusGuardrail`
returns a nil snapshot, the empty status and a nil error. -/
theorem statusGuardrail_not_found (NotFound : Option Error → Bool) (conn : Client)
    (id version : String) (k : Nat) (e : Error)
    (hfail : (findGuardrailByID conn id version k).2 = some e)
    (hnf : NotFound (some e) = true) :
    statusGuardrail NotFound conn id version k = { result := none, state := "", err := none } := by
  unfold statusGuardrail
  rcases hf : findGuardrailByID conn id version k with ⟨out, err⟩
  rw [hf] at hfail
  simp only at hfail
  subst hfail
  simp [hnf]

/-- Witness for C9: the service answers with a `ResourceNotFoundException`, which the lookup
turns into a `retry.NotFoundError`. -/
theorem statusGuardrail_not_found_witness :
    findGuardrailByID (scriptedClient [none]) "g" "DRAFT" 0 =
      (none, some (.notFoundError (.wrapped "GetGuardrail" (.resourceNotFoundException "gone"))
        { GuardrailIdentifier := "g", GuardrailVersion := "DRAFT" })) ∧
    statusGuardrail sampleNotFound (scriptedClient [none]) "g" "DRAFT" 0 =
      { result := none, state := "", err := none } :=
  ⟨rfl, statusGuardrail_not_found sampleNotFound (scriptedClient [none]) "g" "DRAFT" 0
    (.notFoundError (.wrapped "GetGuardrail" (.resourceNotFoundException "gone"))
      { GuardrailIdentifier := "g", GuardrailVersion := "DRAFT" }) rfl rfl⟩

/-- C10. The refresh function returned by `statusGuardrail` returns a non-nil error if and
only if the lookup failed with an error for which `tfresource.NotFound` does not hold; the
error it returns is then that same error, the snapshot is nil and the status is empty. -/
theorem statusGuardrail_error_iff (NotFound : Option Error → Bool) (conn : Client)
    (id version : String) (k : Nat) :
    ((statusGuardrail NotFound conn id version k).err ≠ none ↔
      ∃ e, (findGuardrailByID conn id version k).2 = some e ∧ NotFound (some e) = false) ∧
    ∀ e, (statusGuardrail NotFound conn id version k).err = some e →
      (findGuardrailByID conn id version k).2 = some e ∧
      statusGuardrail NotFound conn id version k =
        { result := none, state := "", err := some e } := by
  unfold statusGuardrail
  rcases hf : findGuardrailByID conn id version k with ⟨out, err⟩
  cases hnf : NotFound err with
  | true =>
    simp only [hnf, if_true, ne_eq, not_true_eq_false, false_iff, not_exists, not_and]
    refine ⟨fun e he => ?_, fun e he => by simp at he⟩
    subst he
    simp [hnf]
  | false =>
    cases err with
    | none => simp [hnf]
    | some e0 =>
      simp only [hnf]
      refine ⟨⟨fun _ => ⟨e0, rfl, hnf⟩, fun _ => by simp⟩, fun e he => ?_⟩
      simp only [Bool.false_eq_true, if_false, Option.some.injEq] at he
      subst he
      simp

/-- Witness for C10: a server error is returned as it is, a missing guardrail is not an
error. -/
theorem statusGuardrail_error_iff_witness :
    statusGuardrail sampleNotFound (scriptedClient []) "g" "DRAFT" 0 =
      { result := none, state := "",
        err := some (.sdk (.other "InternalServerException" "script exhausted")) } ∧
    (statusGuardrail sampleNotFound (scriptedClient [none]) "g" "DRAFT" 0).err = none :=
  ⟨((statusGuardrail_error_iff sampleNotFound (scriptedClient []) "g" "DRAFT" 0).2
      (.sdk (.other "InternalServerException" "script exhausted")) rfl).2,
    rfl⟩

/-- C11 (amended). When the lookup succeeds with output `out` (and `tfresource.NotFound`
does not hold of a nil error), the refresh function returned by `statusGuardrail` returns
`out` as the snapshot, the string value of `out.Status` as the status and a nil error; the
status is empty exactly when `out.Status` is. -/
theorem statusGuardrail_found (NotFound : Option Error → Bool) (conn : Client)
    (id version : String) (k : Nat) (out : GetGuardrailOutput)
    (hnil : NotFound none = false)
    (hfind : findGuardrailByID conn id version k = (some out, none)) :
    statusGuardrail NotFound conn id version k =
      { result := some out, state := out.Status, err := none } ∧
    ((statusGuardrail NotFound conn id version k).state = "" ↔ out.Status = "") := by
  have h : statusGuardrail NotFound conn id version k =
      { result := some out, state := out.Status, err := none } := by
    unfold statusGuardrail
    rw [hfind]
    simp [hnil]
  exact ⟨h, by rw [h]⟩

/-- Witness for C11 (amended): the guardrail is found in status READY. -/
theorem statusGuardrail_found_witness :
    statusGuardrail sampleNotFound (scriptedClient [some "READY"]) "g" "DRAFT" 0 =
      { result := some { Status := "READY", GuardrailId := "g", Version := "DRAFT" },
        state := "READY", err := none } :=
  (statusGuardrail_found sampleNotFound (scriptedClient [some "READY"]) "g" "DRAFT" 0
    { Status := "READY", GuardrailId := "g", Version := "DRAFT" } rfl rfl).1

/-- Counterexample to C11 as stated: the service answers with an output whose status is the
empty string; the lookup succeeds and the refresh function returns the empty status, which
is not a non-empty label. -/
theorem statusGuardrail_found_empty_status :
    findGuardrailByID { GetGuardrail := fun _ _ => (some { Status := "" }, none) }
      "g" "DRAFT" 0 = (some { Status := "" }, none) ∧
    statusGuardrail sampleNotFound { GetGuardrail := fun _ _ => (some { Status := "" }, none) }
      "g" "DRAFT" 0 = { result := some { Status := "" }, state := "", err := none } :=
  ⟨rfl, rfl⟩

/-- C12. The wait `waitGuardrailCreated` invokes the waiter with pending CREATING, target
READY, `notFoundChecks = 20` and `continuousTargetOccurrence = 2`, and
`waitGuardrailUpdated` does the same with pending UPDATING.  Under that configuration, with
a polling interval of `d` ticks and a timeout of five intervals, the probe sequence absent,
absent, pending, pending, READY, READY ends in success with the snapshot of the final probe
after exactly six polls (the waiter is still running after five turns). -/
theorem creation_scenario (NotFound : Option Error → Bool) (conn : Client)
    (id version : String) (d : Nat)
    (h0 : (statusGuardrail NotFound conn id version 0).isAbsent)
    (h1 : (statusGuardrail NotFound conn id version 1).isAbsent)
    (h4 : (statusGuardrail NotFound conn id version 4).isPresentIn [GuardrailStatusReady])
    (h5 : (statusGuardrail NotFound conn id version 5).isPresentIn [GuardrailStatusReady]) :
    (∀ interval timeout fuel,
      waitGuardrailCreated NotFound interval conn id version timeout fuel =
        StateChangeConf.WaitForStateContext
          { Pending := ["CREATING"], Target := ["READY"],
            Refresh := statusGuardrail NotFound conn id version, Timeout := timeout,
            NotFoundChecks := some 20, ContinuousTargetOccurence := some 2 }
          interval fuel) ∧
    (∀ interval timeout fuel,
      waitGuardrailUpdated NotFound interval conn id version timeout fuel =
        StateChangeConf.WaitForStateContext
          { Pending := ["UPDATING"], Target := ["READY"],
            Refresh := statusGuardrail NotFound conn id version, Timeout := timeout,
            NotFoundChecks := some 20, ContinuousTargetOccurence := some 2 }
          interval fuel) ∧
    ((statusGuardrail NotFound conn id version 2).isPresentIn [GuardrailStatusCreating] →
      (statusGuardrail NotFound conn id version 3).isPresentIn [GuardrailStatusCreating] →
      ∀ fuel, 6 ≤ fuel →
        ∃ out, waitGuardrailCreated NotFound (fun _ => d) conn id version (5 * d) fuel
            = some out ∧
          out.err = none ∧ out.result = (statusGuardrail NotFound conn id version 5).result ∧
          out.polls = 6 ∧
          waitGuardrailCreated NotFound (fun _ => d) conn id version (5 * d) 5 = none) ∧
    ((statusGuardrail NotFound conn id version 2).isPresentIn [GuardrailStatusUpdating] →
      (statusGuardrail NotFound conn id version 3).isPresentIn [GuardrailStatusUpdating] →
      ∀ fuel, 6 ≤ fuel →
        ∃ out, waitGuardrailUpdated NotFound (fun _ => d) conn id version (5 * d) fuel
            = some out ∧
          out.err = none ∧ out.result = (statusGuardrail NotFound conn id version 5).result ∧
          out.polls = 6 ∧
          waitGuardrailUpdated NotFound (fun _ => d) conn id version (5 * d) 5 = none) := by
  have hready : ∀ i, (statusGuardrail NotFound conn id version i).isPresentIn
      [GuardrailStatusReady] →
      (statusGuardrail NotFound conn id version i).state ∉ [GuardrailStatusCreating] ∧
      (statusGuardrail NotFound conn id version i).state ∉ [GuardrailStatusUpdating] := by
    intro i hi
    have heq : (statusGuardrail NotFound conn id version i).state = GuardrailStatusReady := by
      simpa using hi.2.2
    rw [heq]
    decide
  have htime : elapsedBefore (fun _ => d) 5 ≤ 5 * d := le_of_eq (elapsedBefore_const d 5)
  refine ⟨fun interval timeout fuel => waitGuardrailCreated_eq _ _ _ _ _ _ _,
    fun interval timeout fuel => waitGuardrailUpdated_eq _ _ _ _ _ _ _, ?_, ?_⟩
  · intro h2 h3 fuel hfuel
    rw [waitGuardrailCreated_eq, waitGuardrailCreated_eq]
    exact absent_pending_target (createdConf NotFound conn id version (5 * d)) (fun _ => d)
      (by simp [StateChangeConf.notFoundChecks, createdConf]) rfl h0 h1 h2 h3 ⟨h4, (hready 4 h4).1⟩ ⟨h5, (hready 5 h5).1⟩ htime fuel hfuel
  · intro h2 h3 fuel hfuel
    rw [waitGuardrailUpdated_eq, waitGuardrailUpdated_eq]
    exact absent_pending_target (updatedConf NotFound conn id version (5 * d)) (fun _ => d)
      (by simp [StateChangeConf.notFoundChecks, updatedConf]) rfl h0 h1 h2 h3 ⟨h4, (hready 4 h4).2⟩ ⟨h5, (hready 5 h5).2⟩ htime fuel hfuel

/-- Witness for C12: the scenario with a polling interval of 3 ticks and a timeout of 15. -/
theorem creation_scenario_witness :
    ∃ out,
      waitGuardrailCreated sampleNotFound (fun _ => 3)
        (scriptedClient [none, none, some "CREATING", some "CREATING", some "READY",
          some "READY"]) "g" "DRAFT" (5 * 3) 6 = some out ∧
      out.err = none ∧
      out.result = some { Status := "READY", GuardrailId := "g", Version := "DRAFT",
                          UpdatedAt := 5 } ∧
      out.polls = 6 ∧
      waitGuardrailCreated sampleNotFound (fun _ => 3)
        (scriptedClient [none, none, some "CREATING", some "CREATING", some "READY",
          some "READY"]) "g" "DRAFT" (5 * 3) 5 = none :=
  (creation_scenario sampleNotFound
    (scriptedClient [none, none, some "CREATING", some "CREATING", some "READY", some "READY"])
    "g" "DRAFT" 3 (by decide) (by decide) (by decide) (by decide)).2.2.1
    (by decide) (by decide) 6 (by decide)


/-- C13 (amended). In `Create` and in `Delete` the waiter is invoked only once the mutating
request (`CreateGuardrail`, `DeleteGuardrail`) has been issued and has returned no error.  In
`Update` the waiter is invoked either after `UpdateGuardrail` was issued and returned no
error (and after a lookup), when the plan differs from the prior state on a compared field,
or without any `UpdateGuardrail` request, when the plan equals the prior state on all the
compared fields. -/
theorem wait_after_mutation (env : Env) (conn : Client) (fuel : Nat) :
    (∀ req resp r e, resourceGuardrail.Create env conn fuel req resp = .done r →
      Event.waitGuardrailCreated e ∈ r.trace →
      (conn.CreateGuardrail
        { (env.ExpandCreate req.Plan.Raw).1 with Tags := env.getTagsIn }).2 = none ∧
      ∃ post, r.trace = .CreateGuardrail true :: .waitGuardrailCreated e :: post) ∧
    (∀ req resp r e, resourceGuardrail.Delete env conn fuel req resp = .done r →
      Event.waitGuardrailDeleted e ∈ r.trace →
      (conn.DeleteGuardrail
        { GuardrailIdentifier := some req.State.Raw.ID.ValueString }).2 = none ∧
      ∃ post, r.trace = .DeleteGuardrail true :: .waitGuardrailDeleted e :: post) ∧
    (∀ req resp r e, resourceGuardrail.Update env conn fuel req resp = .done r →
      Event.waitGuardrailUpdated e ∈ r.trace →
      (guardrailChanged req.Plan.Raw req.State.Raw = true ∧
        (conn.UpdateGuardrail
          (env.ExpandUpdate req.Plan.Raw
            { GuardrailIdentifier := some req.Plan.Raw.ID.ValueString }).1).2 = none ∧
        ∃ post, r.trace =
          .UpdateGuardrail true :: .findGuardrailByID :: .waitGuardrailUpdated e :: post) ∨
      (guardrailChanged req.Plan.Raw req.State.Raw = false ∧
        (∀ ok, Event.UpdateGuardrail ok ∉ r.trace) ∧
        ∃ post, r.trace = .waitGuardrailUpdated e :: post)) := by
  refine ⟨?_, ?_, ?_⟩
  · intro req resp r e h hw
    unfold resourceGuardrail.Create at h
    simp only at h
    repeat' split at h
    all_goals first
      | (cases h; simp_all)
      | cases h
  · intro req resp r e h hw
    unfold resourceGuardrail.Delete at h
    simp only at h
    repeat' split at h
    all_goals first
      | (cases h; simp_all)
      | cases h
  · intro req resp r e h hw
    unfold resourceGuardrail.Update resourceGuardrail.updateWait at h
    simp only at h
    repeat' split at h
    all_goals first
      | (cases h; simp_all)
      | cases h

/-- Witness for C13 (amended): a creation that converges after two READY probes. -/
theorem wait_after_mutation_witness :
    ∃ r,
      resourceGuardrail.Create sampleEnv (sampleGuardrailClient [some "READY", some "READY",
        some "READY"]) 10 { Plan := { Raw := sampleData } } {} = .done r ∧
      ((sampleGuardrailClient [some "READY", some "READY", some "READY"]).CreateGuardrail
        { (sampleEnv.ExpandCreate sampleData).1 with Tags := sampleEnv.getTagsIn }).2 = none ∧
      ∃ post, r.trace = .CreateGuardrail true :: .waitGuardrailCreated none :: post :=
  ⟨_, rfl, (wait_after_mutation sampleEnv
    (sampleGuardrailClient [some "READY", some "READY", some "READY"]) 10).1
    { Plan := { Raw := sampleData } } {} _ none rfl (by decide)⟩

/-- Counterexample to C13 as stated: an `Update` whose plan equals the prior state on every
compared field runs the waiter (and then writes the state) although `UpdateGuardrail` was
never called. -/
theorem update_waits_without_mutation :
    ∃ r,
      resourceGuardrail.Update sampleEnv (sampleGuardrailClient [some "READY", some "READY"])
        10 { Plan := { Raw := sampleData }, State := { Raw := sampleData } } {} = .done r ∧
      r.trace = [.waitGuardrailUpdated none, .StateSet] ∧
      ∀ ok, Event.UpdateGuardrail ok ∉ r.trace :=
  ⟨_, rfl, rfl, by decide⟩

/-- C14 (amended). When the mutating request returns an error, `Create` and `Update` add one
error diagnostic (built from the error), do not invoke the waiter and do not write the
state; so does `Delete` for an error that is not a `ResourceNotFoundException`.  When
`DeleteGuardrail` fails with a `ResourceNotFoundException`, `Delete` returns without adding
a diagnostic, again without invoking the waiter or writing the state. -/
theorem mutation_error_reported (env : Env) (conn : Client) (fuel : Nat) (resp : Response)
    (err : SdkError) :
    (∀ req out,
      HasError (resp.Diagnostics ++ req.Plan.GetDiags) = false →
      HasError (resp.Diagnostics ++ req.Plan.GetDiags ++ (env.ExpandCreate req.Plan.Raw).2)
        = false →
      conn.CreateGuardrail { (env.ExpandCreate req.Plan.Raw).1 with Tags := env.getTagsIn }
        = (out, some err) →
      resourceGuardrail.Create env conn fuel req resp = .done
        { response :=
            { Diagnostics :=
                resp.Diagnostics ++ req.Plan.GetDiags ++ (env.ExpandCreate req.Plan.Raw).2 ++
                  [{ severity := .error
                     summary := env.ProblemStandardMessage env.Bedrock .Creating
                       ResNameGuardrail (env.StringOf req.Plan.Raw.Name) (some (.sdk err))
                     detail := env.ErrorString (.sdk err) }]
              State := resp.State }
          trace := [.CreateGuardrail false] }) ∧
    (∀ req out,
      HasError (resp.Diagnostics ++ req.Plan.GetDiags ++ req.State.GetDiags) = false →
      guardrailChanged req.Plan.Raw req.State.Raw = true →
      HasError (resp.Diagnostics ++ req.Plan.GetDiags ++ req.State.GetDiags ++
        (env.ExpandUpdate req.Plan.Raw
          { GuardrailIdentifier := some req.Plan.Raw.ID.ValueString }).2) = false →
      conn.UpdateGuardrail
        (env.ExpandUpdate req.Plan.Raw
          { GuardrailIdentifier := some req.Plan.Raw.ID.ValueString }).1 = (out, some err) →
      resourceGuardrail.Update env conn fuel req resp = .done
        { response :=
            { Diagnostics :=
                resp.Diagnostics ++ req.Plan.GetDiags ++ req.State.GetDiags ++
                  (env.ExpandUpdate req.Plan.Raw
                    { GuardrailIdentifier := some req.Plan.Raw.ID.ValueString }).2 ++
                  [{ severity := .error
                     summary := env.ProblemStandardMessage env.Bedrock .Updating
                       ResNameGuardrail (env.StringOf req.Plan.Raw.ID) (some (.sdk err))
                     detail := env.ErrorString (.sdk err) }]
              State := resp.State }
          trace := [.UpdateGuardrail false] }) ∧
    (∀ req out,
      HasError (resp.Diagnostics ++ req.State.GetDiags) = false →
      conn.DeleteGuardrail { GuardrailIdentifier := some req.State.Raw.ID.ValueString }
        = (out, some err) →
      errorsAsResourceNotFound err = false →
      resourceGuardrail.Delete env conn fuel req resp = .done
        { response :=
            { Diagnostics :=
                resp.Diagnostics ++ req.State.GetDiags ++
                  [{ severity := .error
                     summary := env.ProblemStandardMessage env.Bedrock .Deleting
                       ResNameGuardrail (env.StringOf req.State.Raw.ID) (some (.sdk err))
                     detail := env.ErrorString (.sdk err) }]
              State := resp.State }
          trace := [.DeleteGuardrail false] }) ∧
    (∀ req out,
      HasError (resp.Diagnostics ++ req.State.GetDiags) = false →
      conn.DeleteGuardrail { GuardrailIdentifier := some req.State.Raw.ID.ValueString }
        = (out, some err) →
      errorsAsResourceNotFound err = true →
      resourceGuardrail.Delete env conn fuel req resp = .done
        { response :=
            { Diagnostics := resp.Diagnostics ++ req.State.GetDiags
              State := resp.State }
          trace := [.DeleteGuardrail false] }) := by
  refine ⟨?_, ?_, ?_, ?_⟩
  · intro req out h1 h2 h3
    unfold resourceGuardrail.Create
    simp only [List.append_assoc] at h1 h2 ⊢
    simp [h1, h2, h3, AddError]
  · intro req out h1 h2 h3 h4
    unfold resourceGuardrail.Update
    simp only [List.append_assoc] at h1 h3 ⊢
    simp [h1, h2, h3, h4, AddError]
  · intro req out h1 h2 h3
    unfold resourceGuardrail.Delete
    simp [h1, h2, h3, AddError]
  · intro req out h1 h2 h3
    unfold resourceGuardrail.Delete
    simp [h1, h2, h3]

/-- Witness for C14 (amended): `CreateGuardrail` fails with a server error. -/
theorem mutation_error_reported_witness :
    resourceGuardrail.Create sampleEnv (scriptedClient []) 10
        { Plan := { Raw := sampleData } } {} = .done
      { response :=
          { Diagnostics :=
              [{ severity := .error, summary := "creating Bedrock Guardrail (n): error",
                 detail := "sdk error" }]
            State := none }
        trace := [.CreateGuardrail false] } :=
  (mutation_error_reported sampleEnv (scriptedClient []) 10 {}
    (.other "InternalServerException" "no script")).1
    { Plan := { Raw := sampleData } } none rfl rfl rfl

/-- Counterexample to C14 as stated: `DeleteGuardrail` returns an error, a
`ResourceNotFoundException`, and `Delete` returns without adding any diagnostic. -/
theorem delete_not_found_adds_no_diagnostic :
    ((({ scriptedClient [] with
          DeleteGuardrail := fun _ => (none, some (.resourceNotFoundException "gone")) }
        : Client).DeleteGuardrail
        { GuardrailIdentifier := some "g" }).2 = some (.resourceNotFoundException "gone")) ∧
    resourceGuardrail.Delete sampleEnv
        { scriptedClient [] with
          DeleteGuardrail := fun _ => (none, some (.resourceNotFoundException "gone")) }
        10 { State := { Raw := sampleData } } {} = .done
      { response := { Diagnostics := [], State := none }
        trace := [.DeleteGuardrail false] } :=
  ⟨rfl, rfl⟩

/-- C15 (amended). In each of `Create`, `Update` and `Delete`, when the waiter returns an
error `e` the operation adds exactly one error diagnostic to the diagnostics gathered so far
and returns without writing the state.  The summary of the diagnostic is
`create.ProblemStandardMessage` applied to the service, the action (waiting for creation,
update or deletion), the resource type `Guardrail`, a text for the guardrail and the error
`e`; its detail is the text of `e`.  The text for the guardrail is its identifier in
`Update` (the id returned by `UpdateGuardrail` when it was called, the id of the prior state
otherwise) and in `Delete` (the id of the prior state); in `Create` it is the planned name,
not the identifier. -/
theorem wait_error_reported (env : Env) (conn : Client) (fuel : Nat) (resp : Response)
    (w : WaitResult GetGuardrailOutput Error) (e : WaitError GetGuardrailOutput Error)
    (herr : w.err = some e) :
    (∀ (req : CreateRequest) (out : CreateGuardrailOutput),
      HasError (resp.Diagnostics ++ req.Plan.GetDiags ++ (env.ExpandCreate req.Plan.Raw).2)
        = false →
      conn.CreateGuardrail { (env.ExpandCreate req.Plan.Raw).1 with Tags := env.getTagsIn }
        = (some out, none) →
      waitGuardrailCreated env.NotFound env.interval conn
        (env.StringToFramework out.GuardrailId).ValueString
        (env.StringToFramework out.Version).ValueString
        (env.CreateTimeout req.Plan.Raw.Timeouts) fuel = some w →
      resourceGuardrail.Create env conn fuel req resp = .done
        { response :=
            { Diagnostics :=
                resp.Diagnostics ++ req.Plan.GetDiags ++ (env.ExpandCreate req.Plan.Raw).2 ++
                  [{ severity := .error
                     summary := env.ProblemStandardMessage env.Bedrock .WaitingForCreation
                       ResNameGuardrail (env.StringOf req.Plan.Raw.Name) (some (.wait e))
                     detail := env.ErrorString (.wait e) }]
              State := resp.State }
          trace := [.CreateGuardrail true, .waitGuardrailCreated (some e)] }) ∧
    (∀ (req : UpdateRequest) (out : UpdateGuardrailOutput) (output : GetGuardrailOutput),
      guardrailChanged req.Plan.Raw req.State.Raw = true →
      HasError (resp.Diagnostics ++ req.Plan.GetDiags ++ req.State.GetDiags ++
        (env.ExpandUpdate req.Plan.Raw
          { GuardrailIdentifier := some req.Plan.Raw.ID.ValueString }).2) = false →
      conn.UpdateGuardrail
        (env.ExpandUpdate req.Plan.Raw
          { GuardrailIdentifier := some req.Plan.Raw.ID.ValueString }).1 = (some out, none) →
      out.GuardrailArn ≠ none →
      findGuardrailByID conn (env.StringToFramework out.GuardrailId).ValueString
        req.Plan.Raw.Version.ValueString 0 = (some output, none) →
      waitGuardrailUpdated env.NotFound env.interval (conn.after 1)
        (env.StringToFramework out.GuardrailId).ValueString
        req.State.Raw.Version.ValueString
        (env.UpdateTimeout req.Plan.Raw.Timeouts) fuel = some w →
      resourceGuardrail.Update env conn fuel req resp = .done
        { response :=
            { Diagnostics :=
                resp.Diagnostics ++ req.Plan.GetDiags ++ req.State.GetDiags ++
                  (env.ExpandUpdate req.Plan.Raw
                    { GuardrailIdentifier := some req.Plan.Raw.ID.ValueString }).2 ++
                  [{ severity := .error
                     summary := env.ProblemStandardMessage env.Bedrock .WaitingForUpdate
                       ResNameGuardrail
                       (env.StringOf (env.StringToFramework out.GuardrailId))
                       (some (.wait e))
                     detail := env.ErrorString (.wait e) }]
              State := resp.State }
          trace := [.UpdateGuardrail true, .findGuardrailByID,
            .waitGuardrailUpdated (some e)] }) ∧
    (∀ (req : UpdateRequest),
      guardrailChanged req.Plan.Raw req.State.Raw = false →
      HasError (resp.Diagnostics ++ req.Plan.GetDiags ++ req.State.GetDiags) = false →
      waitGuardrailUpdated env.NotFound env.interval conn
        req.State.Raw.ID.ValueString req.State.Raw.Version.ValueString
        (env.UpdateTimeout req.Plan.Raw.Timeouts) fuel = some w →
      resourceGuardrail.Update env conn fuel req resp = .done
        { response :=
            { Diagnostics :=
                resp.Diagnostics ++ req.Plan.GetDiags ++ req.State.GetDiags ++
                  [{ severity := .error
                     summary := env.ProblemStandardMessage env.Bedrock .WaitingForUpdate
                       ResNameGuardrail (env.StringOf req.State.Raw.ID) (some (.wait e))
                     detail := env.ErrorString (.wait e) }]
              State := resp.State }
          trace := [.waitGuardrailUpdated (some e)] }) ∧
    (∀ (req : DeleteRequest) (out : Option DeleteGuardrailOutput),
      HasError (resp.Diagnostics ++ req.State.GetDiags) = false →
      conn.DeleteGuardrail { GuardrailIdentifier := some req.State.Raw.ID.ValueString }
        = (out, none) →
      waitGuardrailDeleted env.NotFound env.interval conn
        req.State.Raw.ID.ValueString req.State.Raw.Version.ValueString
        (env.DeleteTimeout req.State.Raw.Timeouts) fuel = some w →
      resourceGuardrail.Delete env conn fuel req resp = .done
        { response :=
            { Diagnostics :=
                resp.Diagnostics ++ req.State.GetDiags ++
                  [{ severity := .error
                     summary := env.ProblemStandardMessage env.Bedrock .WaitingForDeletion
                       ResNameGuardrail (env.StringOf req.State.Raw.ID) (some (.wait e))
                     detail := env.ErrorString (.wait e) }]
              State := resp.State }
          trace := [.DeleteGuardrail true, .waitGuardrailDeleted (some e)] }) := by
  refine ⟨?_, ?_, ?_, ?_⟩
  · intro req out hdiags hcall hwait
    have h1 : HasError (resp.Diagnostics ++ req.Plan.GetDiags) = false := by
      rw [HasError_append, Bool.or_eq_false_iff] at hdiags
      exact hdiags.1
    simp only [List.append_assoc] at hdiags h1
    unfold resourceGuardrail.Create
    simp [h1, hdiags, hcall, hwait, herr, AddError]
  · intro req out output hch hdiags hcall harn hfind hwait
    have h1 : HasError (resp.Diagnostics ++ req.Plan.GetDiags ++ req.State.GetDiags)
        = false := by
      rw [HasError_append, Bool.or_eq_false_iff] at hdiags
      exact hdiags.1
    obtain ⟨arn, harn⟩ := Option.ne_none_iff_exists'.mp harn
    simp only [List.append_assoc] at hdiags h1
    unfold resourceGuardrail.Update resourceGuardrail.updateWait
    simp [h1, hch, hdiags, hcall, harn, hfind, hwait, herr, AddError]
  · intro req hun hdiags hwait
    simp only [List.append_assoc] at hdiags
    unfold resourceGuardrail.Update resourceGuardrail.updateWait
    simp [hun, hdiags, hwait, herr, AddError]
  · intro req out hdiags hcall hwait
    unfold resourceGuardrail.Delete
    simp [hdiags, hcall, hwait, herr, AddError]

/-- Witness for C15 (amended): the guardrail reports FAILED while each of the operations
waits, and the waiter ends with the unexpected-status error. -/
theorem wait_error_reported_witness :
    resourceGuardrail.Create sampleEnv (sampleGuardrailClient [some "FAILED"]) 10
        { Plan := { Raw := sampleData } } {} = .done
      { response :=
          { Diagnostics :=
              [{ severity := .error
                 summary := "waiting for creation Bedrock Guardrail (n): error"
                 detail := "unexpected state FAILED" }]
            State := none }
        trace := [.CreateGuardrail true,
          .waitGuardrailCreated (some (.unexpectedState "FAILED"))] } ∧
    resourceGuardrail.Update sampleEnv (sampleGuardrailClient [some "READY", some "FAILED"]) 10
        { Plan := { Raw := { sampleData with Name := .value "m" } }
          State := { Raw := sampleData } } { State := some sampleData } = .done
      { response :=
          { Diagnostics :=
              [{ severity := .error
                 summary := "waiting for update Bedrock Guardrail (g): error"
                 detail := "unexpected state FAILED" }]
            State := some sampleData }
        trace := [.UpdateGuardrail true, .findGuardrailByID,
          .waitGuardrailUpdated (some (.unexpectedState "FAILED"))] } ∧
    resourceGuardrail.Update sampleEnv (sampleGuardrailClient [some "FAILED"]) 10
        { Plan := { Raw := sampleData }, State := { Raw := sampleData } }
        { State := some sampleData } = .done
      { response :=
          { Diagnostics :=
              [{ severity := .error
                 summary := "waiting for update Bedrock Guardrail (g): error"
                 detail := "unexpected state FAILED" }]
            State := some sampleData }
        trace := [.waitGuardrailUpdated (some (.unexpectedState "FAILED"))] } ∧
    resourceGuardrail.Delete sampleEnv (sampleGuardrailClient [some "FAILED"]) 10
        { State := { Raw := sampleData } } { State := some sampleData } = .done
      { response :=
          { Diagnostics :=
              [{ severity := .error
                 summary := "waiting for deletion Bedrock Guardrail (g): error"
                 detail := "unexpected state FAILED" }]
            State := some sampleData }
        trace := [.DeleteGuardrail true,
          .waitGuardrailDeleted (some (.unexpectedState "FAILED"))] } :=
  ⟨(wait_error_reported sampleEnv (sampleGuardrailClient [some "FAILED"]) 10 {}
      { result := none, err := some (.unexpectedState "FAILED"), polls := 1,
        probeTimes := [0], elapsed := 0 }
      (.unexpectedState "FAILED") rfl).1
      { Plan := { Raw := sampleData } }
      { GuardrailArn := some "arn:g", GuardrailId := some "g", Version := some "DRAFT",
        CreatedAt := some "t0" }
      rfl rfl rfl,
    (wait_error_reported sampleEnv (sampleGuardrailClient [some "READY", some "FAILED"]) 10
      { State := some sampleData }
      { result := none, err := some (.unexpectedState "FAILED"), polls := 1,
        probeTimes := [0], elapsed := 0 }
      (.unexpectedState "FAILED") rfl).2.1
      { Plan := { Raw := { sampleData with Name := .value "m" } }
        State := { Raw := sampleData } }
      { GuardrailArn := some "arn:g", GuardrailId := some "g", Version := some "DRAFT" }
      { Status := "READY", GuardrailId := "g", Version := "DRAFT", UpdatedAt := 0 }
      rfl rfl rfl (by decide) rfl rfl,
    (wait_error_reported sampleEnv (sampleGuardrailClient [some "FAILED"]) 10
      { State := some sampleData }
      { result := none, err := some (.unexpectedState "FAILED"), polls := 1,
        probeTimes := [0], elapsed := 0 }
      (.unexpectedState "FAILED") rfl).2.2.1
      { Plan := { Raw := sampleData }, State := { Raw := sampleData } }
      rfl rfl rfl,
    (wait_error_reported sampleEnv (sampleGuardrailClient [some "FAILED"]) 10
      { State := some sampleData }
      { result := none, err := some (.unexpectedState "FAILED"), polls := 1,
        probeTimes := [0], elapsed := 0 }
      (.unexpectedState "FAILED") rfl).2.2.2
      { State := { Raw := sampleData } } (some {})
      rfl rfl rfl⟩

/-- Counterexample to C15 as stated: when the waiter fails in `Create`, the diagnostic does
not name the identifier of the guardrail.  The identifier returned by `CreateGuardrail` is
`g` and the planned name is `n`; the summary is built from the name, and differs from the
summary that the identifier would give. -/
theorem create_wait_error_names_the_planned_name :
    ∃ r,
      resourceGuardrail.Create sampleEnv (sampleGuardrailClient [some "FAILED"]) 10
        { Plan := { Raw := sampleData } } {} = .done r ∧
      ((sampleGuardrailClient [some "FAILED"]).CreateGuardrail
        { Name := some "n" }).1.bind (fun out => out.GuardrailId) = some "g" ∧
      sampleData.Name = .value "n" ∧
      r.trace = [.CreateGuardrail true,
        .waitGuardrailCreated (some (.unexpectedState "FAILED"))] ∧
      r.response.Diagnostics.map (fun d => d.summary) =
        [sampleEnv.ProblemStandardMessage sampleEnv.Bedrock .WaitingForCreation
          ResNameGuardrail "n" (some (.wait (.unexpectedState "FAILED")))] ∧
      r.response.Diagnostics.map (fun d => d.summary) ≠
        [sampleEnv.ProblemStandardMessage sampleEnv.Bedrock .WaitingForCreation
          ResNameGuardrail "g" (some (.wait (.unexpectedState "FAILED")))] :=
  ⟨_, rfl, rfl, rfl, rfl, rfl, by decide⟩

/-- C16 (amended). In `Create`, whenever the state is written, the waiter has succeeded and
the status written is the status returned by a lookup (`findGuardrailByID`) made after all
the reads of the waiter.  In `Update`, when the plan equals the prior state on all the
compared fields and the state is written, the status written is the status of the prior
state. -/
theorem status_written (env : Env) (conn : Client) (fuel : Nat) (resp : Response) :
    (∀ req r, resourceGuardrail.Create env conn fuel req resp = .done r →
      Event.StateSet ∈ r.trace →
      ∃ out w output data,
        conn.CreateGuardrail { (env.ExpandCreate req.Plan.Raw).1 with Tags := env.getTagsIn }
          = (some out, none) ∧
        waitGuardrailCreated env.NotFound env.interval conn
          (env.StringToFramework out.GuardrailId).ValueString
          (env.StringToFramework out.Version).ValueString
          (env.CreateTimeout req.Plan.Raw.Timeouts) fuel = some w ∧
        w.err = none ∧
        findGuardrailByID conn (env.StringToFramework out.GuardrailId).ValueString
          (env.StringToFramework out.Version).ValueString w.polls = (some output, none) ∧
        r.response.State = some data ∧ data.Status = env.StringEnumValue output.Status) ∧
    (∀ req r, resourceGuardrail.Update env conn fuel req resp = .done r →
      guardrailChanged req.Plan.Raw req.State.Raw = false →
      Event.StateSet ∈ r.trace →
      ∃ data, r.response.State = some data ∧ data.Status = req.State.Raw.Status ∧
        r.trace = [.waitGuardrailUpdated none, .StateSet]) := by
  refine ⟨?_, ?_⟩
  · intro req r h hw
    unfold resourceGuardrail.Create at h
    simp only at h
    repeat' split at h
    all_goals first
      | (cases h; simp_all)
      | cases h
  · intro req r h hc hw
    unfold resourceGuardrail.Update resourceGuardrail.updateWait at h
    simp only at h
    repeat' split at h
    all_goals first
      | (cases h; simp_all)
      | cases h

/-- Witness for C16 (amended): a creation that converges; the status written, READY, is the
one returned by the read that follows the two reads of the waiter. -/
theorem status_written_witness :
    ∃ r,
      resourceGuardrail.Create sampleEnv
        (sampleGuardrailClient [some "READY", some "READY", some "READY"]) 10
        { Plan := { Raw := { sampleData with Status := .unknown } } } {} = .done r ∧
      ∃ out w output data,
        (sampleGuardrailClient [some "READY", some "READY", some "READY"]).CreateGuardrail
          { (sampleEnv.ExpandCreate { sampleData with Status := .unknown }).1 with
            Tags := sampleEnv.getTagsIn } = (some out, none) ∧
        waitGuardrailCreated sampleEnv.NotFound sampleEnv.interval
          (sampleGuardrailClient [some "READY", some "READY", some "READY"])
          (sampleEnv.StringToFramework out.GuardrailId).ValueString
          (sampleEnv.StringToFramework out.Version).ValueString
          (sampleEnv.CreateTimeout ({ sampleData with Status := .unknown }).Timeouts) 10
          = some w ∧
        w.err = none ∧
        findGuardrailByID (sampleGuardrailClient [some "READY", some "READY", some "READY"])
          (sampleEnv.StringToFramework out.GuardrailId).ValueString
          (sampleEnv.StringToFramework out.Version).ValueString w.polls
          = (some output, none) ∧
        r.response.State = some data ∧
        data.Status = sampleEnv.StringEnumValue output.Status :=
  ⟨_, rfl, (status_written sampleEnv
    (sampleGuardrailClient [some "READY", some "READY", some "READY"]) 10 {}).1
    { Plan := { Raw := { sampleData with Status := .unknown } } } _ rfl (by decide)⟩

/-- Counterexample to C16 as stated: the prior state records the status UPDATING, the plan
equals it on every compared field, and the service reports READY on every read.  The
waiter succeeds with a READY snapshot, no lookup follows it, and the status written to the
state is UPDATING. -/
theorem update_writes_prior_status :
    ∃ r w,
      resourceGuardrail.Update sampleEnv (sampleGuardrailClient [some "READY", some "READY"])
        10
        { Plan := { Raw := { sampleData with Status := .unknown } }
          State := { Raw := { sampleData with Status := .value "UPDATING" } } } {}
        = .done r ∧
      waitGuardrailUpdated sampleEnv.NotFound sampleEnv.interval
        (sampleGuardrailClient [some "READY", some "READY"]) "g" "DRAFT" 100 10 = some w ∧
      w.err = none ∧
      w.result.map (fun out => out.Status) = some "READY" ∧
      r.trace = [.waitGuardrailUpdated none, .StateSet] ∧
      r.response.State.map (fun data => data.Status) = some (.value "UPDATING") :=
  ⟨_, _, rfl, rfl, rfl, rfl, rfl, rfl⟩

/-- The read before the wait in `Update`, at a concrete input: when a compared field changed,
`Update` reads the status before the wait; the service reports UPDATING at that read and
READY afterwards, and the status written to the state is UPDATING. -/
lemma update_changed_writes_status_read_before_wait :
    ∃ r,
      resourceGuardrail.Update sampleEnv
        (sampleGuardrailClient [some "UPDATING", some "READY", some "READY"]) 10
        { Plan := { Raw := { sampleData with Name := .value "renamed", Status := .unknown } }
          State := { Raw := sampleData } } {} = .done r ∧
      r.trace = [.UpdateGuardrail true, .findGuardrailByID, .waitGuardrailUpdated none,
        .StateSet] ∧
      r.response.State.map (fun data => data.Status) = some (.value "UPDATING") :=
  ⟨_, rfl, rfl, rfl⟩

/-! ## Import -/

section Import

lemma splitChars_ne_nil (sep : Char) (l : List Char) : splitChars sep l ≠ [] := by
  induction l with
  | nil => simp [splitChars]
  | cons c cs ih =>
    unfold splitChars
    split_ifs
    · simp
    · split <;> simp

lemma splitChars_cons_sep (sep : Char) (cs : List Char) :
    splitChars sep (sep :: cs) = [] :: splitChars sep cs := by
  simp [splitChars]

lemma splitChars_cons_ne (sep c : Char) (cs : List Char) (h : c ≠ sep) :
    ∃ p ps, splitChars sep cs = p :: ps ∧ splitChars sep (c :: cs) = (c :: p) :: ps := by
  cases hs : splitChars sep cs with
  | nil => exact absurd hs (splitChars_ne_nil sep cs)
  | cons p ps => exact ⟨p, ps, rfl, by simp [splitChars, h, hs]⟩

/-- There is one piece more than there are separators. -/
lemma splitChars_length (sep : Char) (l : List Char) :
    (splitChars sep l).length = l.count sep + 1 := by
  induction l with
  | nil => simp [splitChars]
  | cons c cs ih =>
    by_cases h : c = sep
    · subst h
      rw [splitChars_cons_sep]
      simp [ih]
    · obtain ⟨p, ps, h1, h2⟩ := splitChars_cons_ne sep c cs h
      rw [h2, List.count_cons_of_ne (Ne.symm h), ← ih, h1]
      simp

/-- A single piece is the whole text, and holds no separator. -/
lemma splitChars_one (sep : Char) : ∀ (l b : List Char), splitChars sep l = [b] →
    l = b ∧ sep ∉ b := by
  intro l
  induction l with
  | nil => intro b h; simp [splitChars] at h; subst h; simp
  | cons c cs ih =>
    intro b h
    by_cases hc : c = sep
    · subst hc
      rw [splitChars_cons_sep] at h
      simp only [List.cons.injEq] at h
      exact absurd h.2 (splitChars_ne_nil _ cs)
    · obtain ⟨p, ps, h1, h2⟩ := splitChars_cons_ne sep c cs hc
      rw [h2] at h
      simp only [List.cons.injEq] at h
      obtain ⟨hb, hps⟩ := h
      subst hps
      obtain ⟨i1, i2⟩ := ih p h1
      subst hb
      subst i1
      exact ⟨rfl, by simp [Ne.symm hc, i2]⟩

/-- Two pieces are the text before the only separator and the text after it. -/
lemma splitChars_two (sep : Char) : ∀ (l a b : List Char), splitChars sep l = [a, b] →
    l = a ++ sep :: b ∧ sep ∉ a ∧ sep ∉ b := by
  intro l
  induction l with
  | nil => intro a b h; simp [splitChars] at h
  | cons c cs ih =>
    intro a b h
    by_cases hc : c = sep
    · subst hc
      rw [splitChars_cons_sep] at h
      simp only [List.cons.injEq] at h
      obtain ⟨ha, hb⟩ := h
      obtain ⟨i1, i2⟩ := splitChars_one c cs b hb
      subst ha
      subst i1
      exact ⟨rfl, by simp, i2⟩
    · obtain ⟨p, ps, h1, h2⟩ := splitChars_cons_ne sep c cs hc
      rw [h2] at h
      simp only [List.cons.injEq] at h
      obtain ⟨ha, hps⟩ := h
      subst hps
      obtain ⟨i1, i2, i3⟩ := ih p b h1
      subst ha
      exact ⟨by rw [i1]; rfl, by simp [Ne.symm hc, i2], i3⟩

/-- A text without separator is a single piece. -/
lemma splitChars_of_not_mem (sep : Char) : ∀ (l : List Char), sep ∉ l →
    splitChars sep l = [l] := by
  intro l
  induction l with
  | nil => intro _; rfl
  | cons c cs ih =>
    intro h
    simp only [List.mem_cons, not_or] at h
    obtain ⟨p, ps, h1, h2⟩ := splitChars_cons_ne sep c cs (Ne.symm h.1)
    rw [ih h.2] at h1
    simp only [List.cons.injEq] at h1
    rw [h2, ← h1.1, ← h1.2]

/-- Splitting at the first separator. -/
lemma splitChars_append (sep : Char) : ∀ (a b : List Char), sep ∉ a →
    splitChars sep (a ++ sep :: b) = a :: splitChars sep b := by
  intro a
  induction a with
  | nil => intro b _; exact splitChars_cons_sep sep b
  | cons c cs ih =>
    intro b h
    simp only [List.mem_cons, not_or] at h
    obtain ⟨p, ps, h1, h2⟩ := splitChars_cons_ne sep c (cs ++ sep :: b) (Ne.symm h.1)
    rw [ih b h.2] at h1
    simp only [List.cons.injEq] at h1
    rw [List.cons_append, h2, ← h1.1, ← h1.2]

end Import

/-- C17. The import `ImportState` accepts an import ID if and only if splitting it on the
colon yields exactly two parts, that is if and only if the ID contains exactly one colon.
On acceptance the ID is the first part, a colon and the second part, neither part holds a
colon, the attribute id is set to the first part and the attribute version to the second,
and no diagnostic is added; so for every id and version without colon, importing
`id ++ ":" ++ version` recovers `(id, version)`.  On rejection it adds the error "Resource
Import Invalid ID" and leaves the state as it was. -/
theorem import_state (request : ImportStateRequest) (response : ImportStateResponse) :
    ((stringsSplit request.ID ':').length = 2 ↔ request.ID.data.count ':' = 1) ∧
    ((stringsSplit request.ID ':').length = 2 →
      ∃ id version, stringsSplit request.ID ':' = [id, version]) ∧
    (∀ id version, stringsSplit request.ID ':' = [id, version] →
      request.ID = id ++ ":" ++ version ∧ ':' ∉ id.data ∧ ':' ∉ version.data ∧
      (resourceGuardrail.ImportState request response).Diagnostics = response.Diagnostics ∧
      (resourceGuardrail.ImportState request response).State .AttrID = some id ∧
      (resourceGuardrail.ImportState request response).State .AttrVersion = some version) ∧
    ((stringsSplit request.ID ':').length ≠ 2 →
      (resourceGuardrail.ImportState request response).Diagnostics =
        response.Diagnostics ++
          [{ severity := .error, summary := "Resource Import Invalid ID"
             detail := "Unexpected format for import ID (" ++ request.ID ++
               "), use: \"GuardrailId:Version\"" }] ∧
      (resourceGuardrail.ImportState request response).State = response.State) ∧
    (∀ id version : String, ':' ∉ id.data → ':' ∉ version.data →
      request.ID = id ++ ":" ++ version →
      (resourceGuardrail.ImportState request response).State .AttrID = some id ∧
      (resourceGuardrail.ImportState request response).State .AttrVersion = some version) := by
  have hacc : ∀ id version, stringsSplit request.ID ':' = [id, version] →
      (resourceGuardrail.ImportState request response).Diagnostics = response.Diagnostics ∧
      (resourceGuardrail.ImportState request response).State .AttrID = some id ∧
      (resourceGuardrail.ImportState request response).State .AttrVersion = some version := by
    intro id version h
    simp [resourceGuardrail.ImportState, h, ImportStateResponse.SetAttribute]
  refine ⟨?_, ?_, ?_, ?_, ?_⟩
  · simp [stringsSplit, splitChars_length]
  · intro h
    rcases hp : stringsSplit request.ID ':' with _ | ⟨a, _ | ⟨b, _ | ⟨c, rest⟩⟩⟩ <;>
      rw [hp] at h <;> simp at h
    exact ⟨a, b, rfl⟩
  · intro id version h
    refine ⟨?_, ?_, ?_, hacc id version h⟩
    all_goals
      unfold stringsSplit at h
      rcases hp : splitChars ':' request.ID.data with _ | ⟨a, _ | ⟨b, _ | ⟨c, rest⟩⟩⟩ <;>
        rw [hp] at h <;> simp at h
      obtain ⟨ha, hb⟩ := h
      obtain ⟨h1, h2, h3⟩ := splitChars_two ':' _ a b hp
      subst ha
      subst hb
    · apply String.ext
      simp [h1]
    · exact h2
    · exact h3
  · intro h
    rcases hp : stringsSplit request.ID ':' with _ | ⟨a, _ | ⟨b, _ | ⟨c, rest⟩⟩⟩ <;>
      rw [hp] at h <;> simp at h <;>
      simp [resourceGuardrail.ImportState, hp, AddError]
  · intro id version h1 h2 h3
    have hs : stringsSplit request.ID ':' = [id, version] := by
      unfold stringsSplit
      rw [h3]
      have hd : (id ++ ":" ++ version).data = id.data ++ ':' :: version.data := by simp
      rw [hd, splitChars_append ':' _ _ h1, splitChars_of_not_mem ':' _ h2]
      rfl
    exact (hacc id version hs).2

/-- Witness for C17: an ID with one colon is accepted, and the attributes are its two
parts. -/
theorem import_state_witness :
    (resourceGuardrail.ImportState { ID := "abc123:DRAFT" } {}).State .AttrID = some "abc123" ∧
    (resourceGuardrail.ImportState { ID := "abc123:DRAFT" } {}).State .AttrVersion
      = some "DRAFT" :=
  (import_state { ID := "abc123:DRAFT" } {}).2.2.2.2 "abc123" "DRAFT" (by decide) (by decide)
    rfl
/-- C22. The lookup `findGuardrailByID` sorts the outcome of `GetGuardrail` into four cases:
an error in which `errors.As` finds a `ResourceNotFoundException` becomes a
`retry.NotFoundError` whose `LastError` is that error (and whose `LastRequest` is the
input); any other error is returned unchanged; a nil output with a nil error becomes the
empty-result error; otherwise the output is returned with a nil error.  In every case
exactly one of the output and the error is non-nil. -/
theorem findGuardrailByID_cases (conn : Client) (id version : String) (k : Nat) :
    (∀ out err, conn.GetGuardrail
        { GuardrailIdentifier := id, GuardrailVersion := version } k = (out, some err) →
      errorsAsResourceNotFound err = true →
      findGuardrailByID conn id version k =
        (none, some (.notFoundError err
          { GuardrailIdentifier := id, GuardrailVersion := version }))) ∧
    (∀ out err, conn.GetGuardrail
        { GuardrailIdentifier := id, GuardrailVersion := version } k = (out, some err) →
      errorsAsResourceNotFound err = false →
      findGuardrailByID conn id version k = (none, some (.sdk err))) ∧
    (conn.GetGuardrail { GuardrailIdentifier := id, GuardrailVersion := version } k
        = (none, none) →
      findGuardrailByID conn id version k =
        (none, some (.emptyResultError
          { GuardrailIdentifier := id, GuardrailVersion := version }))) ∧
    (∀ out, conn.GetGuardrail
        { GuardrailIdentifier := id, GuardrailVersion := version } k = (some out, none) →
      findGuardrailByID conn id version k = (some out, none)) ∧
    ((findGuardrailByID conn id version k).1 = none ↔
      (findGuardrailByID conn id version k).2 ≠ none) := by
  refine ⟨?_, ?_, ?_, ?_, ?_⟩
  · intro out err h he
    simp [findGuardrailByID, h, he]
  · intro out err h he
    simp [findGuardrailByID, h, he]
  · intro h
    simp [findGuardrailByID, h]
  · intro out h
    simp [findGuardrailByID, h]
  · rcases hg : conn.GetGuardrail { GuardrailIdentifier := id, GuardrailVersion := version } k
      with ⟨_ | out, _ | err⟩
    · simp [findGuardrailByID, hg]
    · by_cases he : errorsAsResourceNotFound err <;> simp [findGuardrailByID, hg, he]
    · simp [findGuardrailByID, hg]
    · by_cases he : errorsAsResourceNotFound err <;> simp [findGuardrailByID, hg, he]

/-- Witness for C22: a wrapped `ResourceNotFoundException` and a server error. -/
theorem findGuardrailByID_cases_witness :
    findGuardrailByID (scriptedClient [none]) "g" "DRAFT" 0 =
      (none, some (.notFoundError
        (.wrapped "GetGuardrail" (.resourceNotFoundException "gone"))
        { GuardrailIdentifier := "g", GuardrailVersion := "DRAFT" })) ∧
    findGuardrailByID (scriptedClient [none]) "g" "DRAFT" 1 =
      (none, some (.sdk (.other "InternalServerException" "script exhausted"))) :=
  ⟨(findGuardrailByID_cases (scriptedClient [none]) "g" "DRAFT" 0).1 none
      (.wrapped "GetGuardrail" (.resourceNotFoundException "gone")) rfl rfl,
    (findGuardrailByID_cases (scriptedClient [none]) "g" "DRAFT" 1).2.1 none
      (.other "InternalServerException" "script exhausted") rfl rfl⟩

/-- C23. The operation `Delete` is idempotent on a guardrail that is already gone: when
`DeleteGuardrail` fails with a `ResourceNotFoundException`, `Delete` returns without adding
any diagnostic and without invoking the waiter; for any other error of `DeleteGuardrail`
it adds an error diagnostic and does not invoke the waiter. -/
theorem delete_idempotent (env : Env) (conn : Client) (fuel : Nat) (req : DeleteRequest)
    (resp : Response) (out : Option DeleteGuardrailOutput) (err : SdkError)
    (hdiags : HasError (resp.Diagnostics ++ req.State.GetDiags) = false)
    (hcall : conn.DeleteGuardrail
      { GuardrailIdentifier := some req.State.Raw.ID.ValueString } = (out, some err)) :
    (errorsAsResourceNotFound err = true →
      ∃ r, resourceGuardrail.Delete env conn fuel req resp = .done r ∧
        r.response.Diagnostics = resp.Diagnostics ++ req.State.GetDiags ∧
        r.response.State = resp.State ∧
        r.trace = [.DeleteGuardrail false] ∧
        ∀ e, Event.waitGuardrailDeleted e ∉ r.trace) ∧
    (errorsAsResourceNotFound err = false →
      ∃ r, resourceGuardrail.Delete env conn fuel req resp = .done r ∧
        r.response.Diagnostics =
          resp.Diagnostics ++ req.State.GetDiags ++
            [{ severity := .error
               summary := env.ProblemStandardMessage env.Bedrock .Deleting
                 ResNameGuardrail (env.StringOf req.State.Raw.ID) (some (.sdk err))
               detail := env.ErrorString (.sdk err) }] ∧
        HasError r.response.Diagnostics = true ∧
        r.trace = [.DeleteGuardrail false] ∧
        ∀ e, Event.waitGuardrailDeleted e ∉ r.trace) := by
  constructor
  · intro he
    refine ⟨_, by unfold resourceGuardrail.Delete; simp [hdiags, hcall, he]; rfl, ?_⟩
    simp
  · intro he
    refine ⟨_, by unfold resourceGuardrail.Delete; simp [hdiags, hcall, he, AddError]; rfl, ?_⟩
    simp [HasError]

/-- Witness for C23: the guardrail is already gone when `Delete` runs. -/
theorem delete_idempotent_witness :
    ∃ r,
      resourceGuardrail.Delete sampleEnv
        { scriptedClient [] with
          DeleteGuardrail := fun _ => (none, some (.resourceNotFoundException "gone")) }
        10 { State := { Raw := sampleData } } {} = .done r ∧
      r.response.Diagnostics = [] ∧ r.response.State = none ∧
      r.trace = [.DeleteGuardrail false] ∧
      ∀ e, Event.waitGuardrailDeleted e ∉ r.trace :=
  (delete_idempotent sampleEnv
    { scriptedClient [] with
      DeleteGuardrail := fun _ => (none, some (.resourceNotFoundException "gone")) }
    10 { State := { Raw := sampleData } } {} none (.resourceNotFoundException "gone")
    rfl rfl).1 rfl

/-- C24. When its lookup fails with an error for which `tfresource.NotFound` holds, `Read`
removes the resource from the state and adds no diagnostic; for any other error of the
lookup it adds an error diagnostic and leaves the state as it was. -/
theorem read_lookup_errors (env : Env) (conn : Client) (req : ReadRequest) (resp : Response)
    (e : Error)
    (hdiags : HasError (resp.Diagnostics ++ req.State.GetDiags) = false)
    (hfind : (findGuardrailByID conn req.State.Raw.ID.ValueString
      req.State.Raw.Version.ValueString 0).2 = some e) :
    (env.NotFound (some e) = true →
      ∃ r, resourceGuardrail.Read env conn req resp = .done r ∧
        r.response.State = none ∧
        r.response.Diagnostics = resp.Diagnostics ++ req.State.GetDiags ∧
        HasError r.response.Diagnostics = false ∧
        r.trace = [.findGuardrailByID]) ∧
    (env.NotFound (some e) = false →
      ∃ r, resourceGuardrail.Read env conn req resp = .done r ∧
        r.response.State = resp.State ∧
        r.response.Diagnostics =
          resp.Diagnostics ++ req.State.GetDiags ++
            [{ severity := .error
               summary := env.ProblemStandardMessage env.Bedrock .Setting
                 ResNameGuardrail (env.StringOf req.State.Raw.ID) (some (.find e))
               detail := env.ErrorString (.find e) }] ∧
        r.trace = [.findGuardrailByID]) := by
  rcases hf : findGuardrailByID conn req.State.Raw.ID.ValueString
    req.State.Raw.Version.ValueString 0 with ⟨out, err⟩
  rw [hf] at hfind
  simp only at hfind
  subst hfind
  constructor
  · intro he
    refine ⟨_, by unfold resourceGuardrail.Read; simp [hdiags, hf, he]; rfl, ?_⟩
    simp [hdiags]
  · intro he
    refine ⟨_, by unfold resourceGuardrail.Read; simp [hdiags, hf, he, AddError]; rfl, ?_⟩
    simp

/-- Witness for C24: the guardrail of the prior state is gone. -/
theorem read_lookup_errors_witness :
    ∃ r,
      resourceGuardrail.Read sampleEnv (scriptedClient [none])
        { State := { Raw := sampleData } } { State := some sampleData } = .done r ∧
      r.response.State = none ∧ r.response.Diagnostics = [] ∧
      HasError r.response.Diagnostics = false ∧ r.trace = [.findGuardrailByID] :=
  (read_lookup_errors sampleEnv (scriptedClient [none]) { State := { Raw := sampleData } }
    { State := some sampleData }
    (.notFoundError (.wrapped "GetGuardrail" (.resourceNotFoundException "gone"))
      { GuardrailIdentifier := "g", GuardrailVersion := "DRAFT" })
    rfl rfl).1 rfl

/-- C25 (amended). In `Update`, when the plan equals the prior state on all ten compared
fields (and the plan and the state were decoded without error), no `UpdateGuardrail`
request is issued and `Update` makes no lookup of its own; the waiter
`waitGuardrailUpdated` still runs, on the id and version of the prior state, and issues at
least one probe, and these probes are the only lookups.  When the waiter succeeds the state
is written, with status, ARN, id, version and `created_at` equal to the values of the prior
state; when it fails the state is left as it was.  With positive polling intervals and fuel
beyond the timeout the operation does return.  When decoding fails nothing is done at
all. -/
theorem update_unchanged (env : Env) (conn : Client) (fuel : Nat) (req : UpdateRequest)
    (resp : Response)
    (hun : guardrailChanged req.Plan.Raw req.State.Raw = false)
    (hpos : ∀ k, 0 < env.interval k)
    (hfuel : env.UpdateTimeout req.Plan.Raw.Timeouts + 2 ≤ fuel) :
    (HasError (resp.Diagnostics ++ req.Plan.GetDiags ++ req.State.GetDiags) = true →
      resourceGuardrail.Update env conn fuel req resp = .done
        { response :=
            { resp with
              Diagnostics := resp.Diagnostics ++ req.Plan.GetDiags ++ req.State.GetDiags }
          trace := [] }) ∧
    (HasError (resp.Diagnostics ++ req.Plan.GetDiags ++ req.State.GetDiags) = false →
      ∃ w r,
        waitGuardrailUpdated env.NotFound env.interval conn
          req.State.Raw.ID.ValueString req.State.Raw.Version.ValueString
          (env.UpdateTimeout req.Plan.Raw.Timeouts) fuel = some w ∧
        0 < w.polls ∧
        resourceGuardrail.Update env conn fuel req resp = .done r ∧
        (∀ ok, Event.UpdateGuardrail ok ∉ r.trace) ∧
        Event.findGuardrailByID ∉ r.trace ∧
        Event.waitGuardrailUpdated w.err ∈ r.trace ∧
        (w.err = none →
          r.trace = [.waitGuardrailUpdated none, .StateSet] ∧
          ∃ data, r.response.State = some data ∧
            data.Status = req.State.Raw.Status ∧
            data.GuardrailArn = req.State.Raw.GuardrailArn ∧
            data.ID = req.State.Raw.ID ∧
            data.Version = req.State.Raw.Version ∧
            data.CreatedAt = req.State.Raw.CreatedAt) ∧
        (w.err ≠ none →
          r.trace = [.waitGuardrailUpdated w.err] ∧ r.response.State = resp.State)) := by
  constructor
  · intro hdiags
    simp only [List.append_assoc] at hdiags
    unfold resourceGuardrail.Update
    simp [hdiags]
  · intro hdiags
    simp only [List.append_assoc] at hdiags
    obtain ⟨w, hw, -⟩ := wait_outcome
      (updatedConf env.NotFound conn req.State.Raw.ID.ValueString
        req.State.Raw.Version.ValueString (env.UpdateTimeout req.Plan.Raw.Timeouts))
      env.interval hpos fuel hfuel
    have hpolls := wait_polls_pos _ env.interval fuel w hw
    rw [← waitGuardrailUpdated_eq] at hw
    rcases hwe : w.err with _ | e
    · refine ⟨w, _, hw, hpolls, by
        unfold resourceGuardrail.Update resourceGuardrail.updateWait
        simp [hun, hdiags, hw, hwe]
        rfl, ?_⟩
      simp [hwe]
    · refine ⟨w, _, hw, hpolls, by
        unfold resourceGuardrail.Update resourceGuardrail.updateWait
        simp [hun, hdiags, hw, hwe]
        rfl, ?_⟩
      simp [hwe]

/-- Witness for C25 (amended): an update that changes nothing, on a guardrail that is
READY. -/
theorem update_unchanged_witness :
    ∃ w r,
      waitGuardrailUpdated sampleEnv.NotFound sampleEnv.interval
        (sampleGuardrailClient [some "READY", some "READY"]) "g" "DRAFT" 100 102 = some w ∧
      0 < w.polls ∧
      resourceGuardrail.Update sampleEnv (sampleGuardrailClient [some "READY", some "READY"])
        102
        { Plan := { Raw := { sampleData with Status := .unknown, GuardrailArn := .unknown } }
          State := { Raw := sampleData } } {} = .done r ∧
      Event.findGuardrailByID ∉ r.trace ∧
      r.trace = [.waitGuardrailUpdated none, .StateSet] ∧
      r.response.State = some sampleData := by
  obtain ⟨w, r, h1, h2, h3, -, h5, -, h7, -⟩ :=
    (update_unchanged sampleEnv (sampleGuardrailClient [some "READY", some "READY"]) 102
      { Plan := { Raw := { sampleData with Status := .unknown, GuardrailArn := .unknown } }
        State := { Raw := sampleData } } {} rfl (fun _ => Nat.one_pos) (by decide)).2 rfl
  have hw : w = { result := some { Status := "READY", GuardrailId := "g", Version := "DRAFT",
                                   UpdatedAt := 1 },
                  err := none, polls := 2, probeTimes := [1, 0], elapsed := 1 } :=
    Option.some.inj (h1.symm.trans rfl)
  have hr : r = { response := { Diagnostics := [], State := some sampleData },
                  trace := [.waitGuardrailUpdated none, .StateSet] } := by
    have h3' : resourceGuardrail.Update sampleEnv
        (sampleGuardrailClient [some "READY", some "READY"]) 102
        { Plan := { Raw := { sampleData with Status := .unknown, GuardrailArn := .unknown } }
          State := { Raw := sampleData } } {} = .done
          { response := { Diagnostics := [], State := some sampleData },
            trace := [.waitGuardrailUpdated none, .StateSet] } := rfl
    rw [h3] at h3'
    cases h3'
    rfl
  exact ⟨w, r, h1, h2, h3, h5, (h7 (by rw [hw])).1, by rw [hr]⟩

/-- Counterexample to C25 as stated: in an update that changes nothing, the waiter runs and
issues two probes, each of them a lookup `findGuardrailByID` (here the first two reads of
the service, both answered READY); so lookups are issued. -/
theorem update_unchanged_issues_lookups :
    ∃ r w,
      guardrailChanged sampleData sampleData = false ∧
      resourceGuardrail.Update sampleEnv (sampleGuardrailClient [some "READY", some "READY"])
        10 { Plan := { Raw := sampleData }, State := { Raw := sampleData } } {} = .done r ∧
      r.trace = [.waitGuardrailUpdated none, .StateSet] ∧
      waitGuardrailUpdated sampleEnv.NotFound sampleEnv.interval
        (sampleGuardrailClient [some "READY", some "READY"]) "g" "DRAFT" 100 10 = some w ∧
      w.polls = 2 ∧
      (∀ k, k < w.polls →
        (statusGuardrail sampleEnv.NotFound (sampleGuardrailClient [some "READY", some "READY"])
          "g" "DRAFT" k).result =
        (findGuardrailByID (sampleGuardrailClient [some "READY", some "READY"])
          "g" "DRAFT" k).1 ∧
        (findGuardrailByID (sampleGuardrailClient [some "READY", some "READY"])
          "g" "DRAFT" k).1.map (fun out => out.Status) = some "READY") :=
  ⟨_, _, rfl, rfl, rfl, rfl, rfl, by decide⟩

/-! ## The validators of the name -/

section NameValidators

lemma guardrailNameRegex_eq :
    guardrailNameRegex =
      some { ranges := [⟨'0', '9'⟩, ⟨'a', 'z'⟩, ⟨'A', 'Z'⟩, ⟨'-', '-'⟩, ⟨'_', '_'⟩] } := by
  rfl

/-- The class of the expression, character by character. -/
lemma inRanges_name (c : Char) :
    inRanges [⟨'0', '9'⟩, ⟨'a', 'z'⟩, ⟨'A', 'Z'⟩, ⟨'-', '-'⟩, ⟨'_', '_'⟩] c = true ↔
      (isAsciiLetter c ∨ isAsciiDigit c ∨ c = '-' ∨ c = '_') := by
  have h0 : ('0' : Char).toNat = 48 := rfl
  have h9 : ('9' : Char).toNat = 57 := rfl
  have ha : ('a' : Char).toNat = 97 := rfl
  have hz : ('z' : Char).toNat = 122 := rfl
  have hA : ('A' : Char).toNat = 65 := rfl
  have hZ : ('Z' : Char).toNat = 90 := rfl
  have hm : ('-' : Char).toNat = 45 := rfl
  have hu : ('_' : Char).toNat = 95 := rfl
  have hmi : c = '-' ↔ c.toNat = 45 :=
    ⟨fun h => h ▸ rfl, fun h => Char.ext (UInt32.ext h)⟩
  have hui : c = '_' ↔ c.toNat = 95 :=
    ⟨fun h => h ▸ rfl, fun h => Char.ext (UInt32.ext h)⟩
  simp only [inRanges, List.any_cons, List.any_nil, Bool.or_false, Bool.or_eq_true,
    decide_eq_true_eq, h0, h9, ha, hz, hA, hZ, hm, hu, isAsciiLetter, isAsciiDigit, hmi, hui]
  omega

lemma utf8Len_of_name_char (c : Char)
    (h : isAsciiLetter c ∨ isAsciiDigit c ∨ c = '-' ∨ c = '_') : utf8Len c = 1 := by
  have hlt : c.toNat < 128 := by
    rcases h with h | h | h | h
    · unfold isAsciiLetter at h; omega
    · unfold isAsciiDigit at h; omega
    · subst h; decide
    · subst h; decide
  simp [utf8Len, hlt]

lemma sum_utf8Len_of_name_chars : ∀ (l : List Char),
    (∀ c ∈ l, isAsciiLetter c ∨ isAsciiDigit c ∨ c = '-' ∨ c = '_') →
    (l.map utf8Len).sum = l.length := by
  intro l
  induction l with
  | nil => intro _; rfl
  | cons c cs ih =>
    intro h
    simp only [List.map_cons, List.sum_cons, List.length_cons]
    rw [utf8Len_of_name_char c (h c (List.mem_cons_self c cs)),
      ih (fun d hd => h d (List.mem_cons_of_mem c hd))]
    omega

end NameValidators

/-- C26. The validators of the attribute `name` accept a string if and only if its length is
between 1 and 50 and each of its characters is an ASCII letter, an ASCII digit, a hyphen or
an underscore.  The class of the expression `^[0-9a-zA-Z-_]+$` is made of the ranges `0-9`,
`a-z` and `A-Z`, the hyphen and the underscore: the hyphen after `A-Z` stands for itself and
opens no range from `Z` to the underscore. -/
theorem name_validators_accept (s : String) :
    guardrailNameRegex =
      some { ranges := [⟨'0', '9'⟩, ⟨'a', 'z'⟩, ⟨'A', 'Z'⟩, ⟨'-', '-'⟩, ⟨'_', '_'⟩] } ∧
    (acceptedBy nameValidators s = true ↔
      1 ≤ s.length ∧ s.length ≤ 50 ∧
      ∀ c ∈ s.data, isAsciiLetter c ∨ isAsciiDigit c ∨ c = '-' ∨ c = '_') := by
  refine ⟨guardrailNameRegex_eq, ?_⟩
  have hall : (s.data.all
      (inRanges [⟨'0', '9'⟩, ⟨'a', 'z'⟩, ⟨'A', 'Z'⟩, ⟨'-', '-'⟩, ⟨'_', '_'⟩]) = true) ↔
      ∀ c ∈ s.data, isAsciiLetter c ∨ isAsciiDigit c ∨ c = '-' ∨ c = '_' := by
    rw [List.all_eq_true]
    exact ⟨fun h c hc => (inRanges_name c).mp (h c hc),
      fun h c hc => (inRanges_name c).mpr (h c hc)⟩
  have hlen : s.length = s.data.length := rfl
  simp only [acceptedBy, nameValidators, List.all_cons, List.all_nil, Bool.and_true,
    Bool.and_eq_true, LengthBetween, decide_eq_true_eq, RegexMatches, guardrailNameRegex_eq,
    Regexp.MatchString, Bool.not_eq_true', hall, goLen]
  constructor
  · rintro ⟨⟨h1, h2⟩, _, h4⟩
    rw [sum_utf8Len_of_name_chars s.data h4] at h1 h2
    exact ⟨by omega, by omega, h4⟩
  · rintro ⟨h1, h2, h3⟩
    rw [sum_utf8Len_of_name_chars s.data h3]
    refine ⟨⟨by omega, by omega⟩, ?_, h3⟩
    cases hd : s.data with
    | nil => rw [hlen, hd] at h1; simp at h1
    | cons c cs => rfl

/-- Witness for C26: a name with a hyphen and an underscore is accepted; a name with a
character between `Z` and the underscore, with a space, or of 51 characters is rejected, and
so is the empty name. -/
theorem name_validators_accept_witness :
    acceptedBy nameValidators "my-guardrail_01" = true ∧
    acceptedBy nameValidators "a^b" = false ∧
    acceptedBy nameValidators "a b" = false ∧
    acceptedBy nameValidators "" = false ∧
    acceptedBy nameValidators (String.mk (List.replicate 51 'a')) = false :=
  ⟨(name_validators_accept "my-guardrail_01").2.mpr (by decide), by decide, by decide,
    by decide, by decide⟩

end Bedrock

namespace Fwprovider

open Bedrock (Diagnostic AddError)

section WrappedClaims

variable {γ κ δ ν : Type}

/-- C18. For every wrapped resource and each of `Create`, `Read`, `Update` and `Delete`, the
wrapper emits the debug log `<typeName>.<Op> enter`, then calls the same operation of the
inner handler, once, with the context, request and response it was given, then emits
`<typeName>.<Op> exit`; it does nothing else, and the response it leaves is the one the
inner operation returns.  The same holds of `Read` on a wrapped data source. -/
theorem wrapped_lifecycle_logs (w : wrappedResource γ κ δ ν) (v : wrappedDataSource γ κ δ)
    (ctx : γ) (request : κ) (response : Resp δ) :
    ((w.Create ctx request response).actions =
        [.Debug ctx (w.typeName ++ ".Create enter"), .Inner .Create ctx request response,
          .Debug ctx (w.typeName ++ ".Create exit")] ∧
      (w.Create ctx request response).response = w.inner.Create ctx request response) ∧
    ((w.Read ctx request response).actions =
        [.Debug ctx (w.typeName ++ ".Read enter"), .Inner .Read ctx request response,
          .Debug ctx (w.typeName ++ ".Read exit")] ∧
      (w.Read ctx request response).response = w.inner.Read ctx request response) ∧
    ((w.Update ctx request response).actions =
        [.Debug ctx (w.typeName ++ ".Update enter"), .Inner .Update ctx request response,
          .Debug ctx (w.typeName ++ ".Update exit")] ∧
      (w.Update ctx request response).response = w.inner.Update ctx request response) ∧
    ((w.Delete ctx request response).actions =
        [.Debug ctx (w.typeName ++ ".Delete enter"), .Inner .Delete ctx request response,
          .Debug ctx (w.typeName ++ ".Delete exit")] ∧
      (w.Delete ctx request response).response = w.inner.Delete ctx request response) ∧
    ((v.Read ctx request response).actions =
        [.Debug ctx (v.typeName ++ ".Read enter"), .Inner .Read ctx request response,
          .Debug ctx (v.typeName ++ ".Read exit")] ∧
      (v.Read ctx request response).response = v.inner.Read ctx request response) :=
  ⟨⟨rfl, rfl⟩, ⟨rfl, rfl⟩, ⟨rfl, rfl⟩, ⟨rfl, rfl⟩, ⟨rfl, rfl⟩⟩

/-- C19. For every wrapped resource, `ImportState` (and likewise `Schema`) is forwarded to
the inner handler, with the arguments given and nothing else done, when the inner handler
implements the capability; otherwise the wrapper adds exactly one error diagnostic,
"Resource Import Not Implemented" (likewise "Resource Schema Not Implemented"), and calls
nothing.  When the inner handler lacks the capability, `ModifyPlan` and `ValidateConfig`
leave the response unchanged and `ConfigValidators` returns nil, again without any call. -/
theorem wrapped_optional_capabilities (w : wrappedResource γ κ δ ν) (ctx : γ) (request : κ)
    (response : Resp δ) :
    (∀ f, w.inner.ImportState = some f →
      (w.ImportState ctx request response).response = f ctx request response ∧
      (w.ImportState ctx request response).actions
        = [.Inner .ImportState ctx request response]) ∧
    (w.inner.ImportState = none →
      (w.ImportState ctx request response).response =
        { response with
          Diagnostics := response.Diagnostics ++
            [{ severity := .error, summary := "Resource Import Not Implemented"
               detail := "This resource does not support import. Please contact the " ++
                 "provider developer for additional information." }] } ∧
      (w.ImportState ctx request response).actions = []) ∧
    (∀ f, w.inner.Schema = some f →
      (w.Schema ctx request response).response = f ctx request response ∧
      (w.Schema ctx request response).actions = [.Inner .Schema ctx request response]) ∧
    (w.inner.Schema = none →
      (w.Schema ctx request response).response =
        { response with
          Diagnostics := response.Diagnostics ++
            [{ severity := .error, summary := "Resource Schema Not Implemented"
               detail := "This resource does not support get schema. Please contact the " ++
                 "provider developer for additional information." }] } ∧
      (w.Schema ctx request response).actions = []) ∧
    (w.inner.ModifyPlan = none →
      (w.ModifyPlan ctx request response).response = response ∧
      (w.ModifyPlan ctx request response).actions = []) ∧
    (w.inner.ValidateConfig = none →
      (w.ValidateConfig ctx request response).response = response ∧
      (w.ValidateConfig ctx request response).actions = []) ∧
    (w.inner.ConfigValidators = none →
      wrappedResource.ConfigValidators w ctx = (none, ([] : List (Action γ κ δ)))) := by
  refine ⟨?_, ?_, ?_, ?_, ?_, ?_, ?_⟩
  · intro f h
    simp [wrappedResource.ImportState, h]
  · intro h
    simp [wrappedResource.ImportState, h, AddError]
  · intro f h
    simp [wrappedResource.Schema, h]
  · intro h
    simp [wrappedResource.Schema, h, AddError]
  · intro h
    simp [wrappedResource.ModifyPlan, h]
  · intro h
    simp [wrappedResource.ValidateConfig, h]
  · intro h
    simp [wrappedResource.ConfigValidators, h]

end WrappedClaims

/-- Witness for C18: a handler whose operations set the data of the response, wrapped by
`newWrappedResource`. -/
theorem wrapped_lifecycle_logs_witness :
    ((newWrappedResource
        ({ TypeString := "*bedrock.resourceGuardrail"
           Metadata := fun _ _ r => r, Create := fun _ _ r => { r with Data := 1 }
           Read := fun _ _ r => r, Update := fun _ _ r => r, Delete := fun _ _ r => r
           Configure := fun _ _ r => r } : ResourceWithConfigure Unit Unit Nat Unit)).Create
        () () { Data := 0 }).actions =
      [.Debug () "bedrock.resourceGuardrail.Create enter", .Inner .Create () () { Data := 0 },
        .Debug () "bedrock.resourceGuardrail.Create exit"] ∧
    ((newWrappedResource
        ({ TypeString := "*bedrock.resourceGuardrail"
           Metadata := fun _ _ r => r, Create := fun _ _ r => { r with Data := 1 }
           Read := fun _ _ r => r, Update := fun _ _ r => r, Delete := fun _ _ r => r
           Configure := fun _ _ r => r } : ResourceWithConfigure Unit Unit Nat Unit)).Create
        () () { Data := 0 }).response = { Data := 1 } :=
  (wrapped_lifecycle_logs
    (newWrappedResource
      ({ TypeString := "*bedrock.resourceGuardrail"
         Metadata := fun _ _ r => r, Create := fun _ _ r => { r with Data := 1 }
         Read := fun _ _ r => r, Update := fun _ _ r => r, Delete := fun _ _ r => r
         Configure := fun _ _ r => r } : ResourceWithConfigure Unit Unit Nat Unit))
    (newWrappedDataSource
      ({ TypeString := "*ecs.dataSourceCluster"
         Metadata := fun _ _ r => r, Read := fun _ _ r => r
         Configure := fun _ _ r => r } : DataSourceWithConfigure Unit Unit Nat))
    () () { Data := 0 }).1

/-- Witness for C19: a handler without the import capability. -/
theorem wrapped_optional_capabilities_witness :
    ((newWrappedResource
        ({ TypeString := "*bedrock.resourceGuardrail"
           Metadata := fun _ _ r => r, Create := fun _ _ r => r
           Read := fun _ _ r => r, Update := fun _ _ r => r, Delete := fun _ _ r => r
           Configure := fun _ _ r => r } : ResourceWithConfigure Unit Unit Nat Unit)).ImportState
        () () { Data := 0 }).response =
      { Diagnostics :=
          [{ severity := .error, summary := "Resource Import Not Implemented"
             detail := "This resource does not support import. Please contact the " ++
               "provider developer for additional information." }]
        Data := 0 } :=
  ((wrapped_optional_capabilities
    (newWrappedResource
      ({ TypeString := "*bedrock.resourceGuardrail"
         Metadata := fun _ _ r => r, Create := fun _ _ r => r
         Read := fun _ _ r => r, Update := fun _ _ r => r, Delete := fun _ _ r => r
         Configure := fun _ _ r => r } : ResourceWithConfigure Unit Unit Nat Unit))
    () () { Data := 0 }).2.1 rfl).1

section RegistrationClaims

variable {γ κ δ ν : Type}

lemma foldl_resourcesStep (ctx : γ) (name : String) :
    ∀ (l : List (γ → ResourceWithConfigure γ κ δ ν × Option String))
      (acc : List (Unit → wrappedResource γ κ δ ν) × List Warning),
      l.foldl (resourcesStep ctx name) acc =
        (acc.1 ++ ((l.map (fun v => (name, v ctx))).filter (fun r => r.2.2.isNone)).map
            (fun r => fun _ => newWrappedResource r.2.1),
          acc.2 ++ (l.map (fun v => (name, v ctx))).filterMap
            (fun r => r.2.2.map (fun err =>
              ({ msg := "creating resource", service_package_name := r.1,
                 error := err } : Warning)))) := by
  intro l
  induction l with
  | nil => intro acc; simp
  | cons v vs ih =>
    intro acc
    rw [List.foldl_cons, ih]
    rcases hv : v ctx with ⟨inst, _ | err⟩ <;> simp [resourcesStep, hv]

lemma foldl_dataSourcesStep (ctx : γ) (name : String) :
    ∀ (l : List (γ → DataSourceWithConfigure γ κ δ × Option String))
      (acc : List (Unit → wrappedDataSource γ κ δ) × List Warning),
      l.foldl (dataSourcesStep ctx name) acc =
        (acc.1 ++ ((l.map (fun v => (name, v ctx))).filter (fun r => r.2.2.isNone)).map
            (fun r => fun _ => newWrappedDataSource r.2.1),
          acc.2 ++ (l.map (fun v => (name, v ctx))).filterMap
            (fun r => r.2.2.map (fun err =>
              ({ msg := "creating data source", service_package_name := r.1,
                 error := err } : Warning)))) := by
  intro l
  induction l with
  | nil => intro acc; simp
  | cons v vs ih =>
    intro acc
    rw [List.foldl_cons, ih]
    rcases hv : v ctx with ⟨inst, _ | err⟩ <;> simp [dataSourcesStep, hv]

lemma foldl_resources (ctx : γ) :
    ∀ (sps : List (ServicePackage γ (ResourceWithConfigure γ κ δ ν)
        (DataSourceWithConfigure γ κ δ)))
      (acc : List (Unit → wrappedResource γ κ δ ν) × List Warning),
      sps.foldl (fun acc sp =>
          (sp.FrameworkResources ctx).foldl (resourcesStep ctx sp.ServicePackageName) acc) acc =
        (acc.1 ++ ((resourceFactoryResults ctx sps).filter (fun r => r.2.2.isNone)).map
            (fun r => fun _ => newWrappedResource r.2.1),
          acc.2 ++ (resourceFactoryResults ctx sps).filterMap
            (fun r => r.2.2.map (fun err =>
              ({ msg := "creating resource", service_package_name := r.1,
                 error := err } : Warning)))) := by
  intro sps
  induction sps with
  | nil => intro acc; simp [resourceFactoryResults]
  | cons sp sps ih =>
    intro acc
    rw [List.foldl_cons, ih, foldl_resourcesStep]
    simp [resourceFactoryResults, List.append_assoc]

lemma foldl_dataSources (ctx : γ) :
    ∀ (sps : List (ServicePackage γ (ResourceWithConfigure γ κ δ ν)
        (DataSourceWithConfigure γ κ δ)))
      (acc : List (Unit → wrappedDataSource γ κ δ) × List Warning),
      sps.foldl (fun acc sp =>
          (sp.FrameworkDataSources ctx).foldl (dataSourcesStep ctx sp.ServicePackageName) acc)
          acc =
        (acc.1 ++ ((dataSourceFactoryResults ctx sps).filter (fun r => r.2.2.isNone)).map
            (fun r => fun _ => newWrappedDataSource r.2.1),
          acc.2 ++ (dataSourceFactoryResults ctx sps).filterMap
            (fun r => r.2.2.map (fun err =>
              ({ msg := "creating data source", service_package_name := r.1,
                 error := err } : Warning)))) := by
  intro sps
  induction sps with
  | nil => intro acc; simp [dataSourceFactoryResults]
  | cons sp sps ih =>
    intro acc
    rw [List.foldl_cons, ih, foldl_dataSourcesStep]
    simp [dataSourceFactoryResults, List.append_assoc]

/-- C21. The method `Resources` (and likewise `DataSources`) returns one constructor for
each factory that returned no error, in service-package order then factory order: the
constructors, called in turn, give the wrappers of the instances built by the successful
factories, in that order, so there are as many constructors as successful factories and
the `i`-th one wraps the `i`-th instance built; a factory that returns an error adds no
constructor and logs one warning with the name of its service package and the error. -/
theorem registration_in_order (ctx : γ)
    (sps : List (ServicePackage γ (ResourceWithConfigure γ κ δ ν)
      (DataSourceWithConfigure γ κ δ))) :
    ((Resources ctx sps).1.map (fun c => (c ()).inner) =
        ((resourceFactoryResults ctx sps).filter (fun r => r.2.2.isNone)).map
          (fun r => r.2.1) ∧
      (Resources ctx sps).1.map (fun c => c ()) =
        ((resourceFactoryResults ctx sps).filter (fun r => r.2.2.isNone)).map
          (fun r => newWrappedResource r.2.1) ∧
      (Resources ctx sps).1.length =
        ((resourceFactoryResults ctx sps).filter (fun r => r.2.2.isNone)).length ∧
      (Resources ctx sps).2 =
        (resourceFactoryResults ctx sps).filterMap
          (fun r => r.2.2.map (fun err =>
            ({ msg := "creating resource", service_package_name := r.1,
               error := err } : Warning)))) ∧
    ((DataSources ctx sps).1.map (fun c => (c ()).inner) =
        ((dataSourceFactoryResults ctx sps).filter (fun r => r.2.2.isNone)).map
          (fun r => r.2.1) ∧
      (DataSources ctx sps).1.map (fun c => c ()) =
        ((dataSourceFactoryResults ctx sps).filter (fun r => r.2.2.isNone)).map
          (fun r => newWrappedDataSource r.2.1) ∧
      (DataSources ctx sps).1.length =
        ((dataSourceFactoryResults ctx sps).filter (fun r => r.2.2.isNone)).length ∧
      (DataSources ctx sps).2 =
        (dataSourceFactoryResults ctx sps).filterMap
          (fun r => r.2.2.map (fun err =>
            ({ msg := "creating data source", service_package_name := r.1,
               error := err } : Warning)))) := by
  have hr := foldl_resources (ν := ν) ctx sps ([], [])
  have hd := foldl_dataSources (ν := ν) ctx sps ([], [])
  simp only [List.nil_append] at hr hd
  refine ⟨⟨?_, ?_, ?_, ?_⟩, ⟨?_, ?_, ?_, ?_⟩⟩
  · simp [Resources, hr, newWrappedResource, Function.comp_def]
  · simp [Resources, hr, Function.comp_def]
  · simp [Resources, hr]
  · simp [Resources, hr]
  · simp [DataSources, hd, newWrappedDataSource, Function.comp_def]
  · simp [DataSources, hd, Function.comp_def]
  · simp [DataSources, hd]
  · simp [DataSources, hd]

end RegistrationClaims

end Fwprovider

namespace ServicePackages

/-- C20. Within the ECS service package and within the FSx service package, the type names
listed by `SDKResources` are pairwise distinct, and so are the type names listed by
`SDKDataSources`. -/
theorem type_names_distinct :
    (Ecs.SDKResources.map (fun r => r.TypeName)).Nodup ∧
    (Ecs.SDKDataSources.map (fun r => r.TypeName)).Nodup ∧
    (Fsx.SDKResources.map (fun r => r.TypeName)).Nodup ∧
    (Fsx.SDKDataSources.map (fun r => r.TypeName)).Nodup := by
  refine ⟨?_, ?_, ?_, ?_⟩ <;> decide

end ServicePackages
